import Mathlib

/-! # fheroes2 GUI buttons (`src/fheroes2/gui/ui_button.cpp`)

A shallow embedding of the button widgets: `ButtonBase` with its two sprite
sources (`Button`, `ButtonSprite`), `ButtonGroup`, `ButtonRestorer` and
`OptionButtonGroup`.

Conventions of the embedding.

* `int32_t` values are `Int`; signed overflow is undefined behaviour in C++
  and is not modelled (all arithmetic is exact).
* A `const Sprite &` is a pair of an address and the sprite stored there, so
  that the pointer comparison of `ButtonBase::_getDisabled` can be expressed.
* Everything a member function does to the outside world (blitting on the
  output image, presenting a rectangle on the display, notifying the
  subscribed receiver) is returned as a list of `Event`s, oldest first.
* The collaborators that are not part of `ui_button.cpp` (sprite atlas,
  palette darkening, settings, input polling, dialog constants, image library)
  are parameters, collected in `Env`, `Dialog`, `LocalEvent` and `ImageLib`.
-/

namespace fheroes2

/-! ## Data model -/

/-- Geometry and payload of `fheroes2::Sprite`: an image of `_width` by
`_height` pixels (`_data`) with the anchor `(_x, _y)`. -/
structure Sprite where
  _width : Int
  _height : Int
  _x : Int
  _y : Int
  _data : List Nat
deriving DecidableEq, Repr

/-- The rectangle type `fheroes2::Rect`. -/
structure Rect where
  x : Int
  y : Int
  width : Int
  height : Int
deriving DecidableEq, Repr

/-- Right edge of a rectangle: `x + width`. -/
def Rect.right (r : Rect) : Int := r.x + r.width

/-- Bottom edge of a rectangle: `y + height`. -/
def Rect.bottom (r : Rect) : Int := r.y + r.height

/-- What a member function does to the outside world. -/
inductive Event where
  /-- `Blit( sprite, output, x, y )`. -/
  | blit (sprite : Sprite) (x y : Int)
  /-- `Display::instance().render( roi )`. -/
  | render (roi : Rect)
  /-- `_receiver->senderUpdate( this )` on the receiver at address `receiver`. -/
  | notify (receiver : Nat)
deriving DecidableEq, Repr

/-- Collaborators of `ui_button.cpp` that live in other files. -/
structure Env where
  /-- `AGG::GetICN( icnId, index )`: the sprite of the atlas. -/
  GetICN : Int → Nat → Sprite
  /-- Address of the atlas entry that `AGG::GetICN( icnId, index )` refers to. -/
  addrICN : Int → Nat → Nat
  /-- `ApplyPalette( sprite, PAL::GetPalette( PAL::PaletteType::DARKENING ) )`. -/
  darken : Sprite → Sprite
  /-- `Image::empty()`. -/
  empty : Sprite → Bool
  /-- `Settings::Get().ExtGameEvilInterface()`. -/
  evilInterface : Bool
  /-- `ICN::SYSTEM`. -/
  SYSTEM : Int
  /-- `ICN::SYSTEME`. -/
  SYSTEME : Int

/-- The two classes derived from `ButtonBase`, with their data members. -/
inductive SpriteSource where
  /-- Members of `class Button`. -/
  | icn (_icnId : Int) (_releasedIndex _pressedIndex : Nat)
  /-- Members of `class ButtonSprite`; `addr` is the address of the member
  `_released`, which `_getReleased` returns a reference to. -/
  | sprites (addr : Nat) (_released _pressed _disabled : Sprite)
deriving DecidableEq, Repr

/-- Data members of `ButtonBase`, of its base `ActionObject` (`_receiver`) and
of the derived class (`source`). -/
structure ButtonBase where
  _offsetX : Int
  _offsetY : Int
  _isPressed : Bool
  _isEnabled : Bool
  _isVisible : Bool
  /-- The `mutable const Sprite * _releasedSprite`: `none` is `nullptr`. -/
  _releasedSprite : Option Nat
  /-- The `mutable std::unique_ptr<Sprite> _disabledSprite`. -/
  _disabledSprite : Option Sprite
  /-- Modelled from the spec: `ActionObject` is declared outside
  `ui_button.cpp`; it holds at most one outbound notification target. -/
  _receiver : Option Nat
  source : SpriteSource
deriving DecidableEq, Repr

namespace ButtonBase

/-- Constructor `ButtonBase::ButtonBase( offsetX, offsetY )` followed by the
derived class's member initialisers; a new `ActionObject` has no receiver. -/
def new (offsetX offsetY : Int) (source : SpriteSource) : ButtonBase :=
  { _offsetX := offsetX
    _offsetY := offsetY
    _isPressed := false
    _isEnabled := true
    _isVisible := true
    _releasedSprite := none
    _disabledSprite := none
    _receiver := none
    source := source }

/-- Member `ButtonBase::isEnabled`. -/
def isEnabled (b : ButtonBase) : Bool := b._isEnabled

/-- Member `ButtonBase::isDisabled`. -/
def isDisabled (b : ButtonBase) : Bool := !b._isEnabled

/-- Member `ButtonBase::isPressed`. -/
def isPressed (b : ButtonBase) : Bool := b._isPressed

/-- Member `ButtonBase::isReleased`. -/
def isReleased (b : ButtonBase) : Bool := !b._isPressed

/-- Member `ButtonBase::isVisible`. -/
def isVisible (b : ButtonBase) : Bool := b._isVisible

/-- Member `ButtonBase::isHidden`. -/
def isHidden (b : ButtonBase) : Bool := !b._isVisible

/-- Modelled from the spec: `ActionObject::subscribe` sets the notification
target. -/
def subscribe (b : ButtonBase) (receiver : Nat) : ButtonBase :=
  { b with _receiver := some receiver }

/-- Modelled from the spec: `ActionObject::unsubscribe` clears the
notification target. -/
def unsubscribe (b : ButtonBase) : ButtonBase :=
  { b with _receiver := none }

/-- Modelled from the spec: `ActionObject::updateSubscription` notifies the
target if one is subscribed. What the receiver does in `senderUpdate` is the
receiver's business; here the call is recorded. -/
def updateSubscription (b : ButtonBase) : List Event :=
  match b._receiver with
  | some r => [Event.notify r]
  | none => []

/-- Member `ButtonBase::press`. -/
def press (b : ButtonBase) : ButtonBase × List Event :=
  if b.isEnabled then
    let b1 := { b with _isPressed := true }
    (b1, b1.updateSubscription)
  else
    (b, [])

/-- Member `ButtonBase::release`. -/
def release (b : ButtonBase) : ButtonBase × List Event :=
  if b.isEnabled then
    let b1 := { b with _isPressed := false }
    (b1, b1.updateSubscription)
  else
    (b, [])

/-- Member `ButtonBase::enable`. -/
def enable (b : ButtonBase) : ButtonBase × List Event :=
  let b1 := { b with _isEnabled := true }
  (b1, b1.updateSubscription)

/-- Member `ButtonBase::disable`. -/
def disable (b : ButtonBase) : ButtonBase × List Event :=
  let b1 := { b with _isEnabled := false, _isPressed := false }
  (b1, b1.updateSubscription)

/-- Member `ButtonBase::show` (`show` is a reserved word of Lean). -/
def show_ (b : ButtonBase) : ButtonBase × List Event :=
  let b1 := { b with _isVisible := true }
  (b1, b1.updateSubscription)

/-- Member `ButtonBase::hide`. -/
def hide (b : ButtonBase) : ButtonBase × List Event :=
  let b1 := { b with _isVisible := false }
  (b1, b1.updateSubscription)

/-- Member `ButtonBase::setPosition`. -/
def setPosition (b : ButtonBase) (offsetX_ offsetY_ : Int) : ButtonBase × List Event :=
  ({ b with _offsetX := offsetX_, _offsetY := offsetY_ }, [])

/-- Virtual `_getPressed`: `Button::_getPressed` or `ButtonSprite::_getPressed`. -/
def _getPressed (env : Env) (b : ButtonBase) : Sprite :=
  match b.source with
  | .icn icnId _ pressedIndex => env.GetICN icnId pressedIndex
  | .sprites _ _ pressed _ => pressed

/-- Virtual `_getReleased`: `Button::_getReleased` or
`ButtonSprite::_getReleased`. -/
def _getReleased (env : Env) (b : ButtonBase) : Sprite :=
  match b.source with
  | .icn icnId releasedIndex _ => env.GetICN icnId releasedIndex
  | .sprites _ released _ _ => released

/-- Address of the sprite that `_getReleased` returns a reference to. -/
def _getReleasedAddr (env : Env) (b : ButtonBase) : Nat :=
  match b.source with
  | .icn icnId releasedIndex _ => env.addrICN icnId releasedIndex
  | .sprites addr _ _ _ => addr

/-- The default `ButtonBase::_getDisabled`: the cached darkened copy of the
released sprite, made anew when there is none or when the released sprite is
at another address than at the last call. Returns the button with its
`mutable` members updated, and the sprite. -/
def _getDisabledBase (env : Env) (b : ButtonBase) : ButtonBase × Sprite :=
  let sprite := b._getReleased env
  let addr := b._getReleasedAddr env
  match b._disabledSprite with
  | some cached =>
    if b._releasedSprite ≠ some addr then
      let d := env.darken sprite
      ({ b with _releasedSprite := some addr, _disabledSprite := some d }, d)
    else
      (b, cached)
  | none =>
    let d := env.darken sprite
    ({ b with _releasedSprite := some addr, _disabledSprite := some d }, d)

/-- Virtual `_getDisabled`: `ButtonSprite::_getDisabled` for a `ButtonSprite`,
the default of `ButtonBase` for a `Button`. -/
def _getDisabled (env : Env) (b : ButtonBase) : ButtonBase × Sprite :=
  match b.source with
  | .icn _ _ _ => b._getDisabledBase env
  | .sprites _ _ _ disabled =>
    if env.empty disabled then b._getDisabledBase env else (b, disabled)

/-- Member `ButtonBase::draw`. It is `const`, but `_getDisabled` may update
the `mutable` cache, so the button is returned too. -/
def draw (env : Env) (b : ButtonBase) : ButtonBase × List Event :=
  if !b.isVisible then
    (b, [])
  else if b.isPressed then
    let sprite := b._getPressed env
    (b, [Event.blit sprite (b._offsetX + sprite._x) (b._offsetY + sprite._y)])
  else if b.isEnabled then
    let sprite := b._getReleased env
    (b, [Event.blit sprite (b._offsetX + sprite._x) (b._offsetY + sprite._y)])
  else
    let (b1, sprite) := b._getDisabled env
    (b1, [Event.blit sprite (b1._offsetX + sprite._x) (b1._offsetY + sprite._y)])

/-- Member `ButtonBase::area`. -/
def area (env : Env) (b : ButtonBase) : Rect :=
  let sprite := if b.isPressed then b._getPressed env else b._getReleased env
  { x := b._offsetX + sprite._x
    y := b._offsetY + sprite._y
    width := sprite._width
    height := sprite._height }

/-- Member `ButtonBase::drawOnPress` on a button taken alone: the new state,
the events and the returned `bool`. The notification of `press()` is an event,
and `draw` goes on with the state that `press()` left: this is the member
function for a button whose receiver, if any, leaves the button itself alone.
The version in which the handler of an `OptionButtonGroup` runs inside
`press()`, before `draw`, is `World.drawOnPress`. -/
def drawOnPress (env : Env) (b : ButtonBase) : ButtonBase × List Event × Bool :=
  if !b.isPressed then
    let (b1, e1) := b.press
    let (b2, e2) := b1.draw env
    (b2, e1 ++ e2 ++ [Event.render (b2.area env)], true)
  else
    (b, [], false)

/-- Member `ButtonBase::drawOnRelease` on a button taken alone, like
`drawOnPress`; with the handler of an `OptionButtonGroup` run inside
`release()` it is `World.drawOnRelease`. -/
def drawOnRelease (env : Env) (b : ButtonBase) : ButtonBase × List Event × Bool :=
  if b.isPressed then
    let (b1, e1) := b.release
    let (b2, e2) := b1.draw env
    (b2, e1 ++ e2 ++ [Event.render (b2.area env)], true)
  else
    (b, [], false)

/-- Member `ButtonSprite::setSprite`: the three sprite members are assigned in
place, so the address of `_released` stays what it was. A `Button` has no such
member. -/
def setSprite (b : ButtonBase) (released pressed disabled : Sprite) : ButtonBase :=
  match b.source with
  | .sprites addr _ _ _ => { b with source := .sprites addr released pressed disabled }
  | .icn _ _ _ => b

end ButtonBase

/-- The calls a client can make on a button (`ButtonBase`'s public mutators). -/
inductive Op where
  | press
  | release
  | enable
  | disable
  | show_
  | hide
  | setPosition (offsetX_ offsetY_ : Int)
  | drawOnPress
  | drawOnRelease
deriving DecidableEq, Repr

/-- State of the button after one call. -/
def Op.run (env : Env) (b : ButtonBase) : Op → ButtonBase
  | .press => b.press.1
  | .release => b.release.1
  | .enable => b.enable.1
  | .disable => b.disable.1
  | .show_ => b.show_.1
  | .hide => b.hide.1
  | .setPosition x y => (b.setPosition x y).1
  | .drawOnPress => (b.drawOnPress env).1
  | .drawOnRelease => (b.drawOnRelease env).1

/-- State of the button after a sequence of calls, first call first. -/
def runOps (env : Env) (b : ButtonBase) (ops : List Op) : ButtonBase :=
  ops.foldl (Op.run env) b

/-- The invariant of `ButtonBase`: a pressed button is enabled. -/
def ButtonBase.Inv (b : ButtonBase) : Prop :=
  b._isPressed = true → b._isEnabled = true

/-! ## `OptionButtonGroup` and the buttons it points to -/

/-- Data members of `OptionButtonGroup`: `self` is the address of the group
(what `subscribe( this )` stores in a button), `_button` the
`std::vector<ButtonBase *>` of addresses of buttons. -/
structure OptionButtonGroup where
  self : Nat
  _button : List Nat
deriving DecidableEq, Repr

/-- The memory an `OptionButtonGroup` works on: the buttons by address
(address `a` is position `a` of `heap`), the group, the events that went to
the outside (notifications of receivers other than the group), and a counter
of the calls of `OptionButtonGroup::senderUpdate`. -/
structure World where
  heap : List ButtonBase
  group : OptionButtonGroup
  outbox : List Event
  senderUpdates : Nat
deriving DecidableEq, Repr

/-- A loop `for ( size_t i = start; i < _button.size(); ++i ) body( i, _button[i] )`
over the elements `ps` that are left; `none` is a failed body. -/
def forIdx {σ : Type} (body : σ → Nat → Nat → Option σ) : List Nat → Nat → σ → Option σ
  | [], _, s => some s
  | p :: ps, i, s =>
    match body s i p with
    | none => none
    | some s1 => forIdx body ps (i + 1) s1

/-- The entries of `ps` (the part of `_button` that starts at index `i`) whose
index satisfies `sel`. -/
def selAddrs (sel : Nat → Bool) : List Nat → Nat → List Nat
  | [], _ => []
  | p :: ps, i => if sel i then p :: selAddrs sel ps (i + 1) else selAddrs sel ps (i + 1)

namespace World

/-- Apply a member function without events (`subscribe`, `unsubscribe`) to the
button at address `a`; `none` when `a` is not the address of a button. -/
def modify (w : World) (a : Nat) (g : ButtonBase → ButtonBase) : Option World :=
  match w.heap[a]? with
  | none => none
  | some b => some { w with heap := w.heap.set a (g b) }

/-- Hand the events of a member function of the button at `sender` over:
a notification of the group runs the group's handler (`deliver`), everything
else goes to the outside. -/
def dispatch (deliver : World → Nat → Option World) (sender : Nat) :
    List Event → World → Option World
  | [], w => some w
  | Event.notify r :: es, w =>
    if r = w.group.self then
      match deliver w sender with
      | none => none
      | some w1 => dispatch deliver sender es w1
    else
      dispatch deliver sender es { w with outbox := w.outbox ++ [Event.notify r] }
  | e :: es, w => dispatch deliver sender es { w with outbox := w.outbox ++ [e] }

/-- Call the member function `op` on the button at address `a`: the button is
updated in place, and its notification reaches the receiver while the call is
still running (`updateSubscription()` is the last statement of `op`). -/
def call (deliver : World → Nat → Option World) (op : ButtonBase → ButtonBase × List Event)
    (w : World) (a : Nat) : Option World :=
  match w.heap[a]? with
  | none => none
  | some b => dispatch deliver a (op b).2 { w with heap := w.heap.set a (op b).1 }

/-- Member `OptionButtonGroup::unsubscribeAll`. -/
def unsubscribeAll (w : World) : Option World :=
  forIdx (fun w1 _ p => w1.modify p ButtonBase.unsubscribe) w.group._button 0 w

/-- Member `OptionButtonGroup::subscribeAll`. -/
def subscribeAll (w : World) : Option World :=
  forIdx (fun w1 _ p => w1.modify p (fun b => b.subscribe w1.group.self)) w.group._button 0 w

/-- The inner loop of `senderUpdate`: `release()` on every entry but entry `i`. -/
def releaseOthers (deliver : World → Nat → Option World) (i : Nat) (w : World) :
    Option World :=
  forIdx (fun w1 buttonId p =>
    if i ≠ buttonId then call deliver ButtonBase.release w1 p else some w1)
    w.group._button 0 w

/-- The body of the loop of `senderUpdate` for an entry `_button[i] = p` that
is the sender: when the sender is pressed, unsubscribe all, release the
others, subscribe all. -/
def senderUpdateAt (deliver : World → Nat → Option World) (i p : Nat) (w : World) :
    Option World :=
  match w.heap[p]? with
  | none => none
  | some button =>
    if button.isPressed then
      match w.unsubscribeAll with
      | none => none
      | some w2 =>
        match releaseOthers deliver i w2 with
        | none => none
        | some w3 => w3.subscribeAll
    else some w

/-- Member `OptionButtonGroup::senderUpdate`; `sender = none` is `nullptr`.
The `release()` calls it makes notify through `deliver`. -/
def senderUpdate (deliver : World → Nat → Option World) (w : World) (sender : Option Nat) :
    Option World :=
  match sender with
  | none => some w
  | some s =>
    forIdx (fun w1 i p => if s = p then senderUpdateAt deliver i p w1 else some w1)
      w.group._button 0 w

/-- The group's handler as the buttons reach it through
`updateSubscription()`; the handler may itself call buttons that notify the
group, which `fuel` bounds: `none` when `fuel` nested calls are not enough. -/
def deliver : Nat → World → Nat → Option World
  | 0, _, _ => none
  | fuel + 1, w, sender =>
    senderUpdate (deliver fuel) { w with senderUpdates := w.senderUpdates + 1 } (some sender)

/-- Call `press()` on the button at address `a`. -/
def press (fuel : Nat) (w : World) (a : Nat) : Option World :=
  call (deliver fuel) ButtonBase.press w a

/-- Call `release()` on the button at address `a`. -/
def release (fuel : Nat) (w : World) (a : Nat) : Option World :=
  call (deliver fuel) ButtonBase.release w a

/-- Member `ButtonBase::drawOnPress` on the button at address `a`: `press()`
runs first, and inside it the handler of the receiver; `draw` and the
rectangle to present then use the button as the handler left it. The result
is the world after the call, the blit and the presented rectangle, and the
returned `bool`; `none` as for `press`. -/
def drawOnPress (fuel : Nat) (env : Env) (w : World) (a : Nat) :
    Option (World × List Event × Bool) :=
  match w.heap[a]? with
  | none => none
  | some b =>
    if !b.isPressed then
      match press fuel w a with
      | none => none
      | some w1 =>
        match w1.heap[a]? with
        | none => none
        | some b1 =>
          some ({ w1 with heap := w1.heap.set a (b1.draw env).1 },
            (b1.draw env).2 ++ [Event.render ((b1.draw env).1.area env)], true)
    else
      some (w, [], false)

/-- Member `ButtonBase::drawOnRelease` on the button at address `a`, like
`World.drawOnPress`. -/
def drawOnRelease (fuel : Nat) (env : Env) (w : World) (a : Nat) :
    Option (World × List Event × Bool) :=
  match w.heap[a]? with
  | none => none
  | some b =>
    if b.isPressed then
      match release fuel w a with
      | none => none
      | some w1 =>
        match w1.heap[a]? with
        | none => none
        | some b1 =>
          some ({ w1 with heap := w1.heap.set a (b1.draw env).1 },
            (b1.draw env).2 ++ [Event.render ((b1.draw env).1.area env)], true)
    else
      some (w, [], false)

/-- Member `OptionButtonGroup::addButton`; `button = none` is `nullptr`. -/
def addButton (w : World) (button : Option Nat) : Option World :=
  match button with
  | none => some w
  | some p =>
    let w1 := { w with group := { w.group with _button := w.group._button ++ [p] } }
    w1.modify p (fun b => b.subscribe w1.group.self)

/-- A new, empty `OptionButtonGroup` at address `self` next to the buttons
`heap`. -/
def init (heap : List ButtonBase) (self : Nat) : World :=
  { heap := heap, group := { self := self, _button := [] }, outbox := [], senderUpdates := 0 }

/-- Call `addButton` on each address of `ps` in turn. -/
def addButtons : List Nat → World → Option World
  | [], w => some w
  | p :: ps, w =>
    match w.addButton (some p) with
    | none => none
    | some w1 => addButtons ps w1

end World

/-! ## `ButtonRestorer` -/

/-- Data member `_isDisabled` of `ButtonRestorer`; the references `_button`
and `_area` are the button and the event list that the functions below take
and return. -/
structure ButtonRestorer where
  _isDisabled : Bool
deriving DecidableEq, Repr

/-- Constructor `ButtonRestorer::ButtonRestorer`: the guard, the button after
it and the events. -/
def ButtonRestorer.new (env : Env) (button : ButtonBase) :
    ButtonRestorer × ButtonBase × List Event :=
  let r : ButtonRestorer := { _isDisabled := button.isDisabled }
  if !r._isDisabled then
    let (b1, e1) := button.disable
    let (b2, e2) := b1.draw env
    (r, b2, e1 ++ e2)
  else
    (r, button, [])

/-- Destructor `ButtonRestorer::~ButtonRestorer`: the button after it and the
events. -/
def ButtonRestorer.destroy (env : Env) (r : ButtonRestorer) (button : ButtonBase) :
    ButtonBase × List Event :=
  if !r._isDisabled then
    let (b1, e1) := button.enable
    let (b2, e2) := b1.draw env
    (b2, e1 ++ e2)
  else
    (button, [])

/-! ## `ButtonGroup` -/

/-- The constants of `namespace Dialog` (`dialog.h`) that `ui_button.cpp`
uses; bit flags, hence natural numbers. -/
structure Dialog where
  ZERO : Nat
  YES : Nat
  OK : Nat
  NO : Nat
  CANCEL : Nat

/-- The two hot key events `ButtonGroup::processEvents` asks for. -/
inductive HotKeyEvent where
  | DEFAULT_OKAY
  | DEFAULT_CANCEL
deriving DecidableEq, Repr

/-- The state of the input for one call of `processEvents`: the queries of
`LocalEvent` and `Game::HotKeyPressEvent`. -/
structure LocalEvent where
  /-- `le.MousePressLeft( rect )`: the pointer is down inside `rect`. -/
  MousePressLeft : Rect → Bool
  /-- `le.MouseClickLeft( rect )`: a complete click happened inside `rect`. -/
  MouseClickLeft : Rect → Bool
  /-- `Game::HotKeyPressEvent( event )`. -/
  HotKeyPressEvent : HotKeyEvent → Bool

/-- Data members of `ButtonGroup`: the owned buttons and their values. -/
structure ButtonGroup where
  _button : List ButtonBase
  _value : List Int
deriving DecidableEq, Repr

namespace ButtonGroup

/-- A group before any button is created. -/
def empty : ButtonGroup := { _button := [], _value := [] }

/-- Member `ButtonGroup::createButton` for an atlas button. -/
def createButton (g : ButtonGroup) (offsetX offsetY : Int) (icnId : Int)
    (releasedIndex pressedIndex : Nat) (returnValue : Int) : ButtonGroup :=
  { _button := g._button ++ [ButtonBase.new offsetX offsetY (.icn icnId releasedIndex pressedIndex)]
    _value := g._value ++ [returnValue] }

/-- Member `ButtonGroup::createButton` for a sprite button, allocated at
`addr`; the disabled sprite is the default argument, an empty `Sprite()`. -/
def createButtonSprite (g : ButtonGroup) (offsetX offsetY : Int) (addr : Nat)
    (released pressed : Sprite) (returnValue : Int) : ButtonGroup :=
  { _button := g._button ++ [ButtonBase.new offsetX offsetY
      (.sprites addr released pressed
        { _width := 0, _height := 0, _x := 0, _y := 0, _data := [] })]
    _value := g._value ++ [returnValue] }

/-- Member `ButtonGroup::addButton`: the `ButtonSprite` is moved into a new
object at `addr`, which has no receiver. -/
def addButton (g : ButtonGroup) (addr : Nat) (button : ButtonBase) (returnValue : Int) :
    ButtonGroup :=
  let moved : ButtonBase :=
    match button.source with
    | .sprites _ released pressed disabled =>
      { button with _receiver := none, source := .sprites addr released pressed disabled }
    | .icn _ _ _ => { button with _receiver := none }
  { _button := g._button ++ [moved], _value := g._value ++ [returnValue] }

/-- Constructor `ButtonGroup::ButtonGroup( area, buttonTypes )`; the `switch`
is the chain of its cases in source order. -/
def new (env : Env) (d : Dialog) (area : Rect) (buttonTypes : Int) : ButtonGroup :=
  let icnId := if env.evilInterface then env.SYSTEME else env.SYSTEM
  if buttonTypes = ((d.YES ||| d.NO : Nat) : Int) then
    let g1 := empty.createButton area.x
      (area.y + area.height - (env.GetICN icnId 5)._height) icnId 5 6 d.YES
    g1.createButton (area.x + area.width - (env.GetICN icnId 7)._width)
      (area.y + area.height - (env.GetICN icnId 7)._height) icnId 7 8 d.NO
  else if buttonTypes = ((d.OK ||| d.CANCEL : Nat) : Int) then
    let g1 := empty.createButton area.x
      (area.y + area.height - (env.GetICN icnId 1)._height) icnId 1 2 d.OK
    g1.createButton (area.x + area.width - (env.GetICN icnId 3)._width)
      (area.y + area.height - (env.GetICN icnId 3)._height) icnId 3 4 d.CANCEL
  else if buttonTypes = (d.OK : Int) then
    empty.createButton (area.x + Int.tdiv (area.width - (env.GetICN icnId 1)._width) 2)
      (area.y + area.height - (env.GetICN icnId 1)._height) icnId 1 2 d.OK
  else if buttonTypes = (d.CANCEL : Int) then
    empty.createButton (area.x + Int.tdiv (area.width - (env.GetICN icnId 3)._width) 2)
      (area.y + area.height - (env.GetICN icnId 3)._height) icnId 3 4 d.CANCEL
  else
    empty

/-- Member `ButtonGroup::size`. -/
def size (g : ButtonGroup) : Nat := g._button.length

/-- The body of the first loop of `processEvents` for one button. -/
def refresh (env : Env) (le : LocalEvent) (b : ButtonBase) : ButtonBase × List Event :=
  if b.isEnabled then
    if le.MousePressLeft (b.area env) then
      ((b.drawOnPress env).1, (b.drawOnPress env).2.1)
    else
      ((b.drawOnRelease env).1, (b.drawOnRelease env).2.1)
  else
    (b, [])

/-- The first loop of `processEvents`: press or release every enabled button
after the pointer. -/
def refreshAll (env : Env) (le : LocalEvent) : List ButtonBase → List ButtonBase × List Event
  | [] => ([], [])
  | b :: bs =>
    ((refresh env le b).1 :: (refreshAll env le bs).1,
      (refresh env le b).2 ++ (refreshAll env le bs).2)

/-- The second loop of `processEvents` from index `i` on, over the buttons
`bs` that are left: `some (some v)` is `return v`, `some none` the end of the
loop, `none` a read of `_value` out of range. -/
def clickLoop (env : Env) (le : LocalEvent) (value : List Int) :
    List ButtonBase → Nat → Option (Option Int)
  | [], _ => some none
  | b :: bs, i =>
    if b.isEnabled && le.MouseClickLeft (b.area env) then
      match value[i]? with
      | none => none
      | some v => some (some v)
    else
      clickLoop env le value bs (i + 1)

/-- The third loop of `processEvents` from index `i` on, with the results of
`clickLoop`. -/
def hotKeyLoop (d : Dialog) (le : LocalEvent) (value : List Int) :
    List ButtonBase → Nat → Option (Option Int)
  | [], _ => some none
  | b :: bs, i =>
    if b.isEnabled then
      match value[i]? with
      | none => none
      | some v =>
        if (v = d.YES || v = d.OK) && le.HotKeyPressEvent .DEFAULT_OKAY then
          some (some v)
        else if (v = d.CANCEL || v = d.NO) && le.HotKeyPressEvent .DEFAULT_CANCEL then
          some (some v)
        else
          hotKeyLoop d le value bs (i + 1)
    else
      hotKeyLoop d le value bs (i + 1)

/-- Member `ButtonGroup::processEvents`: the group after it, the events, and
the returned value (`none` when `_value` is read out of range). -/
def processEvents (env : Env) (d : Dialog) (le : LocalEvent) (g : ButtonGroup) :
    ButtonGroup × List Event × Option Int :=
  let g1 : ButtonGroup := { g with _button := (refreshAll env le g._button).1 }
  let events := (refreshAll env le g._button).2
  match clickLoop env le g1._value g1._button 0 with
  | none => (g1, events, none)
  | some (some v) => (g1, events, some v)
  | some none =>
    match hotKeyLoop d le g1._value g1._button 0 with
    | none => (g1, events, none)
    | some (some v) => (g1, events, some v)
    | some none => (g1, events, some (d.ZERO : Int))

end ButtonGroup

/-- A value `v` answers a hot key: it is YES or OK while the confirm key is
raised, or CANCEL or NO while the cancel key is raised. -/
def answersHotKey (d : Dialog) (le : LocalEvent) (v : Int) : Prop :=
  ((v = d.YES ∨ v = d.OK) ∧ le.HotKeyPressEvent .DEFAULT_OKAY = true) ∨
  ((v = d.CANCEL ∨ v = d.NO) ∧ le.HotKeyPressEvent .DEFAULT_CANCEL = true)

instance (d : Dialog) (le : LocalEvent) (v : Int) : Decidable (answersHotKey d le v) := by
  unfold answersHotKey
  infer_instance

/-- The calls that put a button into a `ButtonGroup`. -/
inductive GroupOp where
  /-- `createButton( offsetX, offsetY, icnId, releasedIndex, pressedIndex, returnValue )`. -/
  | createButton (offsetX offsetY : Int) (icnId : Int) (releasedIndex pressedIndex : Nat)
      (returnValue : Int)
  /-- `createButton( offsetX, offsetY, released, pressed, returnValue )`; `addr`
  is where the new `ButtonSprite` keeps its released sprite. -/
  | createButtonSprite (offsetX offsetY : Int) (addr : Nat) (released pressed : Sprite)
      (returnValue : Int)
  /-- `addButton( std::move( button ), returnValue )`; `addr` as above. -/
  | addButton (addr : Nat) (button : ButtonBase) (returnValue : Int)

/-- The `returnValue` argument of a call. -/
def GroupOp.returnValue : GroupOp → Int
  | .createButton _ _ _ _ _ v => v
  | .createButtonSprite _ _ _ _ _ v => v
  | .addButton _ _ v => v

/-- The object that the `new Button( ... )` or `new ButtonSprite( ... )` of a
call constructs from the arguments of the call. -/
def GroupOp.button : GroupOp → ButtonBase
  | .createButton offsetX offsetY icnId releasedIndex pressedIndex _ =>
    ButtonBase.new offsetX offsetY (.icn icnId releasedIndex pressedIndex)
  | .createButtonSprite offsetX offsetY addr released pressed _ =>
    ButtonBase.new offsetX offsetY
      (.sprites addr released pressed
        { _width := 0, _height := 0, _x := 0, _y := 0, _data := [] })
  | .addButton addr button _ =>
    match button.source with
    | .sprites _ released pressed disabled =>
      { button with _receiver := none, source := .sprites addr released pressed disabled }
    | .icn _ _ _ => { button with _receiver := none }

/-- The group after one call. -/
def GroupOp.run (g : ButtonGroup) : GroupOp → ButtonGroup
  | .createButton x y icnId releasedIndex pressedIndex v =>
    g.createButton x y icnId releasedIndex pressedIndex v
  | .createButtonSprite x y addr released pressed v =>
    g.createButtonSprite x y addr released pressed v
  | .addButton addr button v => g.addButton addr button v

/-- The group after a sequence of calls, first call first. -/
def runGroupOps (g : ButtonGroup) (ops : List GroupOp) : ButtonGroup :=
  ops.foldl GroupOp.run g

/-! ## The compositing helper `makeButtonWithBackground` -/

/-- Modelled from the spec: the image library (`Crop`, `Copy`, `Blit` and the
reading of a pixel) is an external collaborator and not part of
`ui_button.cpp`. An image is a `Sprite`; `pixel s i j` is the colour at column
`i`, row `j`; the three functions return the image they produce or leave in
their output argument. -/
structure ImageLib where
  /-- The colour of the pixel in column `i` and row `j` of an image. -/
  pixel : Sprite → Int → Int → Nat
  /-- `Crop( image, x, y, width, height )`. -/
  Crop : Sprite → Int → Int → Int → Int → Sprite
  /-- `Copy( in, out )`: the image `out` after the call. -/
  Copy : Sprite → Sprite → Sprite
  /-- `Blit( in, out, outX, outY )`: the image `out` after the call. -/
  Blit : Sprite → Sprite → Int → Int → Sprite

/-- Modelled from the spec: what the image library and the palette transform
are taken to guarantee. `Crop` returns an image no larger than the rectangle
asked for; `Copy` gives the output the size of the input and leaves its anchor
alone; `Blit` leaves the size and the anchor of the output alone and changes no
pixel of the output outside the rectangle `(outX, outY, in.width, in.height)`;
darkening leaves size and anchor alone. -/
structure ImageLib.Sane (lib : ImageLib) (env : Env) : Prop where
  crop_width : ∀ (image : Sprite) (x y width height : Int),
    (lib.Crop image x y width height)._width ≤ max width 0
  crop_height : ∀ (image : Sprite) (x y width height : Int),
    (lib.Crop image x y width height)._height ≤ max height 0
  copy_size : ∀ (input output : Sprite),
    (lib.Copy input output)._width = input._width ∧
    (lib.Copy input output)._height = input._height ∧
    (lib.Copy input output)._x = output._x ∧ (lib.Copy input output)._y = output._y
  blit_size : ∀ (input output : Sprite) (outX outY : Int),
    (lib.Blit input output outX outY)._width = output._width ∧
    (lib.Blit input output outX outY)._height = output._height ∧
    (lib.Blit input output outX outY)._x = output._x ∧
    (lib.Blit input output outX outY)._y = output._y
  blit_frame : ∀ (input output : Sprite) (outX outY i j : Int),
    ¬ (outX ≤ i ∧ i < outX + input._width ∧ outY ≤ j ∧ j < outY + input._height) →
    lib.pixel (lib.Blit input output outX outY) i j = lib.pixel output i j
  darken_size : ∀ s : Sprite,
    (env.darken s)._width = s._width ∧ (env.darken s)._height = s._height ∧
    (env.darken s)._x = s._x ∧ (env.darken s)._y = s._y

/-- Modelled from the spec: the constructor `Sprite( width, height, x, y )` of
the image library, an image of that size whose pixels are still to be
written. -/
def Sprite.blank (width height x y : Int) : Sprite :=
  { _width := width, _height := height, _x := x, _y := y, _data := [] }

/-- Modelled from the spec: the member `Sprite::setPosition` of the image
library, which sets the anchor. -/
def Sprite.setPosition (s : Sprite) (x y : Int) : Sprite :=
  { s with _x := x, _y := y }

/-- Function `makeButtonWithBackground`; `addr` is where the returned
`ButtonSprite` keeps its released sprite. -/
def makeButtonWithBackground (lib : ImageLib) (env : Env) (addr : Nat) (offsetX offsetY : Int)
    (released pressed background : Sprite) : ButtonBase :=
  let croppedBackground := lib.Crop background offsetX offsetY released._width released._height
  let releasedWithBackground := lib.Blit released
    (lib.Copy croppedBackground
      (Sprite.blank croppedBackground._width croppedBackground._height 0 0))
    released._x released._y
  let pressedWithBackground := lib.Blit pressed
    (lib.Copy croppedBackground
      (Sprite.blank croppedBackground._width croppedBackground._height 0 0))
    pressed._x pressed._y
  let disabled := env.darken released
  let disabledWithBackground := lib.Blit disabled
    ((lib.Copy croppedBackground
      (Sprite.blank croppedBackground._width croppedBackground._height 0 0)).setPosition 0 0)
    disabled._x disabled._y
  ButtonBase.new offsetX offsetY
    (.sprites addr releasedWithBackground pressedWithBackground disabledWithBackground)

/-- The image `output` after the blits among `events` have been made on it, in
order (`draw( output )`). -/
def paint (lib : ImageLib) (output : Sprite) : List Event → Sprite
  | [] => output
  | Event.blit sprite x y :: es => paint lib (lib.Blit sprite output x y) es
  | _ :: es => paint lib output es

/-- The pixel of a row-major image: `_data` holds the rows one after the
other; outside the image the colour is 0. -/
def Sprite.pixelAt (s : Sprite) (i j : Int) : Nat :=
  if 0 ≤ i ∧ i < s._width ∧ 0 ≤ j ∧ j < s._height then
    s._data.getD (j * s._width + i).toNat 0
  else 0

/-- An image library over row-major images: `Crop` reads the rectangle asked
for (0 where the image ends), `Copy` takes size and pixels of the input, and
`Blit` overwrites the rectangle `(outX, outY, in.width, in.height)` of the
output with the input. -/
def rasterLib : ImageLib :=
  { pixel := Sprite.pixelAt
    Crop := fun image x y width height =>
      { _width := max width 0, _height := max height 0, _x := x, _y := y
        _data := (List.range (max width 0 * max height 0).toNat).map (fun (k : Nat) =>
          image.pixelAt (x + (k : Int) % max width 0) (y + (k : Int) / max width 0)) }
    Copy := fun input output =>
      { output with _width := input._width, _height := input._height, _data := input._data }
    Blit := fun input output outX outY =>
      { output with
        _data := (List.range (output._width * output._height).toNat).map (fun (k : Nat) =>
          if outX ≤ (k : Int) % output._width ∧
              (k : Int) % output._width < outX + input._width ∧
              outY ≤ (k : Int) / output._width ∧
              (k : Int) / output._width < outY + input._height then
            input.pixelAt ((k : Int) % output._width - outX) ((k : Int) / output._width - outY)
          else output._data.getD k 0) } }

/-! ## Concrete inputs used to evaluate the definitions -/

/-- A 10 by 4 released sprite with anchor `(0, 0)`. -/
def sampleReleased : Sprite :=
  { _width := 10, _height := 4, _x := 0, _y := 0, _data := [1] }

/-- A 10 by 4 pressed sprite with anchor `(1, 1)`. -/
def samplePressed : Sprite :=
  { _width := 10, _height := 4, _x := 1, _y := 1, _data := [2] }

/-- An atlas whose even frames are `sampleReleased` and odd frames
`samplePressed`; darkening replaces the pixel data. -/
def sampleEnv : Env :=
  { GetICN := fun _ index => if index % 2 = 0 then sampleReleased else samplePressed
    addrICN := fun _ index => index
    darken := fun s => { s with _data := [0] }
    empty := fun s => s._data.isEmpty
    evilInterface := false
    SYSTEM := 1
    SYSTEME := 2 }

/-- A `ButtonSprite` at `(5, 7)`, as constructed, without a disabled sprite. -/
def sampleButton : ButtonBase :=
  ButtonBase.new 5 7
    (.sprites 100 sampleReleased samplePressed
      { _width := 0, _height := 0, _x := 0, _y := 0, _data := [] })

/-- The button `sampleButton` subscribed to receiver 9 and then disabled. -/
def sampleDisabled : ButtonBase :=
  (sampleButton.subscribe 9).disable.1

/-- The button `sampleButton` subscribed to receiver 9 and then pressed. -/
def samplePressedButton : ButtonBase :=
  (sampleButton.subscribe 9).press.1

/-- Three new buttons A, B, C at addresses 0, 1, 2, of which A is pressed. -/
def sampleHeap : List ButtonBase :=
  [sampleButton.press.1, sampleButton, sampleButton]

/-- Sample values of the constants of `namespace Dialog`. -/
def sampleDialog : Dialog :=
  { ZERO := 0, YES := 1, OK := 2, NO := 4, CANCEL := 8 }

/-- The point `(px, py)` lies in the rectangle `r`. -/
def Rect.contains (r : Rect) (px py : Int) : Bool :=
  decide (r.x ≤ px) && decide (px < r.x + r.width) &&
    decide (r.y ≤ py) && decide (py < r.y + r.height)

/-- The input while the pointer is held down at `(px, py)`: no click yet, no
hot key. -/
def pointerDownAt (px py : Int) : LocalEvent :=
  { MousePressLeft := fun r => r.contains px py
    MouseClickLeft := fun _ => false
    HotKeyPressEvent := fun _ => false }

/-- The input right after a click that went down at `(px, py)` and up at
`(qx, qy)`: the pointer is up, the click is inside every rectangle that holds
both points, no hot key. -/
def clickFromTo (px py qx qy : Int) : LocalEvent :=
  { MousePressLeft := fun _ => false
    MouseClickLeft := fun r => r.contains px py && r.contains qx qy
    HotKeyPressEvent := fun _ => false }

/-- The input with the cancel hot key raised and no pointer activity. -/
def cancelKey : LocalEvent :=
  { MousePressLeft := fun _ => false
    MouseClickLeft := fun _ => false
    HotKeyPressEvent := fun e => decide (e = .DEFAULT_CANCEL) }

/-- A group of one sprite button at `(5, 7)` with value `v`, after a call of
`processEvents` with the pointer held down at `(10, 9)`, which is inside the
button: the button is pressed, its area is that of the pressed sprite,
`(6, 8, 10, 4)`; released, it is `(5, 7, 10, 4)`. -/
def heldGroup (v : Int) : ButtonGroup :=
  (ButtonGroup.processEvents sampleEnv sampleDialog (pointerDownAt 10 9)
    (ButtonGroup.empty.createButtonSprite 5 7 100 sampleReleased samplePressed v)).1

/-- Two overlapping sprite buttons, at `(5, 7)` with value 1 and at `(6, 8)`
with value 4, both released. -/
def overlapGroup : ButtonGroup :=
  (ButtonGroup.empty.createButtonSprite 5 7 100 sampleReleased samplePressed 1
    ).createButtonSprite 6 8 200 sampleReleased samplePressed 4

/-- The input with a click at `(10, 9)`, the pointer up, and both hot keys
raised. -/
def clickAndKeys : LocalEvent :=
  { MousePressLeft := fun _ => false
    MouseClickLeft := fun r => r.contains 10 9
    HotKeyPressEvent := fun _ => true }

/-- The preset group YES|NO in the rectangle `(0, 0, 200, 100)` over the
sample atlas: the YES button (value 1) at `(0, 96)`, the NO button (value 4)
at `(190, 96)`. -/
def yesNoGroup : ButtonGroup :=
  ButtonGroup.new sampleEnv sampleDialog { x := 0, y := 0, width := 200, height := 100 } 5

/-- An atlas all of whose sprites are `sampleReleased`, 10 by 4 with anchor
`(0, 0)`. -/
def flatEnv : Env :=
  { sampleEnv with GetICN := fun _ _ => sampleReleased }

/-- The rectangle `(0, 0, 200, 100)`. -/
def sampleRect : Rect :=
  { x := 0, y := 0, width := 200, height := 100 }

/-- The button `sampleButton` subscribed to receiver 9. -/
def sampleSubscribed : ButtonBase :=
  sampleButton.subscribe 9

/-- An atlas like `sampleEnv` whose darkening adds 100 to every pixel, so that
the darkened copies of different sprites differ. -/
def darkEnv : Env :=
  { sampleEnv with darken := fun s => { s with _data := s._data.map (fun v => v + 100) } }

/-- The empty sprite `Sprite()`. -/
def emptySprite : Sprite :=
  { _width := 0, _height := 0, _x := 0, _y := 0, _data := [] }

/-- A 20 by 8 released sprite with anchor `(0, 0)`. -/
def otherReleased : Sprite :=
  { _width := 20, _height := 8, _x := 0, _y := 0, _data := [3] }

/-- The disabled `ButtonSprite` `sampleDisabled` (released sprite
`sampleReleased`, no disabled sprite) after it has been drawn once and its
sprites have then been replaced by `setSprite( otherReleased, samplePressed,
Sprite() )`. -/
def redrawnButton : ButtonBase :=
  (sampleDisabled.draw darkEnv).1.setSprite otherReleased samplePressed emptySprite

/-- Three buttons at addresses 0, 1, 2: the first two pressed, the third
disabled. -/
def mixedHeap : List ButtonBase :=
  [sampleButton.press.1, sampleButton.press.1, sampleButton.disable.1]

/-- A background of 4 columns and 3 rows, with the colours 10 to 21. -/
def sampleBackground : Sprite :=
  { _width := 4, _height := 3, _x := 0, _y := 0
    _data := [10, 11, 12, 13, 14, 15, 16, 17, 18, 19, 20, 21] }

/-- A released sprite of 2 columns and 1 row, colours 1 and 2. -/
def tinyReleased : Sprite :=
  { _width := 2, _height := 1, _x := 0, _y := 0, _data := [1, 2] }

/-- A pressed sprite of 3 columns and 2 rows, colours 3 to 8. -/
def tinyPressed : Sprite :=
  { _width := 3, _height := 2, _x := 0, _y := 0, _data := [3, 4, 5, 6, 7, 8] }

/-- The button made by `makeButtonWithBackground` at `(1, 1)` of
`sampleBackground` from the two tiny sprites. -/
def tinyButton : ButtonBase :=
  makeButtonWithBackground rasterLib darkEnv 100 1 1 tinyReleased tinyPressed sampleBackground

/-! ## Theorems -/

/-! ### Frame lemmas: what drawing leaves alone -/

/-- The default `_getDisabled` touches only the two cache members. -/
theorem ButtonBase.getDisabledBase_frame (env : Env) (b : ButtonBase) :
    (b._getDisabledBase env).1._offsetX = b._offsetX ∧
    (b._getDisabledBase env).1._offsetY = b._offsetY ∧
    (b._getDisabledBase env).1._isPressed = b._isPressed ∧
    (b._getDisabledBase env).1._isEnabled = b._isEnabled ∧
    (b._getDisabledBase env).1._isVisible = b._isVisible ∧
    (b._getDisabledBase env).1._receiver = b._receiver ∧
    (b._getDisabledBase env).1.source = b.source := by
  unfold ButtonBase._getDisabledBase
  cases b._disabledSprite with
  | none => simp
  | some cached =>
    by_cases h : b._releasedSprite = some (b._getReleasedAddr env) <;> simp [h]

/-- Virtual `_getDisabled` touches only the two cache members. -/
theorem ButtonBase.getDisabled_frame (env : Env) (b : ButtonBase) :
    (b._getDisabled env).1._offsetX = b._offsetX ∧
    (b._getDisabled env).1._offsetY = b._offsetY ∧
    (b._getDisabled env).1._isPressed = b._isPressed ∧
    (b._getDisabled env).1._isEnabled = b._isEnabled ∧
    (b._getDisabled env).1._isVisible = b._isVisible ∧
    (b._getDisabled env).1._receiver = b._receiver ∧
    (b._getDisabled env).1.source = b.source := by
  unfold ButtonBase._getDisabled
  cases hs : b.source with
  | icn i r p => simpa [hs] using b.getDisabledBase_frame env
  | sprites a r p d =>
    by_cases he : env.empty d = true
    · simpa [hs, he] using b.getDisabledBase_frame env
    · simp [hs, he]

/-- Drawing touches only the two cache members. -/
theorem ButtonBase.draw_frame (env : Env) (b : ButtonBase) :
    (b.draw env).1._offsetX = b._offsetX ∧
    (b.draw env).1._offsetY = b._offsetY ∧
    (b.draw env).1._isPressed = b._isPressed ∧
    (b.draw env).1._isEnabled = b._isEnabled ∧
    (b.draw env).1._isVisible = b._isVisible ∧
    (b.draw env).1._receiver = b._receiver ∧
    (b.draw env).1.source = b.source := by
  unfold ButtonBase.draw
  by_cases hv : b.isVisible = true
  · by_cases hp : b.isPressed = true
    · simp [hv, hp]
    · by_cases he : b.isEnabled = true
      · simp [hv, hp, he]
      · simpa [hv, hp, he] using b.getDisabled_frame env
  · simp [hv]

/-- A button that is enabled or pressed is drawn without touching its state. -/
theorem ButtonBase.draw_state_of_enabled (env : Env) (b : ButtonBase)
    (h : b._isEnabled = true) : (b.draw env).1 = b := by
  unfold ButtonBase.draw
  by_cases hv : b.isVisible = true
  · by_cases hp : b.isPressed = true
    · simp [hv, hp]
    · simp [hv, hp, ButtonBase.isEnabled, h]
  · simp [hv]

/-! ### The pressed-implies-enabled invariant -/

/-- Every call keeps the invariant. -/
theorem Op.run_inv (env : Env) (b : ButtonBase) (op : Op) (h : b.Inv) :
    (op.run env b).Inv := by
  unfold ButtonBase.Inv at *
  obtain ⟨-, -, hdp, hde, -, -, -⟩ := b.draw_frame env
  cases op with
  | press =>
    by_cases he : b._isEnabled = true <;>
      simp_all [Op.run, ButtonBase.press, ButtonBase.isEnabled]
  | release =>
    by_cases he : b._isEnabled = true <;>
      simp_all [Op.run, ButtonBase.release, ButtonBase.isEnabled]
  | enable => simp [Op.run, ButtonBase.enable]
  | disable => simp [Op.run, ButtonBase.disable]
  | show_ => simpa [Op.run, ButtonBase.show_] using h
  | hide => simpa [Op.run, ButtonBase.hide] using h
  | setPosition x y => simpa [Op.run, ButtonBase.setPosition] using h
  | drawOnPress =>
    by_cases hp : b._isPressed = true
    · simpa [Op.run, ButtonBase.drawOnPress, ButtonBase.isPressed, hp] using h
    · obtain ⟨-, -, hdp1, hde1, -, -, -⟩ := (b.press.1).draw_frame env
      simp only [Op.run, ButtonBase.drawOnPress, ButtonBase.isPressed, hp]
      simp only [Bool.not_false, if_true, hdp1, hde1]
      by_cases he : b._isEnabled = true <;>
        simp_all [ButtonBase.press, ButtonBase.isEnabled]
  | drawOnRelease =>
    by_cases hp : b._isPressed = true
    · obtain ⟨-, -, hdp1, hde1, -, -, -⟩ := (b.release.1).draw_frame env
      simp only [Op.run, ButtonBase.drawOnRelease, ButtonBase.isPressed, hp]
      simp only [if_true, hdp1, hde1]
      by_cases he : b._isEnabled = true <;>
        simp_all [ButtonBase.release, ButtonBase.isEnabled]
    · simp [Op.run, ButtonBase.drawOnRelease, ButtonBase.isPressed, hp]

/-- Every sequence of calls keeps the invariant. -/
theorem runOps_inv (env : Env) (ops : List Op) :
    ∀ b : ButtonBase, b.Inv → (runOps env b ops).Inv := by
  induction ops with
  | nil => intro b h; exact h
  | cons op ops ih =>
    intro b h
    simpa [runOps] using ih (op.run env b) (Op.run_inv env b op h)

/-! ### Claims on `ButtonBase` -/

/-- C1: starting from a newly constructed button (either derived class, any
position), after every finite sequence of press, release, enable, disable,
show, hide, setPosition, drawOnPress and drawOnRelease calls the button is not
at once pressed and disabled. -/
theorem C1_never_pressed_and_disabled (env : Env) (offsetX offsetY : Int)
    (source : SpriteSource) (ops : List Op) :
    ((runOps env (ButtonBase.new offsetX offsetY source) ops).isPressed &&
      (runOps env (ButtonBase.new offsetX offsetY source) ops).isDisabled) = false := by
  have hinv := runOps_inv env ops (ButtonBase.new offsetX offsetY source)
    (by simp [ButtonBase.Inv, ButtonBase.new])
  unfold ButtonBase.Inv at hinv
  unfold ButtonBase.isPressed ButtonBase.isDisabled
  cases hp : (runOps env (ButtonBase.new offsetX offsetY source) ops)._isPressed with
  | false => simp
  | true => simp [hinv hp]

/-- C2: on a disabled button `press()` and `release()` return the button as it
was (pressed, enabled and visible flags, offset and all other members) and
produce no event, in particular no notification of a subscribed receiver. -/
theorem C2_press_release_disabled_noop (b : ButtonBase) (h : b.isDisabled = true) :
    b.press = (b, []) ∧ b.release = (b, []) := by
  have he : b._isEnabled = false := by simpa [ButtonBase.isDisabled] using h
  simp [ButtonBase.press, ButtonBase.release, ButtonBase.isEnabled, he]

/-- C2 evaluated on a disabled button that has a subscribed receiver. -/
theorem C2_press_release_disabled_noop_witness :
    sampleDisabled.isDisabled = true ∧ sampleDisabled._receiver = some 9 ∧
      sampleDisabled.press = (sampleDisabled, []) ∧
      sampleDisabled.release = (sampleDisabled, []) :=
  ⟨by decide, by decide, C2_press_release_disabled_noop sampleDisabled (by decide)⟩

/-- C3: whatever the state before, after `disable()` the button is released
and disabled, and its visibility and offset are as before. -/
theorem C3_disable_forces_release (b : ButtonBase) :
    b.disable.1.isPressed = false ∧ b.disable.1.isDisabled = true ∧
      b.disable.1._isVisible = b._isVisible ∧
      b.disable.1._offsetX = b._offsetX ∧ b.disable.1._offsetY = b._offsetY := by
  simp [ButtonBase.disable, ButtonBase.isPressed, ButtonBase.isDisabled]

/-- On an enabled, released button taken alone `drawOnPress` returns true and
leaves the button pressed, and a second `drawOnPress` right after returns
false; on a pressed button `drawOnPress` returns false, leaves every member as
it was and produces no event. -/
theorem ButtonBase.drawOnPress_edge_alone (env : Env) (b : ButtonBase) :
    (b.isEnabled = true → b.isPressed = false →
      (b.drawOnPress env).2.2 = true ∧ (b.drawOnPress env).1.isPressed = true ∧
      ((b.drawOnPress env).1.drawOnPress env).2.2 = false) ∧
    (b.isPressed = true → b.drawOnPress env = (b, [], false)) := by
  constructor
  · intro he hp
    have he1 : b._isEnabled = true := he
    have hp1 : b._isPressed = false := hp
    have hpress : b.press.1._isEnabled = true := by
      simp [ButtonBase.press, ButtonBase.isEnabled, he1]
    have hstate : (b.drawOnPress env).1 = { b with _isPressed := true } := by
      simp only [ButtonBase.drawOnPress, ButtonBase.isPressed, hp1]
      simp only [Bool.not_false, if_true]
      rw [ButtonBase.draw_state_of_enabled env _ hpress]
      simp [ButtonBase.press, ButtonBase.isEnabled, he1]
    refine ⟨?_, ?_, ?_⟩
    · simp [ButtonBase.drawOnPress, ButtonBase.isPressed, hp1]
    · rw [hstate]; rfl
    · rw [hstate]; simp [ButtonBase.drawOnPress, ButtonBase.isPressed]
  · intro hp
    have hp1 : b._isPressed = true := hp
    simp [ButtonBase.drawOnPress, ButtonBase.isPressed, hp1]

/-- C5 fails as stated: on the disabled (hence released) button
`sampleDisabled`, `drawOnPress` returns true, blits and renders, yet the
pressed flag is what it was; the same with the button in memory at address
0. A second case: the enabled, released button B of `sampleHeap`, added twice
to the `OptionButtonGroup` it is subscribed to, is released before and after
a `drawOnPress` that returns true. -/
theorem C5_counterexample :
    sampleDisabled.isDisabled = true ∧
      (World.drawOnPress 1 sampleEnv (World.init [sampleDisabled] 50) 0).map
          (fun res => ((res.1.heap[0]?).map ButtonBase.isPressed, res.2.2)) =
        some (some false, true) ∧
      (World.addButtons [0, 1, 2, 1] (World.init sampleHeap 50)).map
          (fun w0 => ((w0.heap[1]?).map (fun b => (b.isEnabled, b.isPressed)),
            (World.drawOnPress 1 sampleEnv w0 1).map
              (fun res => ((res.1.heap[1]?).map ButtonBase.isPressed, res.2.2)))) =
        some (some (true, false), some (some false, true)) ∧
      ¬ ((sampleDisabled.drawOnPress sampleEnv).2.2 = true ↔
          (sampleDisabled.drawOnPress sampleEnv).1._isPressed ≠ sampleDisabled._isPressed) ∧
      (sampleDisabled.drawOnPress sampleEnv).2.2 = true ∧
      (sampleDisabled.drawOnPress sampleEnv).1._isPressed = sampleDisabled._isPressed ∧
      (sampleDisabled.drawOnPress sampleEnv).2.1 =
        [Event.blit { sampleReleased with _data := [0] } 5 7,
         Event.render { x := 5, y := 7, width := 10, height := 4 }] := by
  decide

/-- On a button taken alone: for an enabled button the boolean returned by
`drawOnPress` is true exactly when the call changed the pressed flag, and the
same holds for `drawOnRelease` on every button that is not both pressed and
disabled; a call that returns false leaves every member as it was and produces
no event; on a disabled, released button `drawOnPress` returns true although
the pressed flag stays false; `drawOnPress` returns `isReleased()` and
`drawOnRelease` returns `isPressed()` of the state before the call. -/
theorem ButtonBase.draw_return_value_alone (env : Env) (b : ButtonBase) :
    (b.isEnabled = true →
      ((b.drawOnPress env).2.2 = true ↔ (b.drawOnPress env).1._isPressed ≠ b._isPressed)) ∧
    ((b.isPressed = true → b.isEnabled = true) →
      ((b.drawOnRelease env).2.2 = true ↔
        (b.drawOnRelease env).1._isPressed ≠ b._isPressed)) ∧
    ((b.drawOnPress env).2.2 = false → b.drawOnPress env = (b, [], false)) ∧
    ((b.drawOnRelease env).2.2 = false → b.drawOnRelease env = (b, [], false)) ∧
    (b.isDisabled = true → b.isPressed = false →
      (b.drawOnPress env).2.2 = true ∧ (b.drawOnPress env).1._isPressed = false) ∧
    (b.drawOnPress env).2.2 = b.isReleased ∧ (b.drawOnRelease env).2.2 = b.isPressed := by
  obtain ⟨-, -, hdp, -, -, -, -⟩ := (b.press.1).draw_frame env
  obtain ⟨-, -, hdr, -, -, -, -⟩ := (b.release.1).draw_frame env
  refine ⟨?_, ?_, ?_, ?_, ?_, ?_, ?_⟩
  · intro he
    have he1 : b._isEnabled = true := he
    cases hp : b._isPressed with
    | true => simp [ButtonBase.drawOnPress, ButtonBase.isPressed, hp]
    | false =>
      simp only [ButtonBase.drawOnPress, ButtonBase.isPressed, hp]
      simp only [Bool.not_false, if_true, hdp]
      simp [ButtonBase.press, ButtonBase.isEnabled, he1]
  · intro hinv
    cases hp : b._isPressed with
    | true =>
      have he1 : b._isEnabled = true := hinv hp
      simp only [ButtonBase.drawOnRelease, ButtonBase.isPressed, hp]
      simp only [if_true, hdr]
      simp [ButtonBase.release, ButtonBase.isEnabled, he1]
    | false => simp [ButtonBase.drawOnRelease, ButtonBase.isPressed, hp]
  · intro h
    cases hp : b._isPressed with
    | true => simp [ButtonBase.drawOnPress, ButtonBase.isPressed, hp]
    | false => simp [ButtonBase.drawOnPress, ButtonBase.isPressed, hp] at h
  · intro h
    cases hp : b._isPressed with
    | true => simp [ButtonBase.drawOnRelease, ButtonBase.isPressed, hp] at h
    | false => simp [ButtonBase.drawOnRelease, ButtonBase.isPressed, hp]
  · intro hd hp
    have he1 : b._isEnabled = false := by simpa [ButtonBase.isDisabled] using hd
    have hp1 : b._isPressed = false := hp
    simp only [ButtonBase.drawOnPress, ButtonBase.isPressed, hp1]
    simp only [Bool.not_false, if_true, hdp]
    simp [ButtonBase.press, ButtonBase.isEnabled, he1, hp1]
  · cases hp : b._isPressed <;>
      simp [ButtonBase.drawOnPress, ButtonBase.isPressed, ButtonBase.isReleased, hp]
  · cases hp : b._isPressed <;>
      simp [ButtonBase.drawOnRelease, ButtonBase.isPressed, hp]

/-! ### Loops over the members of an `OptionButtonGroup` -/

/-- Reading the heap after one button has been overwritten. -/
theorem getElem?_set_of_some {heap : List ButtonBase} {p : Nat} {b x : ButtonBase}
    (h : heap[p]? = some b) (a : Nat) :
    (heap.set p x)[a]? = if a = p then some x else heap[a]? := by
  have hlt : p < heap.length := (List.getElem?_eq_some.mp h).1
  by_cases hap : a = p
  · subst hap; simp [hlt]
  · have hne : p ≠ a := fun e => hap e.symm
    simp [hap, hne]

/-- A member loop whose body applies `g` in place to the entries selected by
`sel` leaves group, outbox and counter alone and maps `g` over the selected
buttons. -/
theorem forIdx_heap (G : OptionButtonGroup) (g : ButtonBase → ButtonBase)
    (P : ButtonBase → Prop) (sel : Nat → Bool) (body : World → Nat → Nat → Option World)
    (hg : ∀ b, g (g b) = g b) (hP : ∀ b, P b → P (g b))
    (hbody : ∀ (w : World) (i p : Nat) (b : ButtonBase), w.group = G →
      w.heap[p]? = some b → P b →
      body w i p = some (if sel i = true then { w with heap := w.heap.set p (g b) } else w)) :
    ∀ (ps : List Nat) (i : Nat) (w : World), w.group = G →
      (∀ p ∈ ps, ∃ b, w.heap[p]? = some b ∧ P b) →
      ∃ w1, forIdx body ps i w = some w1 ∧ w1.group = w.group ∧ w1.outbox = w.outbox ∧
        w1.senderUpdates = w.senderUpdates ∧ w1.heap.length = w.heap.length ∧
        ∀ a, w1.heap[a]? =
          if a ∈ selAddrs sel ps i then (w.heap[a]?).map g else w.heap[a]? := by
  intro ps
  induction ps with
  | nil =>
    intro i w _ _
    exact ⟨w, rfl, rfl, rfl, rfl, rfl, fun a => by simp [selAddrs]⟩
  | cons p ps ih =>
    intro i w hG hval
    obtain ⟨b, hb, hPb⟩ := hval p (List.mem_cons_self p ps)
    have hstep := hbody w i p b hG hb hPb
    by_cases hsel : sel i = true
    · simp only [hsel, if_true] at hstep
      have hval1 : ∀ q ∈ ps, ∃ b1,
          ({ w with heap := w.heap.set p (g b) } : World).heap[q]? = some b1 ∧ P b1 := by
        intro q hq
        obtain ⟨bq, hbq, hPq⟩ := hval q (List.mem_cons_of_mem p hq)
        by_cases hqp : q = p
        · exact ⟨g b, by simp [getElem?_set_of_some hb, hqp], hP b hPb⟩
        · exact ⟨bq, by simp [getElem?_set_of_some hb, hqp, hbq], hPq⟩
      obtain ⟨w1, hrun, hgrp, hout, hcnt, hlen, hheap⟩ :=
        ih (i + 1) { w with heap := w.heap.set p (g b) } hG hval1
      refine ⟨w1, ?_, hgrp, hout, hcnt, ?_, ?_⟩
      · simp [forIdx, hstep, hrun]
      · simpa using hlen
      · intro a
        rw [hheap a]
        simp only [selAddrs, hsel, if_true, List.mem_cons, getElem?_set_of_some hb]
        by_cases hap : a = p
        · subst hap
          by_cases hmem : a ∈ selAddrs sel ps (i + 1) <;> simp [hmem, hb, hg]
        · simp [hap]
    · simp only [hsel] at hstep
      have hval1 : ∀ q ∈ ps, ∃ b1, w.heap[q]? = some b1 ∧ P b1 :=
        fun q hq => hval q (List.mem_cons_of_mem p hq)
      obtain ⟨w1, hrun, hgrp, hout, hcnt, hlen, hheap⟩ := ih (i + 1) w hG hval1
      refine ⟨w1, ?_, hgrp, hout, hcnt, hlen, ?_⟩
      · simp [forIdx, hstep, hrun]
      · intro a
        rw [hheap a]
        simp [selAddrs, hsel]

/-- A loop over two stretches of members is the loop over the first followed
by the loop over the second. -/
theorem forIdx_append {σ : Type} (body : σ → Nat → Nat → Option σ) :
    ∀ (xs ys : List Nat) (i : Nat) (s : σ),
      forIdx body (xs ++ ys) i s =
        (forIdx body xs i s).bind (fun s1 => forIdx body ys (i + xs.length) s1) := by
  intro xs
  induction xs with
  | nil => intro ys i s; simp [forIdx]
  | cons x xs ih =>
    intro ys i s
    have hlen : i + 1 + xs.length = i + (xs.length + 1) := by omega
    have h := ih ys (i + 1)
    simp only [hlen] at h
    cases hb : body s i x with
    | none => simp [forIdx, hb]
    | some s1 => simp [forIdx, hb, h]

/-- A loop whose body does nothing on the members it meets does nothing. -/
theorem forIdx_skip {σ : Type} (body : σ → Nat → Nat → Option σ) :
    ∀ (ps : List Nat) (i : Nat) (s : σ),
      (∀ p ∈ ps, ∀ (s1 : σ) (k : Nat), body s1 k p = some s1) → forIdx body ps i s = some s := by
  intro ps
  induction ps with
  | nil => intro i s _; rfl
  | cons p ps ih =>
    intro i s h
    simp only [forIdx, h p (List.mem_cons_self p ps) s i]
    exact ih (i + 1) s (fun q hq => h q (List.mem_cons_of_mem p hq))

/-- Selecting over two stretches of members. -/
theorem selAddrs_append (sel : Nat → Bool) :
    ∀ (xs ys : List Nat) (i : Nat),
      selAddrs sel (xs ++ ys) i = selAddrs sel xs i ++ selAddrs sel ys (i + xs.length) := by
  intro xs
  induction xs with
  | nil => intro ys i; simp [selAddrs]
  | cons x xs ih =>
    intro ys i
    have hlen : i + 1 + xs.length = i + (xs.length + 1) := by omega
    by_cases h : sel i = true <;>
      simp [selAddrs, h, ih ys (i + 1), hlen]

/-- Selecting every index of a stretch gives the stretch. -/
theorem selAddrs_all (sel : Nat → Bool) :
    ∀ (ps : List Nat) (i : Nat), (∀ k, i ≤ k → k < i + ps.length → sel k = true) →
      selAddrs sel ps i = ps := by
  intro ps
  induction ps with
  | nil => intro i _; rfl
  | cons p ps ih =>
    intro i h
    have h0 : sel i = true := h i (Nat.le_refl i) (by simp)
    have hrest : selAddrs sel ps (i + 1) = ps :=
      ih (i + 1) (fun k hk1 hk2 => h k (by omega) (by simp only [List.length_cons]; omega))
    simp [selAddrs, h0, hrest]

/-- The members that the inner loop of `senderUpdate` releases, when the
sender is entry `pre.length`: all entries but that one. -/
theorem selAddrs_others (pre post : List Nat) (B : Nat) :
    selAddrs (fun k => decide (pre.length ≠ k)) (pre ++ B :: post) 0 = pre ++ post := by
  rw [selAddrs_append]
  have hpre : selAddrs (fun k => decide (pre.length ≠ k)) pre 0 = pre :=
    selAddrs_all _ pre 0 (fun k _ hk => by simp; omega)
  have hpost : selAddrs (fun k => decide (pre.length ≠ k)) post (0 + pre.length + 1) = post :=
    selAddrs_all _ post _ (fun k hk _ => by simp; omega)
  rw [hpre]
  simp only [selAddrs, List.length_cons]
  simpa using hpost

/-- What `unsubscribeAll` does: every member loses its receiver, nothing else
changes. -/
theorem World.unsubscribeAll_spec (w : World)
    (hval : ∀ p ∈ w.group._button, ∃ b, w.heap[p]? = some b) :
    ∃ w1, w.unsubscribeAll = some w1 ∧ w1.group = w.group ∧ w1.outbox = w.outbox ∧
      w1.senderUpdates = w.senderUpdates ∧ w1.heap.length = w.heap.length ∧
      ∀ a, w1.heap[a]? =
        if a ∈ w.group._button then (w.heap[a]?).map ButtonBase.unsubscribe
        else w.heap[a]? := by
  have h := forIdx_heap w.group ButtonBase.unsubscribe (fun _ => True) (fun _ => true)
    (fun w1 _ p => w1.modify p ButtonBase.unsubscribe)
    (fun b => by simp [ButtonBase.unsubscribe]) (fun _ _ => trivial)
    (fun w1 i p b _ hb _ => by simp [World.modify, hb])
    w.group._button 0 w rfl
    (fun p hp => by obtain ⟨b, hb⟩ := hval p hp; exact ⟨b, hb, trivial⟩)
  rw [selAddrs_all _ _ _ (fun _ _ _ => rfl)] at h
  exact h

/-- What `subscribeAll` does: every member gets the group as its receiver,
nothing else changes. -/
theorem World.subscribeAll_spec (w : World)
    (hval : ∀ p ∈ w.group._button, ∃ b, w.heap[p]? = some b) :
    ∃ w1, w.subscribeAll = some w1 ∧ w1.group = w.group ∧ w1.outbox = w.outbox ∧
      w1.senderUpdates = w.senderUpdates ∧ w1.heap.length = w.heap.length ∧
      ∀ a, w1.heap[a]? =
        if a ∈ w.group._button then
          (w.heap[a]?).map (fun b => b.subscribe w.group.self)
        else w.heap[a]? := by
  have h := forIdx_heap w.group (fun b => b.subscribe w.group.self) (fun _ => True)
    (fun _ => true)
    (fun w1 _ p => w1.modify p (fun b => b.subscribe w1.group.self))
    (fun b => by simp [ButtonBase.subscribe]) (fun _ _ => trivial)
    (fun w1 i p b hG hb _ => by simp [World.modify, hb, hG])
    w.group._button 0 w rfl
    (fun p hp => by obtain ⟨b, hb⟩ := hval p hp; exact ⟨b, hb, trivial⟩)
  rw [selAddrs_all _ _ _ (fun _ _ _ => rfl)] at h
  exact h

/-- Calling `release()` on a button without receiver notifies nobody. -/
theorem ButtonBase.release_events_of_unsubscribed (b : ButtonBase) (h : b._receiver = none) :
    b.release.2 = [] := by
  unfold ButtonBase.release
  by_cases he : b.isEnabled = true <;> simp [he, ButtonBase.updateSubscription, h]

/-- What the inner loop of `senderUpdate` does while all members are
unsubscribed: `release()` on every entry but entry `i`, without the handler
being called. -/
theorem World.releaseOthers_spec (deliver : World → Nat → Option World) (i : Nat) (w : World)
    (hval : ∀ p ∈ w.group._button, ∃ b, w.heap[p]? = some b ∧ b._receiver = none) :
    ∃ w1, World.releaseOthers deliver i w = some w1 ∧ w1.group = w.group ∧
      w1.outbox = w.outbox ∧ w1.senderUpdates = w.senderUpdates ∧
      w1.heap.length = w.heap.length ∧
      ∀ a, w1.heap[a]? =
        if a ∈ selAddrs (fun k => decide (i ≠ k)) w.group._button 0 then
          (w.heap[a]?).map (fun b => b.release.1)
        else w.heap[a]? := by
  refine forIdx_heap w.group (fun b => b.release.1) (fun b => b._receiver = none)
    (fun k => decide (i ≠ k))
    (fun w1 buttonId p =>
      if i ≠ buttonId then World.call deliver ButtonBase.release w1 p else some w1)
    ?_ ?_ ?_ w.group._button 0 w rfl hval
  · intro b
    unfold ButtonBase.release
    by_cases he : b.isEnabled = true
    · have he1 : b._isEnabled = true := he
      simp [ButtonBase.isEnabled, he1]
    · simp [he]
  · intro b hb
    unfold ButtonBase.release
    by_cases he : b.isEnabled = true <;> simp [he, hb]
  · intro w1 k p b _ hb hrecv
    by_cases hik : i = k
    · simp [hik]
    · simp [hik, World.call, hb, b.release_events_of_unsubscribed hrecv, World.dispatch]

/-- What a run of `addButton` calls does: the addresses are appended to
`_button` and every added button gets the group as its receiver. -/
theorem World.addButtons_spec :
    ∀ (ps : List Nat) (w : World), (∀ p ∈ ps, ∃ b, w.heap[p]? = some b) →
      ∃ w1, World.addButtons ps w = some w1 ∧ w1.group.self = w.group.self ∧
        w1.group._button = w.group._button ++ ps ∧ w1.outbox = w.outbox ∧
        w1.senderUpdates = w.senderUpdates ∧ w1.heap.length = w.heap.length ∧
        ∀ a, w1.heap[a]? =
          if a ∈ ps then (w.heap[a]?).map (fun b => b.subscribe w.group.self)
          else w.heap[a]? := by
  intro ps
  induction ps with
  | nil => intro w _; exact ⟨w, rfl, rfl, by simp, rfl, rfl, rfl, fun a => by simp⟩
  | cons p ps ih =>
    intro w hval
    obtain ⟨b, hb⟩ := hval p (List.mem_cons_self p ps)
    have hstep : w.addButton (some p) =
        some { w with
          heap := w.heap.set p (b.subscribe w.group.self)
          group := { w.group with _button := w.group._button ++ [p] } } := by
      simp [World.addButton, World.modify, hb]
    have hval1 : ∀ q ∈ ps, ∃ b1,
        ({ w with
          heap := w.heap.set p (b.subscribe w.group.self)
          group := { w.group with _button := w.group._button ++ [p] } } : World).heap[q]? =
            some b1 := by
      intro q hq
      obtain ⟨bq, hbq⟩ := hval q (List.mem_cons_of_mem p hq)
      by_cases hqp : q = p
      · exact ⟨b.subscribe w.group.self, by simp [getElem?_set_of_some hb, hqp]⟩
      · exact ⟨bq, by simp [getElem?_set_of_some hb, hqp, hbq]⟩
    obtain ⟨w1, hrun, hself, hbut, hout, hcnt, hlen, hheap⟩ := ih _ hval1
    refine ⟨w1, ?_, hself, ?_, hout, hcnt, ?_, ?_⟩
    · simp [World.addButtons, hstep, hrun]
    · simpa using hbut
    · simpa using hlen
    · intro a
      rw [hheap a]
      simp only [List.mem_cons, getElem?_set_of_some hb]
      by_cases hap : a = p
      · subst hap
        by_cases hmem : a ∈ ps <;> simp [hmem, hb, ButtonBase.subscribe]
      · simp [hap]

/-- Unsubscribing and subscribing again gives back a member of the group. -/
theorem ButtonBase.resubscribe_pressed (b : ButtonBase) (self : Nat)
    (h : b._receiver = some self) :
    (({ b with _isPressed := true } : ButtonBase).unsubscribe).subscribe self =
      { b with _isPressed := true } := by
  cases b
  simp only at h
  subst h
  simp [ButtonBase.subscribe, ButtonBase.unsubscribe]

/-- Unsubscribing, releasing and subscribing again releases an enabled member
of the group and changes nothing else. -/
theorem ButtonBase.resubscribe_released (b : ButtonBase) (self : Nat)
    (h : b._receiver = some self) (he : b._isEnabled = true) :
    ((b.unsubscribe).release.1).subscribe self = { b with _isPressed := false } := by
  cases b
  simp only at h he
  subst h he
  simp [ButtonBase.subscribe, ButtonBase.unsubscribe, ButtonBase.release, ButtonBase.isEnabled]

/-- With pairwise distinct members, the loop of `senderUpdate` runs its body
for the one entry that is the sender. -/
theorem World.senderUpdate_member (deliver : World → Nat → Option World) (w w4 : World)
    (pre post : List Nat) (B : Nat) (hL : w.group._button = pre ++ B :: post)
    (hnd : (pre ++ B :: post).Nodup)
    (hat : World.senderUpdateAt deliver pre.length B w = some w4) :
    World.senderUpdate deliver w (some B) = some w4 := by
  have hBpre : B ∉ pre := by
    intro hmem
    have := List.nodup_append.mp hnd
    exact this.2.2 hmem (List.mem_cons_self B post)
  have hBpost : B ∉ post := by
    have := (List.nodup_append.mp hnd).2.1
    exact (List.nodup_cons.mp this).1
  simp only [World.senderUpdate, hL]
  rw [forIdx_append]
  rw [forIdx_skip _ pre 0 w (fun q hq s1 k => by
    have hne : B ≠ q := fun e => hBpre (e ▸ hq)
    simp [hne])]
  simp only [Option.bind, Nat.zero_add, forIdx, if_true, hat]
  exact forIdx_skip _ post _ w4 (fun q hq s1 k => by
    have hne : B ≠ q := fun e => hBpost (e ▸ hq)
    simp [hne])

/-- Mutual exclusion: in a group of pairwise distinct, enabled members that
are subscribed to the group, `press()` on member `B` runs the handler once and
ends with `B` pressed, every other member released, and nothing else changed. -/
theorem World.press_member (fuel : Nat) (w : World) (pre post : List Nat) (B : Nat)
    (hL : w.group._button = pre ++ B :: post) (hnd : (pre ++ B :: post).Nodup)
    (hval : ∀ p ∈ w.group._button, ∃ b, w.heap[p]? = some b ∧ b._isEnabled = true ∧
      b._receiver = some w.group.self) :
    ∃ w1, World.press (fuel + 1) w B = some w1 ∧ w1.group = w.group ∧
      w1.outbox = w.outbox ∧ w1.senderUpdates = w.senderUpdates + 1 ∧
      w1.heap.length = w.heap.length ∧
      ∀ a, w1.heap[a]? =
        if a = B then (w.heap[a]?).map (fun b => { b with _isPressed := true })
        else if a ∈ w.group._button then
          (w.heap[a]?).map (fun b => { b with _isPressed := false })
        else w.heap[a]? := by
  have hBmem : B ∈ w.group._button := by rw [hL]; simp
  have hBnot : B ∉ pre ++ post := by
    have h1 := List.nodup_append.mp hnd
    have h2 := List.nodup_cons.mp h1.2.1
    intro hmem
    rcases List.mem_append.mp hmem with h | h
    · exact h1.2.2 h (List.mem_cons_self B post)
    · exact h2.1 h
  have hmemL : ∀ a, a ∈ w.group._button ↔ a = B ∨ a ∈ pre ++ post := by
    intro a
    rw [hL]
    simp only [List.mem_append, List.mem_cons]
    tauto
  obtain ⟨bB, hbB, heB, hrB⟩ := hval B hBmem
  -- the world in which the handler starts
  obtain ⟨wp, hwp⟩ : ∃ wp : World, wp =
      { w with heap := w.heap.set B { bB with _isPressed := true }
               senderUpdates := w.senderUpdates + 1 } := ⟨_, rfl⟩
  have hgp : wp.group = w.group := by rw [hwp]
  have hhp : ∀ a, wp.heap[a]? =
      if a = B then some { bB with _isPressed := true } else w.heap[a]? := by
    intro a; rw [hwp]; exact getElem?_set_of_some hbB a
  have hvalp : ∀ p ∈ wp.group._button, ∃ b, wp.heap[p]? = some b := by
    intro q hq
    rw [hgp] at hq
    obtain ⟨bq, hbq, -, -⟩ := hval q hq
    by_cases hqB : q = B
    · exact ⟨{ bB with _isPressed := true }, by rw [hhp]; simp [hqB]⟩
    · exact ⟨bq, by rw [hhp]; simp [hqB, hbq]⟩
  obtain ⟨w2, hun, hg2, ho2, hc2, hl2, hh2⟩ := wp.unsubscribeAll_spec hvalp
  have hval2 : ∀ p ∈ w2.group._button, ∃ b, w2.heap[p]? = some b ∧ b._receiver = none := by
    intro q hq
    rw [hg2] at hq
    obtain ⟨bq, hbq⟩ := hvalp q hq
    exact ⟨bq.unsubscribe, by rw [hh2]; simp [hq, hbq], rfl⟩
  obtain ⟨w3, hrel, hg3, ho3, hc3, hl3, hh3⟩ :=
    World.releaseOthers_spec (World.deliver fuel) pre.length w2 hval2
  have hsel : selAddrs (fun k => decide (pre.length ≠ k)) w2.group._button 0 = pre ++ post := by
    rw [hg2, hgp, hL]; exact selAddrs_others pre post B
  rw [hsel] at hh3
  have hval3 : ∀ p ∈ w3.group._button, ∃ b, w3.heap[p]? = some b := by
    intro q hq
    rw [hg3] at hq
    obtain ⟨bq, hbq, -⟩ := hval2 q hq
    by_cases hmem : q ∈ pre ++ post
    · exact ⟨bq.release.1, by rw [hh3]; simp only [hmem, if_true, hbq]; rfl⟩
    · exact ⟨bq, by rw [hh3]; simp only [hmem, if_false, hbq]⟩
  obtain ⟨w4, hsub, hg4, ho4, hc4, hl4, hh4⟩ := w3.subscribeAll_spec hval3
  have hat : World.senderUpdateAt (World.deliver fuel) pre.length B wp = some w4 := by
    have hpB : wp.heap[B]? = some { bB with _isPressed := true } := by rw [hhp]; simp
    simp [World.senderUpdateAt, hpB, ButtonBase.isPressed, hun, hrel, hsub]
  have hsu := World.senderUpdate_member (World.deliver fuel) wp w4 pre post B
    (by rw [hgp]; exact hL) hnd hat
  refine ⟨w4, ?_, ?_, ?_, ?_, ?_, ?_⟩
  · have hpress : bB.press = ({ bB with _isPressed := true }, [Event.notify w.group.self]) := by
      simp [ButtonBase.press, ButtonBase.isEnabled, heB, ButtonBase.updateSubscription, hrB]
    have hdel : World.deliver (fuel + 1)
        { w with heap := w.heap.set B { bB with _isPressed := true } } B = some w4 := by
      simp only [World.deliver]
      rw [← hwp]; exact hsu
    simp [World.press, World.call, hbB, hpress, World.dispatch, hdel]
  · rw [hg4, hg3, hg2, hgp]
  · rw [ho4, ho3, ho2, hwp]
  · rw [hc4, hc3, hc2, hwp]
  · rw [hl4, hl3, hl2, hwp]; simp
  · intro a
    rw [hh4, hh3, hh2, hhp, hg3, hg2, hgp]
    by_cases haB : a = B
    · subst haB
      simp only [hBmem, hBnot, if_true, if_false, Option.map_some', hbB]
      rw [ButtonBase.resubscribe_pressed bB w.group.self hrB]
    · have hiff := hmemL a
      by_cases hmem : a ∈ w.group._button
      · have hpp : a ∈ pre ++ post := by
          rcases hiff.mp hmem with h | h
          · exact absurd h haB
          · exact h
        obtain ⟨ba, hba, hea, hra⟩ := hval a hmem
        simp only [hmem, hpp, haB, if_true, if_false, Option.map_some', hba]
        rw [ButtonBase.resubscribe_released ba w.group.self hra hea]
      · have hpp : a ∉ pre ++ post := fun h => hmem (hiff.mpr (Or.inr h))
        simp only [hmem, hpp, haB, if_false]

/-! ### Claim on `OptionButtonGroup` -/

/-- C7: for every button, after the constructor of `ButtonRestorer` the button
is disabled; after the destructor, run on the button as the constructor left
it, the enabled flag is what it was before the constructor (so an enabled
button ends enabled); and for a button that was already disabled both the
constructor and the destructor return the button as it was and produce no
event. -/
theorem C7_button_restorer (env : Env) (b : ButtonBase) :
    (ButtonRestorer.new env b).2.1.isDisabled = true ∧
    (ButtonRestorer.destroy env (ButtonRestorer.new env b).1
      (ButtonRestorer.new env b).2.1).1._isEnabled = b._isEnabled ∧
    (b.isEnabled = true →
      (ButtonRestorer.destroy env (ButtonRestorer.new env b).1
        (ButtonRestorer.new env b).2.1).1.isEnabled = true) ∧
    (b.isDisabled = true →
      (ButtonRestorer.new env b).2 = (b, []) ∧
      ButtonRestorer.destroy env (ButtonRestorer.new env b).1 b = (b, [])) := by
  cases he : b._isEnabled with
  | false =>
    simp [ButtonRestorer.new, ButtonRestorer.destroy, ButtonBase.isDisabled,
      ButtonBase.isEnabled, he]
  | true =>
    obtain ⟨-, -, -, hde, -, -, -⟩ := (b.disable.1).draw_frame env
    have hnew : ButtonRestorer.new env b =
        ({ _isDisabled := false }, (b.disable.1.draw env).1,
          b.disable.2 ++ (b.disable.1.draw env).2) := by
      simp [ButtonRestorer.new, ButtonBase.isDisabled, he]
    obtain ⟨-, -, -, hde2, -, -, -⟩ := (((b.disable.1.draw env).1).enable.1).draw_frame env
    have hdes : (ButtonRestorer.destroy env { _isDisabled := false }
        (b.disable.1.draw env).1).1._isEnabled = true := by
      simp only [ButtonRestorer.destroy, Bool.not_false, if_true, hde2]
      simp [ButtonBase.enable]
    rw [hnew]
    refine ⟨?_, ?_, ?_, ?_⟩
    · simp only [ButtonBase.isDisabled, hde]
      simp [ButtonBase.disable]
    · exact hdes
    · intro _; exact hdes
    · intro hd
      simp [ButtonBase.isDisabled, he] at hd

/-- C7 evaluated on an enabled and on a disabled button. -/
theorem C7_button_restorer_witness :
    (sampleButton.isEnabled = true ∧
      (ButtonRestorer.new sampleEnv sampleButton).2.1.isDisabled = true ∧
      (ButtonRestorer.destroy sampleEnv (ButtonRestorer.new sampleEnv sampleButton).1
        (ButtonRestorer.new sampleEnv sampleButton).2.1).1.isEnabled = true) ∧
    (sampleDisabled.isDisabled = true ∧
      (ButtonRestorer.new sampleEnv sampleDisabled).2 = (sampleDisabled, []) ∧
      ButtonRestorer.destroy sampleEnv (ButtonRestorer.new sampleEnv sampleDisabled).1
        sampleDisabled = (sampleDisabled, [])) :=
  ⟨⟨by decide, (C7_button_restorer sampleEnv sampleButton).1,
      (C7_button_restorer sampleEnv sampleButton).2.2.1 (by decide)⟩,
    ⟨by decide, (C7_button_restorer sampleEnv sampleDisabled).2.2.2 (by decide)⟩⟩

/-! ### The loops of `ButtonGroup::processEvents` -/

/-- Pressing and drawing keeps the enabled flag. -/
theorem ButtonBase.drawOnPress_isEnabled (env : Env) (b : ButtonBase) :
    (b.drawOnPress env).1._isEnabled = b._isEnabled := by
  obtain ⟨-, -, -, hp, -, -, -⟩ := (b.press.1).draw_frame env
  have hpress : b.press.1._isEnabled = b._isEnabled := by
    unfold ButtonBase.press
    by_cases he : b.isEnabled = true <;> simp [he]
  unfold ButtonBase.drawOnPress
  by_cases hpr : b.isPressed = true
  · simp [hpr]
  · simp only [hpr, Bool.not_false, Bool.not_eq_true, if_true, hp, hpress]

/-- Releasing and drawing keeps the enabled flag. -/
theorem ButtonBase.drawOnRelease_isEnabled (env : Env) (b : ButtonBase) :
    (b.drawOnRelease env).1._isEnabled = b._isEnabled := by
  obtain ⟨-, -, -, hr, -, -, -⟩ := (b.release.1).draw_frame env
  have hrel : b.release.1._isEnabled = b._isEnabled := by
    unfold ButtonBase.release
    by_cases he : b.isEnabled = true <;> simp [he]
  unfold ButtonBase.drawOnRelease
  by_cases hpr : b.isPressed = true
  · simp only [hpr, if_true, hr, hrel]
  · simp [hpr]

/-- The first loop keeps the enabled flag of each button. -/
theorem ButtonGroup.refresh_isEnabled (env : Env) (le : LocalEvent) (b : ButtonBase) :
    (ButtonGroup.refresh env le b).1.isEnabled = b.isEnabled := by
  unfold ButtonGroup.refresh
  by_cases he : b.isEnabled = true
  · have he1 : b._isEnabled = true := he
    by_cases hm : le.MousePressLeft (b.area env) = true
    · simp [he, hm, ButtonBase.isEnabled, b.drawOnPress_isEnabled env, he1]
    · simp [he, hm, ButtonBase.isEnabled, b.drawOnRelease_isEnabled env, he1]
  · simp [he]

/-- The first loop treats every button on its own. -/
theorem ButtonGroup.refreshAll_buttons (env : Env) (le : LocalEvent) (bs : List ButtonBase) :
    (ButtonGroup.refreshAll env le bs).1 = bs.map (fun b => (ButtonGroup.refresh env le b).1) := by
  induction bs with
  | nil => rfl
  | cons b bs ih => simp [ButtonGroup.refreshAll, ih]

/-- The second loop returns the value of the first button, from the left,
that is enabled and whose area holds the click. -/
theorem ButtonGroup.clickLoop_found (env : Env) (le : LocalEvent) (value : List Int) :
    ∀ (bs : List ButtonBase) (s k : Nat) (b : ButtonBase) (v : Int),
      bs[k]? = some b → (b.isEnabled && le.MouseClickLeft (b.area env)) = true →
      value[s + k]? = some v →
      (∀ j, j < k → ∀ bj, bs[j]? = some bj →
        (bj.isEnabled && le.MouseClickLeft (bj.area env)) = false) →
      ButtonGroup.clickLoop env le value bs s = some (some v) := by
  intro bs
  induction bs with
  | nil => intro s k b v hb; simp at hb
  | cons x xs ih =>
    intro s k b v hb hc hv hfirst
    cases k with
    | zero =>
      have hx : x = b := by simpa using hb
      subst hx
      have hv0 : value[s]? = some v := by simpa using hv
      simp [ButtonGroup.clickLoop, hc, hv0]
    | succ k =>
      have hx := hfirst 0 (Nat.succ_pos k) x (by simp)
      have hb1 : xs[k]? = some b := by simpa using hb
      have hv1 : value[s + 1 + k]? = some v := by
        have : s + 1 + k = s + (k + 1) := by omega
        rw [this]; exact hv
      have hrest := ih (s + 1) k b v hb1 hc hv1 (fun j hj bj hbj =>
        hfirst (j + 1) (by omega) bj (by simpa using hbj))
      simp [ButtonGroup.clickLoop, hx, hrest]

/-- The second loop falls through when no button is enabled with the click
in its area. -/
theorem ButtonGroup.clickLoop_none (env : Env) (le : LocalEvent) (value : List Int) :
    ∀ (bs : List ButtonBase) (s : Nat),
      (∀ b ∈ bs, (b.isEnabled && le.MouseClickLeft (b.area env)) = false) →
      ButtonGroup.clickLoop env le value bs s = some none := by
  intro bs
  induction bs with
  | nil => intro s _; rfl
  | cons x xs ih =>
    intro s h
    have hx := h x (List.mem_cons_self x xs)
    simp [ButtonGroup.clickLoop, hx, ih (s + 1) (fun b hb => h b (List.mem_cons_of_mem x hb))]

/-- The third loop returns the value of the first enabled button, from the
left, whose value answers a raised hot key. -/
theorem ButtonGroup.hotKeyLoop_found (d : Dialog) (le : LocalEvent) (value : List Int) :
    ∀ (bs : List ButtonBase) (s k : Nat) (b : ButtonBase) (v : Int),
      s + bs.length ≤ value.length →
      bs[k]? = some b → b.isEnabled = true → value[s + k]? = some v →
      answersHotKey d le v →
      (∀ j, j < k → ∀ bj vj, bs[j]? = some bj → value[s + j]? = some vj →
        ¬ (bj.isEnabled = true ∧ answersHotKey d le vj)) →
      ButtonGroup.hotKeyLoop d le value bs s = some (some v) := by
  intro bs
  induction bs with
  | nil => intro s k b v _ hb; simp at hb
  | cons x xs ih =>
    intro s k b v hlen hb he hv hans hfirst
    have hlen1 : s + 1 + xs.length ≤ value.length := by
      simp only [List.length_cons] at hlen; omega
    cases k with
    | zero =>
      have hx : x = b := by simpa using hb
      subst hx
      have hv0 : value[s]? = some v := by simpa using hv
      unfold answersHotKey at hans
      simp only [ButtonGroup.hotKeyLoop, he, if_true, hv0]
      rcases hans with ⟨hyo, hk⟩ | ⟨hcn, hk⟩
      · have : (decide (v = (d.YES : Int)) || decide (v = (d.OK : Int))) = true := by
          simpa using hyo
        simp [this, hk]
      · have : (decide (v = (d.CANCEL : Int)) || decide (v = (d.NO : Int))) = true := by
          simpa using hcn
        by_cases h1 : ((decide (v = (d.YES : Int)) || decide (v = (d.OK : Int))) &&
            le.HotKeyPressEvent .DEFAULT_OKAY) = true
        · simp [h1]
        · simp [h1, this, hk]
    | succ k =>
      have hb1 : xs[k]? = some b := by simpa using hb
      have hv1 : value[s + 1 + k]? = some v := by
        have : s + 1 + k = s + (k + 1) := by omega
        rw [this]; exact hv
      have hrest := ih (s + 1) k b v hlen1 hb1 he hv1 hans (fun j hj bj vj hbj hvj =>
        hfirst (j + 1) (by omega) bj vj (by simpa using hbj) (by
          have : s + (j + 1) = s + 1 + j := by omega
          rw [this]; exact hvj))
      have hslt : s < value.length := by simp only [List.length_cons] at hlen; omega
      obtain ⟨vx, hvx⟩ : ∃ vx, value[s]? = some vx := ⟨value[s], by simp [hslt]⟩
      have hx := hfirst 0 (Nat.succ_pos k) x vx (by simp) (by simpa using hvx)
      by_cases hex : x.isEnabled = true
      · have hnot : ¬ answersHotKey d le vx := fun h => hx ⟨hex, h⟩
        unfold answersHotKey at hnot
        have h1 : ((decide (vx = (d.YES : Int)) || decide (vx = (d.OK : Int))) &&
            le.HotKeyPressEvent .DEFAULT_OKAY) = false := by
          by_contra hc
          simp only [Bool.not_eq_false, Bool.and_eq_true, Bool.or_eq_true,
            decide_eq_true_eq] at hc
          exact hnot (Or.inl hc)
        have h2 : ((decide (vx = (d.CANCEL : Int)) || decide (vx = (d.NO : Int))) &&
            le.HotKeyPressEvent .DEFAULT_CANCEL) = false := by
          by_contra hc
          simp only [Bool.not_eq_false, Bool.and_eq_true, Bool.or_eq_true,
            decide_eq_true_eq] at hc
          exact hnot (Or.inr hc)
        simp only [ButtonGroup.hotKeyLoop, hex, if_true, hvx, h1, h2]
        simpa using hrest
      · simp only [ButtonGroup.hotKeyLoop, hex]
        simpa using hrest

/-- The two tests of the third loop, as a proposition. -/
theorem answersHotKey_iff (d : Dialog) (le : LocalEvent) (v : Int) :
    answersHotKey d le v ↔
      (((decide (v = (d.YES : Int)) || decide (v = (d.OK : Int))) &&
          le.HotKeyPressEvent .DEFAULT_OKAY) = true ∨
        ((decide (v = (d.CANCEL : Int)) || decide (v = (d.NO : Int))) &&
          le.HotKeyPressEvent .DEFAULT_CANCEL) = true) := by
  simp [answersHotKey]

/-- The third loop falls through when no enabled button has a value that
answers a raised hot key. -/
theorem ButtonGroup.hotKeyLoop_none (d : Dialog) (le : LocalEvent) (value : List Int) :
    ∀ (bs : List ButtonBase) (s : Nat), s + bs.length ≤ value.length →
      (∀ j bj vj, bs[j]? = some bj → value[s + j]? = some vj →
        ¬ (bj.isEnabled = true ∧ answersHotKey d le vj)) →
      ButtonGroup.hotKeyLoop d le value bs s = some none := by
  intro bs
  induction bs with
  | nil => intro s _ _; rfl
  | cons x xs ih =>
    intro s hlen hnone
    have hlen1 : s + 1 + xs.length ≤ value.length := by
      simp only [List.length_cons] at hlen; omega
    have hrest := ih (s + 1) hlen1 (fun j bj vj hbj hvj =>
      hnone (j + 1) bj vj (by simpa using hbj) (by
        have : s + (j + 1) = s + 1 + j := by omega
        rw [this]; exact hvj))
    have hslt : s < value.length := by simp only [List.length_cons] at hlen; omega
    obtain ⟨vx, hvx⟩ : ∃ vx, value[s]? = some vx := ⟨value[s], by simp [hslt]⟩
    have hx := hnone 0 x vx (by simp) (by simpa using hvx)
    by_cases hex : x.isEnabled = true
    · have hnot : ¬ answersHotKey d le vx := fun h => hx ⟨hex, h⟩
      rw [answersHotKey_iff] at hnot
      have h1 : ((decide (vx = (d.YES : Int)) || decide (vx = (d.OK : Int))) &&
          le.HotKeyPressEvent .DEFAULT_OKAY) = false := by
        by_contra hc
        exact hnot (Or.inl (by simpa using hc))
      have h2 : ((decide (vx = (d.CANCEL : Int)) || decide (vx = (d.NO : Int))) &&
          le.HotKeyPressEvent .DEFAULT_CANCEL) = false := by
        by_contra hc
        exact hnot (Or.inr (by simpa using hc))
      simp only [ButtonGroup.hotKeyLoop, hex, if_true, hvx, h1, h2]
      simpa using hrest
    · simp only [ButtonGroup.hotKeyLoop, hex]
      simpa using hrest

/-- A value returned by the second loop is the value of an enabled button
whose area holds the click. -/
theorem ButtonGroup.clickLoop_sound (env : Env) (le : LocalEvent) (value : List Int) :
    ∀ (bs : List ButtonBase) (s : Nat) (v : Int),
      ButtonGroup.clickLoop env le value bs s = some (some v) →
      ∃ k b, bs[k]? = some b ∧ value[s + k]? = some v ∧
        b.isEnabled = true ∧ le.MouseClickLeft (b.area env) = true := by
  intro bs
  induction bs with
  | nil => intro s v h; simp [ButtonGroup.clickLoop] at h
  | cons x xs ih =>
    intro s v h
    by_cases hc : (x.isEnabled && le.MouseClickLeft (x.area env)) = true
    · simp only [ButtonGroup.clickLoop, hc, if_true] at h
      cases hv : value[s]? with
      | none => simp [hv] at h
      | some vx =>
        simp only [hv, Option.some.injEq] at h
        subst h
        have hc2 : x.isEnabled = true ∧ le.MouseClickLeft (x.area env) = true := by
          simpa using hc
        exact ⟨0, x, by simp, by simpa using hv, hc2.1, hc2.2⟩
    · simp only [ButtonGroup.clickLoop, hc] at h
      obtain ⟨k, b, hb, hv, he, hcl⟩ := ih (s + 1) v (by simpa using h)
      refine ⟨k + 1, b, by simpa using hb, ?_, he, hcl⟩
      have : s + (k + 1) = s + 1 + k := by omega
      rw [this]; exact hv

/-- A value returned by the third loop is the value of an enabled button and
answers a raised hot key. -/
theorem ButtonGroup.hotKeyLoop_sound (d : Dialog) (le : LocalEvent) (value : List Int) :
    ∀ (bs : List ButtonBase) (s : Nat) (v : Int),
      ButtonGroup.hotKeyLoop d le value bs s = some (some v) →
      ∃ k b, bs[k]? = some b ∧ value[s + k]? = some v ∧
        b.isEnabled = true ∧ answersHotKey d le v := by
  intro bs
  induction bs with
  | nil => intro s v h; simp [ButtonGroup.hotKeyLoop] at h
  | cons x xs ih =>
    intro s v h
    have hstep : ∀ (h1 : ButtonGroup.hotKeyLoop d le value xs (s + 1) = some (some v)),
        ∃ k b, (x :: xs)[k]? = some b ∧ value[s + k]? = some v ∧
          b.isEnabled = true ∧ answersHotKey d le v := by
      intro h1
      obtain ⟨k, b, hb, hv, he, ha⟩ := ih (s + 1) v h1
      refine ⟨k + 1, b, by simpa using hb, ?_, he, ha⟩
      have : s + (k + 1) = s + 1 + k := by omega
      rw [this]; exact hv
    by_cases hex : x.isEnabled = true
    · simp only [ButtonGroup.hotKeyLoop, hex, if_true] at h
      cases hv : value[s]? with
      | none => simp [hv] at h
      | some vx =>
        simp only [hv] at h
        by_cases h1 : ((decide (vx = (d.YES : Int)) || decide (vx = (d.OK : Int))) &&
            le.HotKeyPressEvent .DEFAULT_OKAY) = true
        · simp only [h1, if_true, Option.some.injEq] at h
          subst h
          exact ⟨0, x, by simp, by simpa using hv, hex,
            (answersHotKey_iff d le vx).mpr (Or.inl h1)⟩
        · by_cases h2 : ((decide (vx = (d.CANCEL : Int)) || decide (vx = (d.NO : Int))) &&
              le.HotKeyPressEvent .DEFAULT_CANCEL) = true
          · simp [h1, h2] at h
            subst h
            exact ⟨0, x, by simp, by simpa using hv, hex,
              (answersHotKey_iff d le vx).mpr (Or.inr h2)⟩
          · simp only [h1, h2] at h
            exact hstep (by simpa using h)
    · simp only [ButtonGroup.hotKeyLoop, hex] at h
      exact hstep (by simpa using h)

/-- Reading the buttons after the first loop. -/
theorem ButtonGroup.refreshAll_getElem? (env : Env) (le : LocalEvent) (bs : List ButtonBase)
    (k : Nat) :
    (ButtonGroup.refreshAll env le bs).1[k]? =
      (bs[k]?).map (fun b => (ButtonGroup.refresh env le b).1) := by
  rw [ButtonGroup.refreshAll_buttons, List.getElem?_map]

/-- The test of the second loop on a button after the first loop. -/
theorem ButtonGroup.click_test_iff (env : Env) (le : LocalEvent) (b : ButtonBase) :
    ((ButtonGroup.refresh env le b).1.isEnabled &&
        le.MouseClickLeft ((ButtonGroup.refresh env le b).1.area env)) = true ↔
      (b.isEnabled = true ∧
        le.MouseClickLeft ((ButtonGroup.refresh env le b).1.area env) = true) := by
  rw [ButtonGroup.refresh_isEnabled]
  simp

/-! ### Claims on `ButtonGroup::processEvents` -/

/-- C10 fails as stated. Over the sample atlas, whose sprites 5 and 7 are 10
by 4 with anchor `(1, 1)`, the group YES|NO in the rectangle
`(0, 0, 200, 100)` has the areas `(1, 97, 10, 4)` and `(191, 97, 10, 4)`: the
left edge of YES is 1, not 0, the right edge of NO is 201, not 200, and both
bottom edges are 101, not 100. -/
theorem C10_counterexample :
    yesNoGroup._button.map (fun b => b.area sampleEnv) =
        [{ x := 1, y := 97, width := 10, height := 4 },
         { x := 191, y := 97, width := 10, height := 4 }] ∧
      yesNoGroup._button.map (fun b => (b.area sampleEnv).x) ≠ [0, 190] ∧
      yesNoGroup._button.map (fun b => (b.area sampleEnv).right) = [11, 201] ∧
      yesNoGroup._button.map (fun b => (b.area sampleEnv).bottom) = [101, 101] := by
  decide

/-- C10 as amended: for every rectangle and every atlas, the group constructed
with YES|NO holds exactly two buttons, valued YES then NO; the area of the YES
button has its left edge at the rectangle's left edge plus the anchor x of its
released sprite (frame 5) and its bottom edge at the rectangle's bottom edge
plus the anchor y; the area of the NO button has its right edge at the
rectangle's right edge plus the anchor x of its released sprite (frame 7) and
its bottom edge at the rectangle's bottom edge plus the anchor y. When both
anchors are `(0, 0)` the edges are the rectangle's. -/
theorem C10_yes_no_layout (env : Env) (d : Dialog) (area : Rect) :
    ∃ yes no : ButtonBase,
      (ButtonGroup.new env d area ((d.YES ||| d.NO : Nat) : Int))._button = [yes, no] ∧
      (ButtonGroup.new env d area ((d.YES ||| d.NO : Nat) : Int))._value =
        [(d.YES : Int), (d.NO : Int)] ∧
      (ButtonGroup.new env d area ((d.YES ||| d.NO : Nat) : Int)).size = 2 ∧
      (yes.area env).x =
        area.x + (env.GetICN (if env.evilInterface then env.SYSTEME else env.SYSTEM) 5)._x ∧
      (yes.area env).bottom =
        area.bottom + (env.GetICN (if env.evilInterface then env.SYSTEME else env.SYSTEM) 5)._y ∧
      (no.area env).right =
        area.right + (env.GetICN (if env.evilInterface then env.SYSTEME else env.SYSTEM) 7)._x ∧
      (no.area env).bottom =
        area.bottom + (env.GetICN (if env.evilInterface then env.SYSTEME else env.SYSTEM) 7)._y ∧
      ((env.GetICN (if env.evilInterface then env.SYSTEME else env.SYSTEM) 5)._x = 0 →
        (env.GetICN (if env.evilInterface then env.SYSTEME else env.SYSTEM) 5)._y = 0 →
        (env.GetICN (if env.evilInterface then env.SYSTEME else env.SYSTEM) 7)._x = 0 →
        (env.GetICN (if env.evilInterface then env.SYSTEME else env.SYSTEM) 7)._y = 0 →
        (yes.area env).x = area.x ∧ (yes.area env).bottom = area.bottom ∧
        (no.area env).right = area.right ∧ (no.area env).bottom = area.bottom) := by
  refine ⟨ButtonBase.new area.x
      (area.y + area.height -
        (env.GetICN (if env.evilInterface then env.SYSTEME else env.SYSTEM) 5)._height)
      (.icn (if env.evilInterface then env.SYSTEME else env.SYSTEM) 5 6),
    ButtonBase.new
      (area.x + area.width -
        (env.GetICN (if env.evilInterface then env.SYSTEME else env.SYSTEM) 7)._width)
      (area.y + area.height -
        (env.GetICN (if env.evilInterface then env.SYSTEME else env.SYSTEM) 7)._height)
      (.icn (if env.evilInterface then env.SYSTEME else env.SYSTEM) 7 8),
    ?_, ?_, ?_, ?_, ?_, ?_, ?_, ?_⟩
  · simp [ButtonGroup.new, ButtonGroup.createButton, ButtonGroup.empty]
  · simp [ButtonGroup.new, ButtonGroup.createButton, ButtonGroup.empty]
  · simp [ButtonGroup.new, ButtonGroup.createButton, ButtonGroup.empty, ButtonGroup.size]
  · simp [ButtonBase.area, ButtonBase.new, ButtonBase.isPressed, ButtonBase._getReleased]
  · simp only [ButtonBase.area, ButtonBase.new, ButtonBase.isPressed, ButtonBase._getReleased,
      Rect.bottom]
    simp only [Bool.false_eq_true, if_false]
    ring
  · simp only [ButtonBase.area, ButtonBase.new, ButtonBase.isPressed, ButtonBase._getReleased,
      Rect.right]
    simp only [Bool.false_eq_true, if_false]
    ring
  · simp only [ButtonBase.area, ButtonBase.new, ButtonBase.isPressed, ButtonBase._getReleased,
      Rect.bottom]
    simp only [Bool.false_eq_true, if_false]
    ring
  · intro h5x h5y h7x h7y
    simp only [ButtonBase.area, ButtonBase.new, ButtonBase.isPressed, ButtonBase._getReleased,
      Rect.bottom, Rect.right]
    simp only [Bool.false_eq_true, if_false, h5x, h5y, h7x, h7y]
    refine ⟨by ring, by ring, by ring, by ring⟩

/-- C10 as amended, evaluated on the rectangle `(0, 0, 200, 100)` over an
atlas whose sprites are 10 by 4 with anchor `(0, 0)`: the YES button has left
edge 0 and bottom edge 100, the NO button right edge 200 and bottom edge 100. -/
theorem C10_yes_no_layout_witness :
    (flatEnv.GetICN (if flatEnv.evilInterface then flatEnv.SYSTEME else flatEnv.SYSTEM) 5)._x = 0 ∧
    (flatEnv.GetICN (if flatEnv.evilInterface then flatEnv.SYSTEME else flatEnv.SYSTEM) 5)._y = 0 ∧
    (flatEnv.GetICN (if flatEnv.evilInterface then flatEnv.SYSTEME else flatEnv.SYSTEM) 7)._x = 0 ∧
    (flatEnv.GetICN (if flatEnv.evilInterface then flatEnv.SYSTEME else flatEnv.SYSTEM) 7)._y = 0 ∧
    (ButtonGroup.new flatEnv sampleDialog sampleRect
        ((sampleDialog.YES ||| sampleDialog.NO : Nat) : Int))._button.map
      (fun b => b.area flatEnv) =
        [{ x := 0, y := 96, width := 10, height := 4 },
         { x := 190, y := 96, width := 10, height := 4 }] ∧
    ∃ yes no : ButtonBase,
      (ButtonGroup.new flatEnv sampleDialog sampleRect
        ((sampleDialog.YES ||| sampleDialog.NO : Nat) : Int))._button = [yes, no] ∧
      (yes.area flatEnv).x = 0 ∧ (yes.area flatEnv).bottom = 100 ∧
      (no.area flatEnv).right = 200 ∧ (no.area flatEnv).bottom = 100 :=
  ⟨by decide, by decide, by decide, by decide, by decide,
    match C10_yes_no_layout flatEnv sampleDialog sampleRect with
    | ⟨yes, no, hb, _, _, _, _, _, _, h⟩ =>
      ⟨yes, no, hb, h (by decide) (by decide) (by decide) (by decide)⟩⟩

/-! ### Claim on the sizes of the preset groups -/

/-- Two unions of bit flags that differ in bit `k` are different. -/
theorem ne_of_testBit_ne {x y : Nat} (k : Nat) (h : x.testBit k ≠ y.testBit k) :
    (x : Int) ≠ (y : Int) := by
  intro he
  have hxy : x = y := by exact_mod_cast he
  exact h (by rw [hxy])

/-- C11: let YES, OK, NO and CANCEL be pairwise distinct single-bit flags.
The preset constructor gives a group of size 2 for YES|NO and for OK|CANCEL,
of size 1 for OK alone and for CANCEL alone, and the empty group (size 0) for
every other value of the bitmask, among them 0, YES alone, NO alone and
YES|OK. -/
theorem C11_preset_sizes (env : Env) (d : Dialog) (area : Rect) (a b c e : Nat)
    (hY : d.YES = 2 ^ a) (hO : d.OK = 2 ^ b) (hN : d.NO = 2 ^ c) (hC : d.CANCEL = 2 ^ e)
    (hd : [a, b, c, e].Nodup) :
    (ButtonGroup.new env d area ((d.YES ||| d.NO : Nat) : Int)).size = 2 ∧
    (ButtonGroup.new env d area ((d.OK ||| d.CANCEL : Nat) : Int)).size = 2 ∧
    (ButtonGroup.new env d area (d.OK : Int)).size = 1 ∧
    (ButtonGroup.new env d area (d.CANCEL : Int)).size = 1 ∧
    (∀ buttonTypes : Int,
      buttonTypes ≠ ((d.YES ||| d.NO : Nat) : Int) →
      buttonTypes ≠ ((d.OK ||| d.CANCEL : Nat) : Int) →
      buttonTypes ≠ (d.OK : Int) → buttonTypes ≠ (d.CANCEL : Int) →
      ButtonGroup.new env d area buttonTypes = ButtonGroup.empty ∧
      (ButtonGroup.new env d area buttonTypes).size = 0) ∧
    (ButtonGroup.new env d area 0).size = 0 ∧
    (ButtonGroup.new env d area (d.YES : Int)).size = 0 ∧
    (ButtonGroup.new env d area (d.NO : Int)).size = 0 ∧
    (ButtonGroup.new env d area ((d.YES ||| d.OK : Nat) : Int)).size = 0 := by
  simp only [List.nodup_cons, List.mem_cons, List.mem_singleton, List.not_mem_nil,
    not_or, List.nodup_nil, and_true, or_false, not_false_eq_true] at hd
  obtain ⟨⟨hab, hac, hae⟩, ⟨hbc, hbe⟩, hce⟩ := hd
  have hba : b ≠ a := fun h => hab h.symm
  have hca : c ≠ a := fun h => hac h.symm
  have hea : e ≠ a := fun h => hae h.symm
  have hcb : c ≠ b := fun h => hbc h.symm
  have heb : e ≠ b := fun h => hbe h.symm
  have hec : e ≠ c := fun h => hce h.symm
  have hother : ∀ buttonTypes : Int,
      buttonTypes ≠ ((d.YES ||| d.NO : Nat) : Int) →
      buttonTypes ≠ ((d.OK ||| d.CANCEL : Nat) : Int) →
      buttonTypes ≠ (d.OK : Int) → buttonTypes ≠ (d.CANCEL : Int) →
      ButtonGroup.new env d area buttonTypes = ButtonGroup.empty ∧
      (ButtonGroup.new env d area buttonTypes).size = 0 := by
    intro bt h1 h2 h3 h4
    simp [ButtonGroup.new, h1, h2, h3, h4, ButtonGroup.size, ButtonGroup.empty]
  -- the case labels and the other values, as unions of bits
  have n1 : ((d.OK ||| d.CANCEL : Nat) : Int) ≠ ((d.YES ||| d.NO : Nat) : Int) :=
    ne_of_testBit_ne a (by simp [hY, hO, hN, hC, Nat.testBit_lor, Nat.testBit_two_pow, *])
  have n2 : (d.OK : Int) ≠ ((d.YES ||| d.NO : Nat) : Int) :=
    ne_of_testBit_ne a (by simp [hY, hO, hN, hC, Nat.testBit_lor, Nat.testBit_two_pow, *])
  have n3 : (d.OK : Int) ≠ ((d.OK ||| d.CANCEL : Nat) : Int) :=
    ne_of_testBit_ne e (by simp [hY, hO, hN, hC, Nat.testBit_lor, Nat.testBit_two_pow, *])
  have n4 : (d.CANCEL : Int) ≠ ((d.YES ||| d.NO : Nat) : Int) :=
    ne_of_testBit_ne a (by simp [hY, hO, hN, hC, Nat.testBit_lor, Nat.testBit_two_pow, *])
  have n5 : (d.CANCEL : Int) ≠ ((d.OK ||| d.CANCEL : Nat) : Int) :=
    ne_of_testBit_ne b (by simp [hY, hO, hN, hC, Nat.testBit_lor, Nat.testBit_two_pow, *])
  have n6 : (d.CANCEL : Int) ≠ (d.OK : Int) :=
    ne_of_testBit_ne b (by simp [hY, hO, hN, hC, Nat.testBit_lor, Nat.testBit_two_pow, *])
  have z1 : (0 : Int) ≠ ((d.YES ||| d.NO : Nat) : Int) := by
    have := ne_of_testBit_ne (x := 0) (y := d.YES ||| d.NO) a
      (by simp [hY, hO, hN, hC, Nat.testBit_lor, Nat.testBit_two_pow, *])
    simpa using this
  have z2 : (0 : Int) ≠ ((d.OK ||| d.CANCEL : Nat) : Int) := by
    have := ne_of_testBit_ne (x := 0) (y := d.OK ||| d.CANCEL) b
      (by simp [hY, hO, hN, hC, Nat.testBit_lor, Nat.testBit_two_pow, *])
    simpa using this
  have z3 : (0 : Int) ≠ (d.OK : Int) := by
    have := ne_of_testBit_ne (x := 0) (y := d.OK) b
      (by simp [hY, hO, hN, hC, Nat.testBit_lor, Nat.testBit_two_pow, *])
    simpa using this
  have z4 : (0 : Int) ≠ (d.CANCEL : Int) := by
    have := ne_of_testBit_ne (x := 0) (y := d.CANCEL) e
      (by simp [hY, hO, hN, hC, Nat.testBit_lor, Nat.testBit_two_pow, *])
    simpa using this
  have y1 : (d.YES : Int) ≠ ((d.YES ||| d.NO : Nat) : Int) :=
    ne_of_testBit_ne c (by simp [hY, hO, hN, hC, Nat.testBit_lor, Nat.testBit_two_pow, *])
  have y2 : (d.YES : Int) ≠ ((d.OK ||| d.CANCEL : Nat) : Int) :=
    ne_of_testBit_ne a (by simp [hY, hO, hN, hC, Nat.testBit_lor, Nat.testBit_two_pow, *])
  have y3 : (d.YES : Int) ≠ (d.OK : Int) :=
    ne_of_testBit_ne a (by simp [hY, hO, hN, hC, Nat.testBit_lor, Nat.testBit_two_pow, *])
  have y4 : (d.YES : Int) ≠ (d.CANCEL : Int) :=
    ne_of_testBit_ne a (by simp [hY, hO, hN, hC, Nat.testBit_lor, Nat.testBit_two_pow, *])
  have m1 : (d.NO : Int) ≠ ((d.YES ||| d.NO : Nat) : Int) :=
    ne_of_testBit_ne a (by simp [hY, hO, hN, hC, Nat.testBit_lor, Nat.testBit_two_pow, *])
  have m2 : (d.NO : Int) ≠ ((d.OK ||| d.CANCEL : Nat) : Int) :=
    ne_of_testBit_ne c (by simp [hY, hO, hN, hC, Nat.testBit_lor, Nat.testBit_two_pow, *])
  have m3 : (d.NO : Int) ≠ (d.OK : Int) :=
    ne_of_testBit_ne c (by simp [hY, hO, hN, hC, Nat.testBit_lor, Nat.testBit_two_pow, *])
  have m4 : (d.NO : Int) ≠ (d.CANCEL : Int) :=
    ne_of_testBit_ne c (by simp [hY, hO, hN, hC, Nat.testBit_lor, Nat.testBit_two_pow, *])
  have k1 : ((d.YES ||| d.OK : Nat) : Int) ≠ ((d.YES ||| d.NO : Nat) : Int) :=
    ne_of_testBit_ne b (by simp [hY, hO, hN, hC, Nat.testBit_lor, Nat.testBit_two_pow, *])
  have k2 : ((d.YES ||| d.OK : Nat) : Int) ≠ ((d.OK ||| d.CANCEL : Nat) : Int) :=
    ne_of_testBit_ne a (by simp [hY, hO, hN, hC, Nat.testBit_lor, Nat.testBit_two_pow, *])
  have k3 : ((d.YES ||| d.OK : Nat) : Int) ≠ (d.OK : Int) :=
    ne_of_testBit_ne a (by simp [hY, hO, hN, hC, Nat.testBit_lor, Nat.testBit_two_pow, *])
  have k4 : ((d.YES ||| d.OK : Nat) : Int) ≠ (d.CANCEL : Int) :=
    ne_of_testBit_ne a (by simp [hY, hO, hN, hC, Nat.testBit_lor, Nat.testBit_two_pow, *])
  refine ⟨?_, ?_, ?_, ?_, hother, (hother 0 z1 z2 z3 z4).2, (hother _ y1 y2 y3 y4).2,
    (hother _ m1 m2 m3 m4).2, (hother _ k1 k2 k3 k4).2⟩
  · simp [ButtonGroup.new, ButtonGroup.size, ButtonGroup.createButton, ButtonGroup.empty]
  · simp only [ButtonGroup.new, n1, if_false, if_true]
    simp [ButtonGroup.size, ButtonGroup.createButton, ButtonGroup.empty]
  · simp only [ButtonGroup.new, n2, n3, if_false, if_true]
    simp [ButtonGroup.size, ButtonGroup.createButton, ButtonGroup.empty]
  · simp only [ButtonGroup.new, n4, n5, n6, if_false, if_true]
    simp [ButtonGroup.size, ButtonGroup.createButton, ButtonGroup.empty]

/-- C11 evaluated with YES = 1, OK = 2, NO = 4, CANCEL = 8 over the sample
atlas: sizes 2, 2, 1, 1 for the four presets and 0 for 0, YES, NO, YES|OK and
for 15. -/
theorem C11_preset_sizes_witness :
    (sampleDialog.YES = 2 ^ 0 ∧ sampleDialog.OK = 2 ^ 1 ∧ sampleDialog.NO = 2 ^ 2 ∧
      sampleDialog.CANCEL = 2 ^ 3 ∧ [0, 1, 2, 3].Nodup) ∧
    ([5, 10, 2, 8, 0, 1, 4, 3, 15].map
      (fun buttonTypes => (ButtonGroup.new sampleEnv sampleDialog sampleRect buttonTypes).size) =
        [2, 2, 1, 1, 0, 0, 0, 0, 0]) ∧
    (ButtonGroup.new sampleEnv sampleDialog sampleRect
      ((sampleDialog.YES ||| sampleDialog.NO : Nat) : Int)).size = 2 ∧
    (ButtonGroup.new sampleEnv sampleDialog sampleRect (sampleDialog.OK : Int)).size = 1 ∧
    (ButtonGroup.new sampleEnv sampleDialog sampleRect 15).size = 0 :=
  ⟨by decide, by decide,
    (C11_preset_sizes sampleEnv sampleDialog sampleRect 0 1 2 3
      (by decide) (by decide) (by decide) (by decide) (by decide)).1,
    (C11_preset_sizes sampleEnv sampleDialog sampleRect 0 1 2 3
      (by decide) (by decide) (by decide) (by decide) (by decide)).2.2.1,
    ((C11_preset_sizes sampleEnv sampleDialog sampleRect 0 1 2 3
      (by decide) (by decide) (by decide) (by decide) (by decide)).2.2.2.2.1 15
        (by decide) (by decide) (by decide) (by decide)).2⟩

/-! ### Claims on `draw`, `area` and the notifications -/

/-- C12: a hidden button is drawn without any event and without any change;
a visible button is drawn with exactly one blit, of the pressed sprite if the
button is pressed, else of the released sprite if it is enabled, else of the
sprite that `_getDisabled` returns, at the offset plus the anchor of that
sprite; drawing leaves the pressed, enabled and visible flags (and the offset,
the receiver and the sprite source) as they were. -/
theorem C12_draw (env : Env) (b : ButtonBase) :
    (b.isVisible = false → b.draw env = (b, [])) ∧
    (b.isVisible = true → b.isPressed = true →
      (b.draw env).2 = [Event.blit (b._getPressed env)
        (b._offsetX + (b._getPressed env)._x) (b._offsetY + (b._getPressed env)._y)]) ∧
    (b.isVisible = true → b.isPressed = false → b.isEnabled = true →
      (b.draw env).2 = [Event.blit (b._getReleased env)
        (b._offsetX + (b._getReleased env)._x) (b._offsetY + (b._getReleased env)._y)]) ∧
    (b.isVisible = true → b.isPressed = false → b.isEnabled = false →
      (b.draw env).2 = [Event.blit (b._getDisabled env).2
        (b._offsetX + (b._getDisabled env).2._x) (b._offsetY + (b._getDisabled env).2._y)]) ∧
    ((b.draw env).1._isPressed = b._isPressed ∧ (b.draw env).1._isEnabled = b._isEnabled ∧
      (b.draw env).1._isVisible = b._isVisible ∧ (b.draw env).1._offsetX = b._offsetX ∧
      (b.draw env).1._offsetY = b._offsetY ∧ (b.draw env).1._receiver = b._receiver ∧
      (b.draw env).1.source = b.source) := by
  obtain ⟨hx, hy, hp, he, hv, hr, hs⟩ := b.draw_frame env
  obtain ⟨gx, gy, -, -, -, -, -⟩ := b.getDisabled_frame env
  refine ⟨?_, ?_, ?_, ?_, hp, he, hv, hx, hy, hr, hs⟩
  · intro h
    simp [ButtonBase.draw, h]
  · intro h1 h2
    simp [ButtonBase.draw, h1, h2]
  · intro h1 h2 h3
    simp [ButtonBase.draw, h1, h2, h3]
  · intro h1 h2 h3
    simp [ButtonBase.draw, h1, h2, h3, gx, gy]

/-- C12 evaluated on a hidden, a pressed, a released and a disabled button at
`(5, 7)`: no blit; the pressed sprite at `(6, 8)`; the released sprite at
`(5, 7)`; the darkened released sprite at `(5, 7)`. -/
theorem C12_draw_witness :
    (sampleButton.hide.1.isVisible = false ∧
      sampleButton.hide.1.draw sampleEnv = (sampleButton.hide.1, [])) ∧
    (samplePressedButton.isVisible = true ∧ samplePressedButton.isPressed = true ∧
      (samplePressedButton.draw sampleEnv).2 = [Event.blit samplePressed 6 8]) ∧
    (sampleButton.isVisible = true ∧ sampleButton.isPressed = false ∧
      sampleButton.isEnabled = true ∧
      (sampleButton.draw sampleEnv).2 = [Event.blit sampleReleased 5 7]) ∧
    (sampleDisabled.isVisible = true ∧ sampleDisabled.isPressed = false ∧
      sampleDisabled.isEnabled = false ∧
      (sampleDisabled.draw sampleEnv).2 =
        [Event.blit { sampleReleased with _data := [0] } 5 7]) :=
  ⟨⟨by decide, (C12_draw sampleEnv sampleButton.hide.1).1 (by decide)⟩,
    ⟨by decide, by decide,
      (C12_draw sampleEnv samplePressedButton).2.1 (by decide) (by decide)⟩,
    ⟨by decide, by decide, by decide,
      (C12_draw sampleEnv sampleButton).2.2.1 (by decide) (by decide) (by decide)⟩,
    ⟨by decide, by decide, by decide,
      (C12_draw sampleEnv sampleDisabled).2.2.2.1 (by decide) (by decide) (by decide)⟩⟩

/-- C13: in every state `area()` is the rectangle
`(offsetX + s.x, offsetY + s.y, s.width, s.height)` where `s` is the pressed
sprite when the button is pressed and the released sprite otherwise; the
enabled and visible flags play no part; and after `setPosition( x, y )` the
area has the same width and height and its origin is moved by
`(x - offsetX, y - offsetY)`. -/
theorem C13_area (env : Env) (b : ButtonBase) (x y : Int) (enabled visible : Bool) :
    b.area env =
      { x := b._offsetX + (if b.isPressed then b._getPressed env else b._getReleased env)._x
        y := b._offsetY + (if b.isPressed then b._getPressed env else b._getReleased env)._y
        width := (if b.isPressed then b._getPressed env else b._getReleased env)._width
        height := (if b.isPressed then b._getPressed env else b._getReleased env)._height } ∧
    ({ b with _isEnabled := enabled, _isVisible := visible } : ButtonBase).area env =
      b.area env ∧
    ((b.setPosition x y).1.area env).x = (b.area env).x + (x - b._offsetX) ∧
    ((b.setPosition x y).1.area env).y = (b.area env).y + (y - b._offsetY) ∧
    ((b.setPosition x y).1.area env).width = (b.area env).width ∧
    ((b.setPosition x y).1.area env).height = (b.area env).height := by
  refine ⟨rfl, rfl, ?_, ?_, rfl, rfl⟩
  · simp only [ButtonBase.area, ButtonBase.setPosition, ButtonBase.isPressed,
      ButtonBase._getPressed, ButtonBase._getReleased]
    ring
  · simp only [ButtonBase.area, ButtonBase.setPosition, ButtonBase.isPressed,
      ButtonBase._getPressed, ButtonBase._getReleased]
    ring

/-- C14 fails as stated: `setPosition( 1, 2 )` on a button subscribed to
receiver 9 changes the offset of the button and produces no event, so no
notification reaches the receiver. -/
theorem C14_counterexample :
    sampleSubscribed._receiver = some 9 ∧
      (sampleSubscribed.setPosition 1 2).1 ≠ sampleSubscribed ∧
      (sampleSubscribed.setPosition 1 2).2 = [] ∧
      Event.notify 9 ∉ (sampleSubscribed.setPosition 1 2).2 := by
  decide

/-- C14 as amended: for a button subscribed to the receiver `r`, `press` and
`release` on an enabled button, `enable`, `disable`, `show` and `hide` each
send exactly one notification to `r`; `setPosition` changes the offset and
sends none. -/
theorem C14_notifications (b : ButtonBase) (r : Nat) (x y : Int)
    (hr : b._receiver = some r) :
    (b.isEnabled = true → b.press.2 = [Event.notify r] ∧ b.release.2 = [Event.notify r]) ∧
    b.enable.2 = [Event.notify r] ∧ b.disable.2 = [Event.notify r] ∧
    b.show_.2 = [Event.notify r] ∧ b.hide.2 = [Event.notify r] ∧
    (b.setPosition x y).2 = [] ∧
    (b.setPosition x y).1._offsetX = x ∧ (b.setPosition x y).1._offsetY = y := by
  refine ⟨?_, ?_, ?_, ?_, ?_, rfl, rfl, rfl⟩
  · intro he
    simp [ButtonBase.press, ButtonBase.release, he, ButtonBase.updateSubscription, hr]
  · simp [ButtonBase.enable, ButtonBase.updateSubscription, hr]
  · simp [ButtonBase.disable, ButtonBase.updateSubscription, hr]
  · simp [ButtonBase.show_, ButtonBase.updateSubscription, hr]
  · simp [ButtonBase.hide, ButtonBase.updateSubscription, hr]

/-- C14 as amended, evaluated on an enabled button subscribed to receiver 9. -/
theorem C14_notifications_witness :
    sampleSubscribed._receiver = some 9 ∧ sampleSubscribed.isEnabled = true ∧
    (sampleSubscribed.press.2 = [Event.notify 9] ∧
      sampleSubscribed.release.2 = [Event.notify 9]) ∧
    sampleSubscribed.hide.2 = [Event.notify 9] ∧
    (sampleSubscribed.setPosition 1 2).2 = [] :=
  ⟨by decide, by decide,
    (C14_notifications sampleSubscribed 9 1 2 (by decide)).1 (by decide),
    (C14_notifications sampleSubscribed 9 1 2 (by decide)).2.2.2.2.1,
    (C14_notifications sampleSubscribed 9 1 2 (by decide)).2.2.2.2.2.1⟩

/-! ### Claim on the cached disabled sprite -/

/-- After `setSprite` on a `ButtonSprite` whose cache is filled, the default
`_getDisabled` still finds the released sprite at the address it remembers and
returns the cached sprite, whatever the new released sprite is. -/
theorem ButtonBase.getDisabled_after_setSprite (env : Env) (b : ButtonBase) (addr : Nat)
    (r p d r1 p1 d1 cached : Sprite) (hs : b.source = .sprites addr r p d)
    (hc : b._disabledSprite = some cached) (hk : b._releasedSprite = some addr)
    (he : env.empty d1 = true) :
    ((b.setSprite r1 p1 d1)._getDisabled env).2 = cached := by
  simp [ButtonBase.setSprite, hs, ButtonBase._getDisabled, he, ButtonBase._getDisabledBase,
    hc, hk, ButtonBase._getReleasedAddr]

/-- C17 fails on the code. The disabled `ButtonSprite` `sampleDisabled` has
no explicit disabled sprite; drawing it caches the darkened copy of
`sampleReleased`. After `setSprite( otherReleased, samplePressed, Sprite() )`
the released sprite is `otherReleased`, but `_getDisabled` and `draw` still
use the darkened copy of `sampleReleased`: the cache is stale. -/
theorem C17_stale_cache :
    darkEnv.empty emptySprite = true ∧
      redrawnButton._getReleased darkEnv = otherReleased ∧
      (redrawnButton._getDisabled darkEnv).2 = darkEnv.darken sampleReleased ∧
      (redrawnButton._getDisabled darkEnv).2 ≠ darkEnv.darken otherReleased ∧
      (redrawnButton.draw darkEnv).2 = [Event.blit (darkEnv.darken sampleReleased) 5 7] := by
  decide

/-! ### Claim on the two collections of a `ButtonGroup` -/

/-- One call adds one button and, at the same index, its return value. -/
theorem GroupOp.run_spec (g : ButtonGroup) (op : GroupOp) :
    (op.run g)._button.length = g._button.length + 1 ∧
    (op.run g)._value = g._value ++ [op.returnValue] := by
  cases op <;>
    simp [GroupOp.run, GroupOp.returnValue, ButtonGroup.createButton,
      ButtonGroup.createButtonSprite, ButtonGroup.addButton]

/-- One call puts the button it constructs behind the buttons of the group. -/
theorem GroupOp.run_button (g : ButtonGroup) (op : GroupOp) :
    (op.run g)._button = g._button ++ [op.button] := by
  cases op <;>
    simp [GroupOp.run, GroupOp.button, ButtonGroup.createButton,
      ButtonGroup.createButtonSprite, ButtonGroup.addButton]

/-- A sequence of calls puts the buttons it constructs behind the buttons of
the group, in the order of the calls. -/
theorem runGroupOps_button (ops : List GroupOp) :
    ∀ g : ButtonGroup, (runGroupOps g ops)._button = g._button ++ ops.map GroupOp.button := by
  induction ops with
  | nil => intro g; simp [runGroupOps]
  | cons op ops ih =>
    intro g
    have h1 := ih (op.run g)
    simp only [runGroupOps, List.foldl_cons] at h1 ⊢
    rw [h1, GroupOp.run_button]
    simp

/-- A sequence of calls adds as many buttons as calls, and their return values
in the order of the calls. -/
theorem runGroupOps_spec (ops : List GroupOp) :
    ∀ g : ButtonGroup,
      (runGroupOps g ops)._button.length = g._button.length + ops.length ∧
      (runGroupOps g ops)._value = g._value ++ ops.map GroupOp.returnValue := by
  induction ops with
  | nil => intro g; simp [runGroupOps]
  | cons op ops ih =>
    intro g
    obtain ⟨h1, h2⟩ := ih (op.run g)
    obtain ⟨h3, h4⟩ := GroupOp.run_spec g op
    simp only [runGroupOps, List.foldl_cons] at h1 h2 ⊢
    refine ⟨?_, ?_⟩
    · rw [h1, h3]; simp only [List.length_cons]; omega
    · rw [h2, h4]; simp

/-- The preset constructor leaves as many values as buttons. -/
theorem ButtonGroup.new_lengths (env : Env) (d : Dialog) (area : Rect) (buttonTypes : Int) :
    (ButtonGroup.new env d area buttonTypes)._button.length =
      (ButtonGroup.new env d area buttonTypes)._value.length := by
  unfold ButtonGroup.new
  simp only []
  split
  · simp [ButtonGroup.createButton, ButtonGroup.empty]
  · split
    · simp [ButtonGroup.createButton, ButtonGroup.empty]
    · split
      · simp [ButtonGroup.createButton, ButtonGroup.empty]
      · split
        · simp [ButtonGroup.createButton, ButtonGroup.empty]
        · simp [ButtonGroup.empty]

/-- The second loop reads `_value` within bounds when there are as many values
as buttons. -/
theorem ButtonGroup.clickLoop_total (env : Env) (le : LocalEvent) (value : List Int) :
    ∀ (bs : List ButtonBase) (s : Nat), s + bs.length ≤ value.length →
      ButtonGroup.clickLoop env le value bs s ≠ none := by
  intro bs
  induction bs with
  | nil => intro s _; simp [ButtonGroup.clickLoop]
  | cons x xs ih =>
    intro s hlen
    simp only [List.length_cons] at hlen
    have hs : s < value.length := by omega
    have hv : value[s]? = some value[s] := by simp [hs]
    by_cases hc : (x.isEnabled && le.MouseClickLeft (x.area env)) = true
    · simp [ButtonGroup.clickLoop, hc, hv]
    · simp only [ButtonGroup.clickLoop, hc]
      exact ih (s + 1) (by omega)

/-- The third loop reads `_value` within bounds when there are as many values
as buttons. -/
theorem ButtonGroup.hotKeyLoop_total (d : Dialog) (le : LocalEvent) (value : List Int) :
    ∀ (bs : List ButtonBase) (s : Nat), s + bs.length ≤ value.length →
      ButtonGroup.hotKeyLoop d le value bs s ≠ none := by
  intro bs
  induction bs with
  | nil => intro s _; simp [ButtonGroup.hotKeyLoop]
  | cons x xs ih =>
    intro s hlen
    simp only [List.length_cons] at hlen
    have hs : s < value.length := by omega
    have hv : value[s]? = some value[s] := by simp [hs]
    have hrest := ih (s + 1) (by omega)
    by_cases hex : x.isEnabled = true
    · simp only [ButtonGroup.hotKeyLoop, hex, if_true, hv]
      split
      · simp
      · split
        · simp
        · exact hrest
    · simp only [ButtonGroup.hotKeyLoop, hex]
      exact hrest

/-- With as many values as buttons `processEvents` returns a value. -/
theorem ButtonGroup.processEvents_total (env : Env) (d : Dialog) (le : LocalEvent)
    (g : ButtonGroup) (hlen : g._button.length = g._value.length) :
    ∃ v, (ButtonGroup.processEvents env d le g).2.2 = some v := by
  have hlen1 : 0 + (ButtonGroup.refreshAll env le g._button).1.length ≤ g._value.length := by
    rw [ButtonGroup.refreshAll_buttons]; simp [hlen]
  have h1 := ButtonGroup.clickLoop_total env le g._value _ 0 hlen1
  have h2 := ButtonGroup.hotKeyLoop_total d le g._value _ 0 hlen1
  simp only [ButtonGroup.processEvents]
  cases hc : ButtonGroup.clickLoop env le g._value
      (ButtonGroup.refreshAll env le g._button).1 0 with
  | none => exact absurd hc h1
  | some r =>
    cases r with
    | some v => exact ⟨v, rfl⟩
    | none =>
      cases hh : ButtonGroup.hotKeyLoop d le g._value
          (ButtonGroup.refreshAll env le g._button).1 0 with
      | none => exact absurd hh h2
      | some r2 =>
        cases r2 with
        | some v => exact ⟨v, rfl⟩
        | none => exact ⟨(d.ZERO : Int), rfl⟩

/-- The preset constructor is a sequence of `createButton` calls on an empty
group. -/
theorem ButtonGroup.new_eq_runGroupOps (env : Env) (d : Dialog) (area : Rect)
    (buttonTypes : Int) :
    ∃ ops0 : List GroupOp,
      ButtonGroup.new env d area buttonTypes = runGroupOps ButtonGroup.empty ops0 := by
  unfold ButtonGroup.new
  simp only []
  split
  · exact ⟨[.createButton _ _ _ 5 6 d.YES, .createButton _ _ _ 7 8 d.NO], rfl⟩
  · split
    · exact ⟨[.createButton _ _ _ 1 2 d.OK, .createButton _ _ _ 3 4 d.CANCEL], rfl⟩
    · split
      · exact ⟨[.createButton _ _ _ 1 2 d.OK], rfl⟩
      · split
        · exact ⟨[.createButton _ _ _ 3 4 d.CANCEL], rfl⟩
        · exact ⟨[], rfl⟩

/-- C18: start from an empty group (the generic construction) or from the
preset constructor, and make any sequence of `createButton` and `addButton`
calls. Then the group has as many values as buttons; the button at index `i`
is the object constructed by the `i`-th call and the value at index `i` is the
`returnValue` argument of that same call, so buttons and values are paired
one to one in the order of the calls (the preset constructor itself being such
a sequence of `createButton` calls, which come first); and `processEvents`
returns a value for every input, that is, it reads `_value` within bounds
only. -/
theorem C18_button_value_pairing (env : Env) (d : Dialog) (area : Rect) (buttonTypes : Int)
    (le : LocalEvent) (ops : List GroupOp) :
    ((runGroupOps ButtonGroup.empty ops)._button.length =
        (runGroupOps ButtonGroup.empty ops)._value.length ∧
      (runGroupOps ButtonGroup.empty ops)._button.length = ops.length ∧
      (runGroupOps ButtonGroup.empty ops)._button = ops.map GroupOp.button ∧
      (runGroupOps ButtonGroup.empty ops)._value = ops.map GroupOp.returnValue ∧
      (∀ i : Nat, (runGroupOps ButtonGroup.empty ops)._button[i]? =
        (ops[i]?).map GroupOp.button) ∧
      (∀ i : Nat, (runGroupOps ButtonGroup.empty ops)._value[i]? =
        (ops[i]?).map GroupOp.returnValue) ∧
      List.zip (runGroupOps ButtonGroup.empty ops)._button
          (runGroupOps ButtonGroup.empty ops)._value =
        ops.map (fun op => (op.button, op.returnValue)) ∧
      ∃ v, (ButtonGroup.processEvents env d le (runGroupOps ButtonGroup.empty ops)).2.2 =
        some v) ∧
    ((runGroupOps (ButtonGroup.new env d area buttonTypes) ops)._button.length =
        (runGroupOps (ButtonGroup.new env d area buttonTypes) ops)._value.length ∧
      (runGroupOps (ButtonGroup.new env d area buttonTypes) ops)._button =
        (ButtonGroup.new env d area buttonTypes)._button ++ ops.map GroupOp.button ∧
      (runGroupOps (ButtonGroup.new env d area buttonTypes) ops)._value =
        (ButtonGroup.new env d area buttonTypes)._value ++ ops.map GroupOp.returnValue ∧
      (∃ ops0 : List GroupOp,
        ButtonGroup.new env d area buttonTypes = runGroupOps ButtonGroup.empty ops0 ∧
        runGroupOps (ButtonGroup.new env d area buttonTypes) ops =
          runGroupOps ButtonGroup.empty (ops0 ++ ops) ∧
        (runGroupOps (ButtonGroup.new env d area buttonTypes) ops)._button =
          (ops0 ++ ops).map GroupOp.button ∧
        (runGroupOps (ButtonGroup.new env d area buttonTypes) ops)._value =
          (ops0 ++ ops).map GroupOp.returnValue ∧
        List.zip (runGroupOps (ButtonGroup.new env d area buttonTypes) ops)._button
            (runGroupOps (ButtonGroup.new env d area buttonTypes) ops)._value =
          (ops0 ++ ops).map (fun op => (op.button, op.returnValue))) ∧
      ∃ v, (ButtonGroup.processEvents env d le
        (runGroupOps (ButtonGroup.new env d area buttonTypes) ops)).2.2 = some v) := by
  have hzip : ∀ l : List GroupOp,
      List.zip (l.map GroupOp.button) (l.map GroupOp.returnValue) =
        l.map (fun op => (op.button, op.returnValue)) := by
    intro l
    induction l with
    | nil => rfl
    | cons x xs ih => simp [ih]
  have hempty : ∀ l : List GroupOp,
      (runGroupOps ButtonGroup.empty l)._button = l.map GroupOp.button ∧
      (runGroupOps ButtonGroup.empty l)._value = l.map GroupOp.returnValue := by
    intro l
    have hb := runGroupOps_button l ButtonGroup.empty
    have hv := (runGroupOps_spec l ButtonGroup.empty).2
    exact ⟨by simpa [ButtonGroup.empty] using hb, by simpa [ButtonGroup.empty] using hv⟩
  obtain ⟨e1, e2⟩ := runGroupOps_spec ops ButtonGroup.empty
  obtain ⟨n1, n2⟩ := runGroupOps_spec ops (ButtonGroup.new env d area buttonTypes)
  obtain ⟨eb, ev⟩ := hempty ops
  have elen : (runGroupOps ButtonGroup.empty ops)._button.length =
      (runGroupOps ButtonGroup.empty ops)._value.length := by
    rw [e1, e2]; simp [ButtonGroup.empty]
  have nlen : (runGroupOps (ButtonGroup.new env d area buttonTypes) ops)._button.length =
      (runGroupOps (ButtonGroup.new env d area buttonTypes) ops)._value.length := by
    rw [n1, n2, ButtonGroup.new_lengths]; simp
  refine ⟨⟨elen, ?_, eb, ev, ?_, ?_, ?_, ButtonGroup.processEvents_total env d le _ elen⟩,
    ⟨nlen, runGroupOps_button ops _, n2, ?_, ButtonGroup.processEvents_total env d le _ nlen⟩⟩
  · rw [e1]; simp [ButtonGroup.empty]
  · intro i
    rw [eb]; simp
  · intro i
    rw [ev]; simp
  · rw [eb, ev]; exact hzip ops
  · obtain ⟨ops0, h0⟩ := ButtonGroup.new_eq_runGroupOps env d area buttonTypes
    have hcomp : runGroupOps (ButtonGroup.new env d area buttonTypes) ops =
        runGroupOps ButtonGroup.empty (ops0 ++ ops) := by
      rw [h0]; simp [runGroupOps, List.foldl_append]
    obtain ⟨cb, cv⟩ := hempty (ops0 ++ ops)
    refine ⟨ops0, h0, hcomp, ?_, ?_, ?_⟩
    · rw [hcomp]; exact cb
    · rw [hcomp]; exact cv
    · rw [hcomp, cb, cv]; exact hzip (ops0 ++ ops)

/-! ### Claim on the state after a `ButtonRestorer` -/

/-- C20: constructing and then destroying a `ButtonRestorer` gives back the
pressed, enabled and visible flags and the offset of the button exactly when
the button was not both pressed and enabled at construction; a button that was
pressed and enabled ends enabled and released, with visibility and offset as
before. -/
theorem C20_restorer_full_state (env : Env) (b : ButtonBase) :
    (((ButtonRestorer.destroy env (ButtonRestorer.new env b).1
          (ButtonRestorer.new env b).2.1).1._isPressed = b._isPressed ∧
        (ButtonRestorer.destroy env (ButtonRestorer.new env b).1
          (ButtonRestorer.new env b).2.1).1._isEnabled = b._isEnabled ∧
        (ButtonRestorer.destroy env (ButtonRestorer.new env b).1
          (ButtonRestorer.new env b).2.1).1._isVisible = b._isVisible ∧
        (ButtonRestorer.destroy env (ButtonRestorer.new env b).1
          (ButtonRestorer.new env b).2.1).1._offsetX = b._offsetX ∧
        (ButtonRestorer.destroy env (ButtonRestorer.new env b).1
          (ButtonRestorer.new env b).2.1).1._offsetY = b._offsetY) ↔
      ¬ (b.isPressed = true ∧ b.isEnabled = true)) ∧
    (b.isPressed = true → b.isEnabled = true →
      (ButtonRestorer.destroy env (ButtonRestorer.new env b).1
        (ButtonRestorer.new env b).2.1).1._isPressed = false ∧
      (ButtonRestorer.destroy env (ButtonRestorer.new env b).1
        (ButtonRestorer.new env b).2.1).1._isEnabled = true ∧
      (ButtonRestorer.destroy env (ButtonRestorer.new env b).1
        (ButtonRestorer.new env b).2.1).1._isVisible = b._isVisible ∧
      (ButtonRestorer.destroy env (ButtonRestorer.new env b).1
        (ButtonRestorer.new env b).2.1).1._offsetX = b._offsetX ∧
      (ButtonRestorer.destroy env (ButtonRestorer.new env b).1
        (ButtonRestorer.new env b).2.1).1._offsetY = b._offsetY) := by
  cases he : b._isEnabled with
  | false =>
    simp [ButtonRestorer.new, ButtonRestorer.destroy, ButtonBase.isDisabled,
      ButtonBase.isEnabled, he]
  | true =>
    obtain ⟨dx, dy, dp, -, dv, -, -⟩ := (b.disable.1).draw_frame env
    obtain ⟨ex, ey, ep, ee, ev, -, -⟩ :=
      (((b.disable.1.draw env).1).enable.1).draw_frame env
    have hnew : ButtonRestorer.new env b =
        ({ _isDisabled := false }, (b.disable.1.draw env).1,
          b.disable.2 ++ (b.disable.1.draw env).2) := by
      simp [ButtonRestorer.new, ButtonBase.isDisabled, he]
    have hdes : (ButtonRestorer.destroy env { _isDisabled := false }
        (b.disable.1.draw env).1).1 =
          ((((b.disable.1.draw env).1).enable.1).draw env).1 := by
      simp [ButtonRestorer.destroy]
    rw [hnew]
    simp only [hdes, ex, ey, ep, ee, ev]
    have hp2 : ((b.disable.1.draw env).1).enable.1._isPressed = false :=
      (show _ = (b.disable.1.draw env).1._isPressed from rfl).trans (dp.trans rfl)
    have he2 : ((b.disable.1.draw env).1).enable.1._isEnabled = true := rfl
    have hv2 : ((b.disable.1.draw env).1).enable.1._isVisible = b._isVisible :=
      (show _ = (b.disable.1.draw env).1._isVisible from rfl).trans (dv.trans rfl)
    have hx2 : ((b.disable.1.draw env).1).enable.1._offsetX = b._offsetX :=
      (show _ = (b.disable.1.draw env).1._offsetX from rfl).trans (dx.trans rfl)
    have hy2 : ((b.disable.1.draw env).1).enable.1._offsetY = b._offsetY :=
      (show _ = (b.disable.1.draw env).1._offsetY from rfl).trans (dy.trans rfl)
    simp only [hp2, he2, hv2, hx2, hy2, ButtonBase.isPressed, ButtonBase.isEnabled, he]
    cases hp : b._isPressed <;> simp

/-- C20 evaluated on a pressed, enabled button (it ends released and enabled)
and on a released one (nothing of the four is changed). -/
theorem C20_restorer_full_state_witness :
    (samplePressedButton.isPressed = true ∧ samplePressedButton.isEnabled = true ∧
      (ButtonRestorer.destroy sampleEnv (ButtonRestorer.new sampleEnv samplePressedButton).1
        (ButtonRestorer.new sampleEnv samplePressedButton).2.1).1._isPressed = false ∧
      (ButtonRestorer.destroy sampleEnv (ButtonRestorer.new sampleEnv samplePressedButton).1
        (ButtonRestorer.new sampleEnv samplePressedButton).2.1).1._isEnabled = true) ∧
    (¬ (sampleButton.isPressed = true ∧ sampleButton.isEnabled = true) ∧
      (ButtonRestorer.destroy sampleEnv (ButtonRestorer.new sampleEnv sampleButton).1
        (ButtonRestorer.new sampleEnv sampleButton).2.1).1._isPressed =
          sampleButton._isPressed) :=
  ⟨⟨by decide, by decide,
      ((C20_restorer_full_state sampleEnv samplePressedButton).2 (by decide) (by decide)).1,
      ((C20_restorer_full_state sampleEnv samplePressedButton).2 (by decide) (by decide)).2.1⟩,
    ⟨by decide,
      ((C20_restorer_full_state sampleEnv sampleButton).1.mpr (by decide)).1⟩⟩

/-! ### `press()` on a member of any `OptionButtonGroup` -/

/-- A loop whose body does nothing in the state `s` leaves `s` as it is. -/
theorem forIdx_fix {σ : Type} (body : σ → Nat → Nat → Option σ) (s : σ) :
    ∀ (ps : List Nat) (i : Nat), (∀ p ∈ ps, ∀ k : Nat, body s k p = some s) →
      forIdx body ps i s = some s := by
  intro ps
  induction ps with
  | nil => intro i _; rfl
  | cons p ps ih =>
    intro i h
    simp only [forIdx, h p (List.mem_cons_self p ps) i]
    exact ih (i + 1) (fun q hq => h q (List.mem_cons_of_mem p hq))

/-- Unsubscribing, releasing and subscribing again acts on a member of the
group like `release()` without the notification. -/
theorem ButtonBase.resubscribe_release (b : ButtonBase) (self : Nat)
    (h : b._receiver = some self) :
    ((b.unsubscribe).release.1).subscribe self = b.release.1 := by
  cases b
  simp only at h
  subst h
  simp only [ButtonBase.unsubscribe, ButtonBase.release, ButtonBase.isEnabled,
    ButtonBase.subscribe]
  split <;> rfl

/-- In any group whose members are subscribed to it (members may repeat and
may be disabled), `press()` on an enabled member `B`, whose first entry is
entry `pre.length`, runs the handler once: every entry but that first one is
released, `B` is pressed unless it has a second entry, and all members are
subscribed again. -/
theorem World.press_any (fuel : Nat) (w : World) (pre post : List Nat) (B : Nat)
    (hL : w.group._button = pre ++ B :: post) (hpre : B ∉ pre)
    (hval : ∀ p ∈ w.group._button, ∃ b, w.heap[p]? = some b ∧
      b._receiver = some w.group.self)
    (hB : ∃ b, w.heap[B]? = some b ∧ b._isEnabled = true) :
    ∃ w1, World.press (fuel + 1) w B = some w1 ∧ w1.group = w.group ∧
      w1.outbox = w.outbox ∧ w1.senderUpdates = w.senderUpdates + 1 ∧
      w1.heap.length = w.heap.length ∧
      ∀ a, w1.heap[a]? =
        if a ∈ pre ++ post then (w.heap[a]?).map (fun b => b.release.1)
        else if a = B then (w.heap[a]?).map (fun b => { b with _isPressed := true })
        else w.heap[a]? := by
  have hBmem : B ∈ w.group._button := by rw [hL]; simp
  have hmemL : ∀ a, a ∈ w.group._button ↔ a = B ∨ a ∈ pre ++ post := by
    intro a
    rw [hL]
    simp only [List.mem_append, List.mem_cons]
    tauto
  obtain ⟨bB, hbB, heB⟩ := hB
  have hrB : bB._receiver = some w.group.self := by
    obtain ⟨b0, hb0, hr0⟩ := hval B hBmem
    rw [hbB] at hb0
    rw [Option.some.inj hb0]; exact hr0
  -- the world in which the handler starts
  obtain ⟨wp, hwp⟩ : ∃ wp : World, wp =
      { w with heap := w.heap.set B { bB with _isPressed := true }
               senderUpdates := w.senderUpdates + 1 } := ⟨_, rfl⟩
  have hgp : wp.group = w.group := by rw [hwp]
  have hhp : ∀ a, wp.heap[a]? =
      if a = B then some { bB with _isPressed := true } else w.heap[a]? := by
    intro a; rw [hwp]; exact getElem?_set_of_some hbB a
  have hvalp : ∀ p ∈ wp.group._button, ∃ b, wp.heap[p]? = some b := by
    intro q hq
    rw [hgp] at hq
    obtain ⟨bq, hbq, -⟩ := hval q hq
    by_cases hqB : q = B
    · exact ⟨{ bB with _isPressed := true }, by rw [hhp]; simp [hqB]⟩
    · exact ⟨bq, by rw [hhp]; simp [hqB, hbq]⟩
  obtain ⟨w2, hun, hg2, ho2, hc2, hl2, hh2⟩ := wp.unsubscribeAll_spec hvalp
  have hval2 : ∀ p ∈ w2.group._button, ∃ b, w2.heap[p]? = some b ∧ b._receiver = none := by
    intro q hq
    rw [hg2] at hq
    obtain ⟨bq, hbq⟩ := hvalp q hq
    exact ⟨bq.unsubscribe, by rw [hh2]; simp [hq, hbq], rfl⟩
  obtain ⟨w3, hrel, hg3, ho3, hc3, hl3, hh3⟩ :=
    World.releaseOthers_spec (World.deliver fuel) pre.length w2 hval2
  have hsel : selAddrs (fun k => decide (pre.length ≠ k)) w2.group._button 0 = pre ++ post := by
    rw [hg2, hgp, hL]; exact selAddrs_others pre post B
  rw [hsel] at hh3
  have hval3 : ∀ p ∈ w3.group._button, ∃ b, w3.heap[p]? = some b := by
    intro q hq
    rw [hg3] at hq
    obtain ⟨bq, hbq, -⟩ := hval2 q hq
    by_cases hmem : q ∈ pre ++ post
    · exact ⟨bq.release.1, by rw [hh3]; simp only [hmem, if_true, hbq]; rfl⟩
    · exact ⟨bq, by rw [hh3]; simp only [hmem, if_false, hbq]⟩
  obtain ⟨w4, hsub, hg4, ho4, hc4, hl4, hh4⟩ := w3.subscribeAll_spec hval3
  -- the heap when the handler is done
  have hheap : ∀ a, w4.heap[a]? =
      if a ∈ pre ++ post then (w.heap[a]?).map (fun b => b.release.1)
      else if a = B then (w.heap[a]?).map (fun b => { b with _isPressed := true })
      else w.heap[a]? := by
    intro a
    rw [hh4, hh3, hh2, hhp, hg3, hg2, hgp]
    have hiff := hmemL a
    by_cases hpp : a ∈ pre ++ post
    · have hmem : a ∈ w.group._button := hiff.mpr (Or.inr hpp)
      by_cases haB : a = B
      · subst haB
        simp only [hmem, hpp, if_true, Option.map_some', hbB]
        rw [ButtonBase.resubscribe_release _ w.group.self (by simpa using hrB)]
        simp [ButtonBase.release, ButtonBase.isEnabled, heB]
      · obtain ⟨ba, hba, hra⟩ := hval a hmem
        simp only [hmem, hpp, haB, if_true, if_false, Option.map_some', hba]
        rw [ButtonBase.resubscribe_release ba w.group.self hra]
    · by_cases haB : a = B
      · subst haB
        simp only [hBmem, hpp, if_true, if_false, Option.map_some', hbB]
        rw [ButtonBase.resubscribe_pressed bB w.group.self hrB]
      · have hmem : a ∉ w.group._button := fun h => by
          rcases hiff.mp h with h1 | h1
          · exact haB h1
          · exact hpp h1
        simp only [hmem, hpp, haB, if_false]
  have hat : World.senderUpdateAt (World.deliver fuel) pre.length B wp = some w4 := by
    have hpB : wp.heap[B]? = some { bB with _isPressed := true } := by rw [hhp]; simp
    simp [World.senderUpdateAt, hpB, ButtonBase.isPressed, hun, hrel, hsub]
  have hsu : World.senderUpdate (World.deliver fuel) wp (some B) = some w4 := by
    simp only [World.senderUpdate, hgp, hL]
    rw [forIdx_append]
    rw [forIdx_skip _ pre 0 wp (fun q hq s1 k => by
      have hne : B ≠ q := fun e => hpre (e ▸ hq)
      simp [hne])]
    simp only [Option.bind, Nat.zero_add, forIdx, if_true, hat]
    apply forIdx_fix
    intro q hq k
    by_cases hqB : B = q
    · subst hqB
      have hBpp : B ∈ pre ++ post := List.mem_append_right pre hq
      have h4B : w4.heap[B]? = some bB.release.1 := by
        rw [hheap B]; simp [hBpp, hbB]
      have hrelB : bB.release.1.isPressed = false := by
        simp [ButtonBase.release, ButtonBase.isEnabled, heB, ButtonBase.isPressed]
      simp [World.senderUpdateAt, h4B, hrelB]
    · simp [hqB]
  refine ⟨w4, ?_, ?_, ?_, ?_, ?_, hheap⟩
  · have hpress : bB.press = ({ bB with _isPressed := true }, [Event.notify w.group.self]) := by
      simp [ButtonBase.press, ButtonBase.isEnabled, heB, ButtonBase.updateSubscription, hrB]
    have hdel : World.deliver (fuel + 1)
        { w with heap := w.heap.set B { bB with _isPressed := true } } B = some w4 := by
      simp only [World.deliver]
      rw [← hwp]; exact hsu
    simp [World.press, World.call, hbB, hpress, World.dispatch, hdel]
  · rw [hg4, hg3, hg2, hgp]
  · rw [ho4, ho3, ho2, hwp]
  · rw [hc4, hc3, hc2, hwp]
  · rw [hl4, hl3, hl2, hwp]; simp

/-- Two worlds with the same group, outbox, counter and buttons are equal. -/
theorem World.eq_of_parts (w1 w2 : World) (hg : w1.group = w2.group)
    (ho : w1.outbox = w2.outbox) (hc : w1.senderUpdates = w2.senderUpdates)
    (hh : ∀ a : Nat, w1.heap[a]? = w2.heap[a]?) : w1 = w2 := by
  cases w1
  cases w2
  simp only at hg ho hc hh
  have hheap := List.ext_getElem? hh
  simp [hg, ho, hc, hheap]

/-- A member of a list has a first entry. -/
theorem exists_first_entry (B : Nat) :
    ∀ L : List Nat, B ∈ L → ∃ pre post, L = pre ++ B :: post ∧ B ∉ pre := by
  intro L
  induction L with
  | nil => intro h; simp at h
  | cons x xs ih =>
    intro h
    by_cases hx : x = B
    · exact ⟨[], xs, by simp [hx], by simp⟩
    · have hmem : B ∈ xs := by
        rcases List.mem_cons.mp h with h1 | h1
        · exact absurd h1.symm hx
        · exact h1
      obtain ⟨pre, post, hsplit, hnot⟩ := ih hmem
      refine ⟨x :: pre, post, by simp [hsplit], ?_⟩
      intro hB
      rcases List.mem_cons.mp hB with h1 | h1
      · exact hx h1.symm
      · exact hnot h1

/-- A group built with `addButton` from buttons in memory, and `press()` on an
enabled member `B` of it: the call returns the same world for every bound on
the nesting of handler calls, the handler has run once, every entry of
`_button` but the first entry of `B` has been released, and every member is
subscribed to the group. -/
theorem World.press_built (heap : List ButtonBase) (self : Nat) (addrs : List Nat) (B : Nat)
    (hval : ∀ p ∈ addrs, ∃ b, heap[p]? = some b) (hB : B ∈ addrs)
    (hen : (heap[B]?).map ButtonBase.isEnabled = some true) :
    ∃ w0 w1 pre post, World.addButtons addrs (World.init heap self) = some w0 ∧
      addrs = pre ++ B :: post ∧ B ∉ pre ∧
      w0.group = { self := self, _button := addrs } ∧ w0.senderUpdates = 0 ∧
      (∀ a, w0.heap[a]? =
        if a ∈ addrs then (heap[a]?).map (fun b => b.subscribe self) else heap[a]?) ∧
      (∀ fuel : Nat, World.press (fuel + 1) w0 B = some w1) ∧
      w1.group = w0.group ∧ w1.senderUpdates = 1 ∧
      (∀ a, w1.heap[a]? =
        if a ∈ pre ++ post then (w0.heap[a]?).map (fun b => b.release.1)
        else if a = B then (w0.heap[a]?).map (fun b => { b with _isPressed := true })
        else w0.heap[a]?) := by
  obtain ⟨w0, hadd, hself, hbut, -, hcnt, -, hheap0⟩ :=
    World.addButtons_spec addrs (World.init heap self)
      (fun p hp => by simpa [World.init] using hval p hp)
  have hbut0 : w0.group._button = addrs := by simpa [World.init] using hbut
  have hself0 : w0.group.self = self := by simpa [World.init] using hself
  have hgrp0 : w0.group = { self := self, _button := addrs } := by
    cases hg : w0.group with
    | mk s bs =>
      rw [hg] at hbut0 hself0
      simp only at hbut0 hself0
      rw [hbut0, hself0]
  have hheap0' : ∀ a, w0.heap[a]? =
      if a ∈ addrs then (heap[a]?).map (fun b => b.subscribe self) else heap[a]? := by
    intro a; simpa [World.init] using hheap0 a
  obtain ⟨pre, post, hsplit, hnot⟩ := exists_first_entry B addrs hB
  have hval0 : ∀ p ∈ w0.group._button, ∃ b, w0.heap[p]? = some b ∧
      b._receiver = some w0.group.self := by
    intro q hq
    rw [hbut0] at hq
    obtain ⟨b, hb⟩ := hval q hq
    exact ⟨b.subscribe self, by rw [hheap0' q]; simp [hq, hb], by rw [hself0]; rfl⟩
  have hB0 : ∃ b, w0.heap[B]? = some b ∧ b._isEnabled = true := by
    cases hb : heap[B]? with
    | none => simp [hb] at hen
    | some b =>
      refine ⟨b.subscribe self, by rw [hheap0' B]; simp [hB, hb], ?_⟩
      simpa [hb, ButtonBase.isEnabled] using hen
  obtain ⟨w1, hp1, hg1, ho1, hc1, -, hh1⟩ :=
    World.press_any 0 w0 pre post B (by rw [hbut0, hsplit]) hnot hval0 hB0
  refine ⟨w0, w1, pre, post, hadd, hsplit, hnot, hgrp0, by simpa [World.init] using hcnt,
    hheap0', ?_, hg1, by rw [hc1]; simpa [World.init] using hcnt, hh1⟩
  intro fuel
  obtain ⟨w2, hp2, hg2, ho2, hc2, -, hh2⟩ :=
    World.press_any fuel w0 pre post B (by rw [hbut0, hsplit]) hnot hval0 hB0
  have heq : w2 = w1 :=
    World.eq_of_parts w2 w1 (by rw [hg2, hg1]) (by rw [ho2, ho1]) (by rw [hc2, hc1])
      (fun a => by rw [hh2 a, hh1 a])
  rw [hp2, heq]

/-! ### Claims on the handler of `OptionButtonGroup` -/

/-- Blits of sprites that fit in a rectangle leave the pixels outside that
rectangle alone. -/
theorem paint_frame (lib : ImageLib) (env : Env) (hs : lib.Sane env)
    (outX outY width height i j : Int)
    (hout : ¬ (outX ≤ i ∧ i < outX + width ∧ outY ≤ j ∧ j < outY + height)) :
    ∀ (events : List Event) (output : Sprite),
      (∀ ev ∈ events, ∃ s : Sprite, ev = Event.blit s outX outY ∧
        s._width ≤ max width 0 ∧ s._height ≤ max height 0) →
      lib.pixel (paint lib output events) i j = lib.pixel output i j := by
  intro events
  induction events with
  | nil => intro output _; rfl
  | cons ev es ih =>
    intro output h
    obtain ⟨s, hev, hw, hh⟩ := h ev (List.mem_cons_self ev es)
    subst hev
    simp only [paint]
    rw [ih _ (fun e he => h e (List.mem_cons_of_mem _ he))]
    apply hs.blit_frame
    intro hin
    apply hout
    obtain ⟨h1, h2, h3, h4⟩ := hin
    have hw1 : s._width ≤ width := by
      rcases le_max_iff.mp hw with h5 | h5
      · exact h5
      · omega
    have hh1 : s._height ≤ height := by
      rcases le_max_iff.mp hh with h5 | h5
      · exact h5
      · omega
    exact ⟨h1, by omega, h3, by omega⟩

/-- The three sprites of the button made by `makeButtonWithBackground` have
the size of the cropped background and the anchor `(0, 0)`. -/
theorem makeButtonWithBackground_sprites (lib : ImageLib) (env : Env) (hs : lib.Sane env)
    (addr : Nat) (offsetX offsetY : Int) (released pressed background : Sprite) :
    ∃ r p d : Sprite,
      (makeButtonWithBackground lib env addr offsetX offsetY released pressed background).source =
        .sprites addr r p d ∧
      (∀ s : Sprite, s = r ∨ s = p ∨ s = d ∨ s = env.darken r →
        s._x = 0 ∧ s._y = 0 ∧ s._width ≤ max released._width 0 ∧
        s._height ≤ max released._height 0) := by
  refine ⟨_, _, _, rfl, ?_⟩
  have hcw := hs.crop_width background offsetX offsetY released._width released._height
  have hch := hs.crop_height background offsetX offsetY released._width released._height
  intro s hcases
  rcases hcases with h | h | h | h
  · subst h
    obtain ⟨b1, b2, b3, b4⟩ := hs.blit_size released
      (lib.Copy (lib.Crop background offsetX offsetY released._width released._height)
        (Sprite.blank (lib.Crop background offsetX offsetY released._width released._height)._width
          (lib.Crop background offsetX offsetY released._width released._height)._height 0 0))
      released._x released._y
    obtain ⟨c1, c2, c3, c4⟩ := hs.copy_size
      (lib.Crop background offsetX offsetY released._width released._height)
      (Sprite.blank (lib.Crop background offsetX offsetY released._width released._height)._width
        (lib.Crop background offsetX offsetY released._width released._height)._height 0 0)
    rw [b1, b2, b3, b4, c1, c2, c3, c4]
    exact ⟨rfl, rfl, hcw, hch⟩
  · subst h
    obtain ⟨b1, b2, b3, b4⟩ := hs.blit_size pressed
      (lib.Copy (lib.Crop background offsetX offsetY released._width released._height)
        (Sprite.blank (lib.Crop background offsetX offsetY released._width released._height)._width
          (lib.Crop background offsetX offsetY released._width released._height)._height 0 0))
      pressed._x pressed._y
    obtain ⟨c1, c2, c3, c4⟩ := hs.copy_size
      (lib.Crop background offsetX offsetY released._width released._height)
      (Sprite.blank (lib.Crop background offsetX offsetY released._width released._height)._width
        (lib.Crop background offsetX offsetY released._width released._height)._height 0 0)
    rw [b1, b2, b3, b4, c1, c2, c3, c4]
    exact ⟨rfl, rfl, hcw, hch⟩
  · subst h
    obtain ⟨b1, b2, b3, b4⟩ := hs.blit_size (env.darken released)
      ((lib.Copy (lib.Crop background offsetX offsetY released._width released._height)
        (Sprite.blank (lib.Crop background offsetX offsetY released._width released._height)._width
          (lib.Crop background offsetX offsetY released._width released._height)._height 0 0)
        ).setPosition 0 0)
      (env.darken released)._x (env.darken released)._y
    obtain ⟨c1, c2, c3, c4⟩ := hs.copy_size
      (lib.Crop background offsetX offsetY released._width released._height)
      (Sprite.blank (lib.Crop background offsetX offsetY released._width released._height)._width
        (lib.Crop background offsetX offsetY released._width released._height)._height 0 0)
    rw [b1, b2, b3, b4]
    simp only [Sprite.setPosition, c1, c2]
    exact ⟨trivial, trivial, hcw, hch⟩
  · subst h
    obtain ⟨d1, d2, d3, d4⟩ := hs.darken_size (lib.Blit released
      (lib.Copy (lib.Crop background offsetX offsetY released._width released._height)
        (Sprite.blank (lib.Crop background offsetX offsetY released._width released._height)._width
          (lib.Crop background offsetX offsetY released._width released._height)._height 0 0))
      released._x released._y)
    obtain ⟨b1, b2, b3, b4⟩ := hs.blit_size released
      (lib.Copy (lib.Crop background offsetX offsetY released._width released._height)
        (Sprite.blank (lib.Crop background offsetX offsetY released._width released._height)._width
          (lib.Crop background offsetX offsetY released._width released._height)._height 0 0))
      released._x released._y
    obtain ⟨c1, c2, c3, c4⟩ := hs.copy_size
      (lib.Crop background offsetX offsetY released._width released._height)
      (Sprite.blank (lib.Crop background offsetX offsetY released._width released._height)._width
        (lib.Crop background offsetX offsetY released._width released._height)._height 0 0)
    rw [d1, d2, d3, d4, b1, b2, b3, b4, c1, c2, c3, c4]
    exact ⟨rfl, rfl, hcw, hch⟩

/-- What `draw` blits for a `ButtonSprite` whose cache, if filled, holds the
darkened released sprite: one of its three sprites or that darkened copy, at
the offset plus the anchor of the sprite. -/
theorem ButtonBase.draw_events_of_sprites (env : Env) (b : ButtonBase) (addr : Nat)
    (r p d : Sprite) (hsrc : b.source = .sprites addr r p d)
    (hcache : ∀ c, b._disabledSprite = some c → c = env.darken r) :
    ∀ ev ∈ (b.draw env).2, ∃ s : Sprite,
      (s = r ∨ s = p ∨ s = d ∨ s = env.darken r) ∧
      ev = Event.blit s (b._offsetX + s._x) (b._offsetY + s._y) := by
  have hdis : (b._getDisabled env).2 = d ∨ (b._getDisabled env).2 = env.darken r := by
    simp only [ButtonBase._getDisabled, hsrc]
    by_cases he : env.empty d = true
    · right
      simp only [he, if_true, ButtonBase._getDisabledBase, ButtonBase._getReleased, hsrc,
        ButtonBase._getReleasedAddr]
      cases hc : b._disabledSprite with
      | none => rfl
      | some c =>
        by_cases hk : b._releasedSprite = some addr
        · simp [hk, hcache c hc]
        · simp [hk]
    · left
      simp [he]
  obtain ⟨gx, gy, -, -, -, -, -⟩ := b.getDisabled_frame env
  intro ev hev
  unfold ButtonBase.draw at hev
  by_cases hv : b.isVisible = true
  · by_cases hp : b.isPressed = true
    · simp only [hv, hp, Bool.not_true, Bool.false_eq_true, if_false, if_true,
        List.mem_singleton] at hev
      exact ⟨p, Or.inr (Or.inl rfl), by simpa [ButtonBase._getPressed, hsrc] using hev⟩
    · by_cases he : b.isEnabled = true
      · simp only [hv, hp, he, Bool.not_true, Bool.false_eq_true, if_false, if_true,
          List.mem_singleton] at hev
        exact ⟨r, Or.inl rfl, by simpa [ButtonBase._getReleased, hsrc] using hev⟩
      · simp only [hv, hp, he, Bool.not_true, Bool.false_eq_true, if_false,
          List.mem_singleton, gx, gy] at hev
        rcases hdis with h | h
        · exact ⟨d, Or.inr (Or.inr (Or.inl rfl)), by rw [h] at hev; exact hev⟩
        · exact ⟨env.darken r, Or.inr (Or.inr (Or.inr rfl)), by rw [h] at hev; exact hev⟩
  · simp [hv] at hev

/-- C15: let the image library and the palette transform keep their
contracts (`ImageLib.Sane`). For every background, offset and pair of
sprites, take the button returned by `makeButtonWithBackground` in any state
(pressed or released, enabled or disabled, visible or hidden) and draw it on
that background: every pixel outside the rectangle
`(offsetX, offsetY, released.width, released.height)` has the colour it had
before. The returned button is at `(offsetX, offsetY)`. -/
theorem C15_background_outside_footprint (lib : ImageLib) (env : Env) (hs : lib.Sane env)
    (addr : Nat) (offsetX offsetY : Int) (released pressed background : Sprite)
    (isPressed isEnabled isVisible : Bool) (i j : Int)
    (hout : ¬ (offsetX ≤ i ∧ i < offsetX + released._width ∧
      offsetY ≤ j ∧ j < offsetY + released._height)) :
    lib.pixel (paint lib background
      (({ makeButtonWithBackground lib env addr offsetX offsetY released pressed background with
          _isPressed := isPressed, _isEnabled := isEnabled, _isVisible := isVisible } :
        ButtonBase).draw env).2) i j = lib.pixel background i j ∧
    (makeButtonWithBackground lib env addr offsetX offsetY released pressed
      background)._offsetX = offsetX ∧
    (makeButtonWithBackground lib env addr offsetX offsetY released pressed
      background)._offsetY = offsetY := by
  refine ⟨?_, rfl, rfl⟩
  obtain ⟨r, p, d, hsrc, hgeo⟩ :=
    makeButtonWithBackground_sprites lib env hs addr offsetX offsetY released pressed background
  apply paint_frame lib env hs offsetX offsetY released._width released._height i j hout
  intro ev hev
  obtain ⟨s, hcase, hevs⟩ := ButtonBase.draw_events_of_sprites env
    ({ makeButtonWithBackground lib env addr offsetX offsetY released pressed background with
        _isPressed := isPressed, _isEnabled := isEnabled, _isVisible := isVisible } :
      ButtonBase) addr r p d hsrc
    (by intro c hc; exact absurd hc (by simp [makeButtonWithBackground, ButtonBase.new]))
    ev hev
  obtain ⟨hx, hy, hw, hh⟩ := hgeo s hcase
  refine ⟨s, ?_, hw, hh⟩
  rw [hevs, hx, hy]
  simp [makeButtonWithBackground, ButtonBase.new]

/-- Reading a generated row-major pixel list at the index of `(i, j)`. -/
theorem getD_raster (f : Nat → Nat) (w h i j : Int) (hi0 : 0 ≤ i) (hiw : i < w)
    (hj0 : 0 ≤ j) (hjh : j < h) :
    ((List.range (w * h).toNat).map f).getD (j * w + i).toNat 0 = f (j * w + i).toNat ∧
    (((j * w + i).toNat : Nat) : Int) % w = i ∧ (((j * w + i).toNat : Nat) : Int) / w = j := by
  have hw : 0 < w := by omega
  have hjw : 0 ≤ j * w := Int.mul_nonneg hj0 (by omega)
  have hnn : 0 ≤ j * w + i := by omega
  have hlt : j * w + i < w * h := by
    have h1 : (j + 1) * w ≤ h * w := Int.mul_le_mul_of_nonneg_right (by omega) (by omega)
    have h2 : (j + 1) * w = j * w + w := by ring
    have h3 : h * w = w * h := by ring
    omega
  have hk : (j * w + i).toNat < (w * h).toNat := by
    rw [Int.toNat_lt hnn, Int.toNat_of_nonneg (by omega)]
    exact hlt
  have hcast : (((j * w + i).toNat : Nat) : Int) = i + j * w := by
    rw [Int.toNat_of_nonneg hnn]; ring
  refine ⟨?_, ?_, ?_⟩
  · simp [List.getElem?_map, List.getElem?_range hk]
  · rw [hcast, Int.add_mul_emod_self]
    exact Int.emod_eq_of_lt hi0 hiw
  · rw [hcast, Int.add_mul_ediv_right _ _ (by omega), Int.ediv_eq_zero_of_lt hi0 hiw]
    simp

/-- The row-major image library and the darkening of `darkEnv` keep the
contracts of `ImageLib.Sane`. -/
theorem rasterLib_sane : rasterLib.Sane darkEnv where
  crop_width := fun _ _ _ _ _ => le_refl _
  crop_height := fun _ _ _ _ _ => le_refl _
  copy_size := fun _ _ => ⟨rfl, rfl, rfl, rfl⟩
  blit_size := fun _ _ _ _ => ⟨rfl, rfl, rfl, rfl⟩
  darken_size := fun _ => ⟨rfl, rfl, rfl, rfl⟩
  blit_frame := by
    intro input output outX outY i j hout
    show Sprite.pixelAt (rasterLib.Blit input output outX outY) i j = Sprite.pixelAt output i j
    by_cases hin : 0 ≤ i ∧ i < output._width ∧ 0 ≤ j ∧ j < output._height
    · obtain ⟨hi0, hiw, hj0, hjh⟩ := hin
      obtain ⟨-, hmod, hdiv⟩ := getD_raster (fun k => k)
        output._width output._height i j hi0 hiw hj0 hjh
      simp only [Sprite.pixelAt, rasterLib, hi0, hiw, hj0, hjh, and_self, if_true]
      rw [(getD_raster _ output._width output._height i j hi0 hiw hj0 hjh).1]
      simp only [hmod, hdiv, hout, if_false]
    · simp only [Sprite.pixelAt, rasterLib, hin, if_false]

/-- C15 evaluated with the row-major image library on a background of 4 by 3
pixels and a button of 2 by 1 pixels made at `(1, 1)`: drawn pressed, the
button changes the pixels `(1, 1)` and `(2, 1)` and no other; the pixel
`(3, 1)`, outside the footprint, keeps its colour 17. -/
theorem C15_background_outside_footprint_witness :
    ¬ ((1 : Int) ≤ 3 ∧ (3 : Int) < 1 + tinyReleased._width ∧
      (1 : Int) ≤ 1 ∧ (1 : Int) < 1 + tinyReleased._height) ∧
    (paint rasterLib sampleBackground (tinyButton.press.1.draw darkEnv).2)._data =
      [10, 11, 12, 13, 14, 3, 4, 17, 18, 19, 20, 21] ∧
    (rasterLib.pixel (paint rasterLib sampleBackground
      (({ makeButtonWithBackground rasterLib darkEnv 100 1 1 tinyReleased tinyPressed
            sampleBackground with
          _isPressed := true, _isEnabled := true, _isVisible := true } :
        ButtonBase).draw darkEnv).2) 3 1 = rasterLib.pixel sampleBackground 3 1 ∧
      (makeButtonWithBackground rasterLib darkEnv 100 1 1 tinyReleased tinyPressed
        sampleBackground)._offsetX = 1 ∧
      (makeButtonWithBackground rasterLib darkEnv 100 1 1 tinyReleased tinyPressed
        sampleBackground)._offsetY = 1) :=
  ⟨by decide, by decide,
    C15_background_outside_footprint rasterLib darkEnv rasterLib_sane 100 1 1 tinyReleased
      tinyPressed sampleBackground true true true 3 1 (by decide)⟩

/-! ### `drawOnPress` and `drawOnRelease` with the handler of the receiver -/

/-- Writing a button twice at the same address keeps the second. -/
theorem heap_set_set (heap : List ButtonBase) (a : Nat) (x y : ButtonBase) :
    (heap.set a x).set a y = heap.set a y := by
  apply List.ext_getElem?
  intro n
  by_cases hn : a = n
  · subst hn
    by_cases hlt : a < heap.length
    · simp [hlt]
    · simp [List.getElem?_eq_none (Nat.le_of_not_lt hlt)]
  · simp [hn]

/-- Writing back the button that is at an address changes nothing. -/
theorem heap_set_self {heap : List ButtonBase} {a : Nat} {b : ButtonBase}
    (h : heap[a]? = some b) : heap.set a b = heap := by
  apply List.ext_getElem?
  intro n
  rw [getElem?_set_of_some h n]
  by_cases hn : n = a
  · simp [hn, h]
  · simp [hn]

/-- A member function that notifies nobody only updates the button. -/
theorem World.call_quiet (deliver : World → Nat → Option World)
    (op : ButtonBase → ButtonBase × List Event) (w : World) (a : Nat) (b : ButtonBase)
    (hb : w.heap[a]? = some b) (hq : (op b).2 = []) :
    World.call deliver op w a = some { w with heap := w.heap.set a (op b).1 } := by
  simp [World.call, hb, hq, World.dispatch]

/-- Calling `press()` on a button without receiver notifies nobody. -/
theorem ButtonBase.press_events_of_unsubscribed (b : ButtonBase) (h : b._receiver = none) :
    b.press.2 = [] := by
  unfold ButtonBase.press
  by_cases he : b.isEnabled = true <;> simp [he, ButtonBase.updateSubscription, h]

/-- On a pressed button `drawOnPress` returns false and changes nothing,
whatever the receiver is. -/
theorem World.drawOnPress_of_pressed (fuel : Nat) (env : Env) (w : World) (a : Nat)
    (b : ButtonBase) (hb : w.heap[a]? = some b) (hp : b.isPressed = true) :
    World.drawOnPress fuel env w a = some (w, [], false) := by
  simp [World.drawOnPress, hb, hp]

/-- On a released button `drawOnRelease` returns false and changes nothing,
whatever the receiver is. -/
theorem World.drawOnRelease_of_released (fuel : Nat) (env : Env) (w : World) (a : Nat)
    (b : ButtonBase) (hb : w.heap[a]? = some b) (hp : b.isPressed = false) :
    World.drawOnRelease fuel env w a = some (w, [], false) := by
  simp [World.drawOnRelease, hb, hp]

/-- When `press()` notifies nobody (no receiver, or a disabled button),
`drawOnPress` on a released button is `drawOnPress` on the button taken
alone. -/
theorem World.drawOnPress_alone (fuel : Nat) (env : Env) (w : World) (a : Nat)
    (b : ButtonBase) (hb : w.heap[a]? = some b) (hq : b.press.2 = [])
    (hp : b.isPressed = false) :
    World.drawOnPress fuel env w a =
      some ({ w with heap := w.heap.set a (b.drawOnPress env).1 },
        (b.drawOnPress env).2.1, true) := by
  have hcall := World.call_quiet (World.deliver fuel) ButtonBase.press w a b hb hq
  have h1 : ({ w with heap := w.heap.set a b.press.1 } : World).heap[a]? = some b.press.1 := by
    simp [getElem?_set_of_some hb]
  simp only [World.drawOnPress, hb, hp, World.press, hcall, h1]
  simp [ButtonBase.drawOnPress, hp, hq, heap_set_set]

/-- When `release()` notifies nobody, `drawOnRelease` on a pressed button is
`drawOnRelease` on the button taken alone. -/
theorem World.drawOnRelease_alone (fuel : Nat) (env : Env) (w : World) (a : Nat)
    (b : ButtonBase) (hb : w.heap[a]? = some b) (hq : b.release.2 = [])
    (hp : b.isPressed = true) :
    World.drawOnRelease fuel env w a =
      some ({ w with heap := w.heap.set a (b.drawOnRelease env).1 },
        (b.drawOnRelease env).2.1, true) := by
  have hcall := World.call_quiet (World.deliver fuel) ButtonBase.release w a b hb hq
  have h1 : ({ w with heap := w.heap.set a b.release.1 } : World).heap[a]? =
      some b.release.1 := by
    simp [getElem?_set_of_some hb]
  simp only [World.drawOnRelease, hb, hp, World.release, hcall, h1]
  simp [ButtonBase.drawOnRelease, hp, hq, heap_set_set]

/-- In any group, `release()` on an enabled button subscribed to the group
runs the handler once, and the handler does nothing: the sender is not
pressed. -/
theorem World.release_member (fuel : Nat) (w : World) (B : Nat) (b : ButtonBase)
    (hb : w.heap[B]? = some b) (he : b._isEnabled = true)
    (hr : b._receiver = some w.group.self) :
    World.release (fuel + 1) w B =
      some { w with heap := w.heap.set B { b with _isPressed := false }
                    senderUpdates := w.senderUpdates + 1 } := by
  have hrel : b.release = ({ b with _isPressed := false }, [Event.notify w.group.self]) := by
    simp [ButtonBase.release, ButtonBase.isEnabled, he, ButtonBase.updateSubscription, hr]
  have hsu : World.senderUpdate (World.deliver fuel)
      { w with heap := w.heap.set B { b with _isPressed := false }
               senderUpdates := w.senderUpdates + 1 } (some B) =
      some { w with heap := w.heap.set B { b with _isPressed := false }
                    senderUpdates := w.senderUpdates + 1 } := by
    simp only [World.senderUpdate]
    apply forIdx_fix
    intro q _ k
    by_cases hqB : B = q
    · subst hqB
      have h1 : (w.heap.set B { b with _isPressed := false })[B]? =
          some { b with _isPressed := false } := by
        simp [getElem?_set_of_some hb]
      simp [World.senderUpdateAt, h1, ButtonBase.isPressed]
    · simp [hqB]
  have hdel : World.deliver (fuel + 1)
      { w with heap := w.heap.set B { b with _isPressed := false } } B =
      some { w with heap := w.heap.set B { b with _isPressed := false }
                    senderUpdates := w.senderUpdates + 1 } := by
    simp only [World.deliver]
    exact hsu
  simp [World.release, World.call, hb, hrel, World.dispatch, hdel]

/-- When `press()` notifies nobody, `drawOnPress` is `drawOnPress` on the
button taken alone, in every state of the button. -/
theorem World.drawOnPress_eq_alone (fuel : Nat) (env : Env) (w : World) (a : Nat)
    (b : ButtonBase) (hb : w.heap[a]? = some b) (hq : b.press.2 = []) :
    World.drawOnPress fuel env w a =
      some ({ w with heap := w.heap.set a (b.drawOnPress env).1 },
        (b.drawOnPress env).2.1, (b.drawOnPress env).2.2) := by
  cases hp : b.isPressed with
  | false =>
    rw [World.drawOnPress_alone fuel env w a b hb hq hp]
    simp [ButtonBase.drawOnPress, hp]
  | true =>
    rw [World.drawOnPress_of_pressed fuel env w a b hb hp]
    simp [ButtonBase.drawOnPress, hp, heap_set_self hb]

/-- When `release()` notifies nobody, `drawOnRelease` is `drawOnRelease` on
the button taken alone, in every state of the button. -/
theorem World.drawOnRelease_eq_alone (fuel : Nat) (env : Env) (w : World) (a : Nat)
    (b : ButtonBase) (hb : w.heap[a]? = some b) (hq : b.release.2 = []) :
    World.drawOnRelease fuel env w a =
      some ({ w with heap := w.heap.set a (b.drawOnRelease env).1 },
        (b.drawOnRelease env).2.1, (b.drawOnRelease env).2.2) := by
  cases hp : b.isPressed with
  | true =>
    rw [World.drawOnRelease_alone fuel env w a b hb hq hp]
    simp [ButtonBase.drawOnRelease, hp]
  | false =>
    rw [World.drawOnRelease_of_released fuel env w a b hb hp]
    simp [ButtonBase.drawOnRelease, hp, heap_set_self hb]

/-- Drawing the button at `a`, which is enabled, and writing it back changes
nothing. -/
theorem World.draw_back (env : Env) (w : World) (a : Nat) (b : ButtonBase)
    (hb : w.heap[a]? = some b) (he : b._isEnabled = true) :
    ({ w with heap := w.heap.set a (b.draw env).1 } : World) = w := by
  rw [ButtonBase.draw_state_of_enabled env b he, heap_set_self hb]

/-- A member of a group built with `addButton`, entered once, enabled and
released: `drawOnPress` returns true and leaves it pressed, and a second
`drawOnPress` returns false and changes nothing. -/
theorem World.drawOnPress_member_once (fuel : Nat) (env : Env) (heap : List ButtonBase)
    (self : Nat) (addrs : List Nat) (B : Nat)
    (hval : ∀ p ∈ addrs, (heap[p]?).isSome = true) (hcount : addrs.count B = 1)
    (hst : (heap[B]?).map (fun b => (b.isEnabled, b.isPressed)) = some (true, false)) :
    ∃ w0 w1 ev, World.addButtons addrs (World.init heap self) = some w0 ∧
      (w0.heap[B]?).map ButtonBase.isPressed = some false ∧
      World.drawOnPress (fuel + 1) env w0 B = some (w1, ev, true) ∧
      (w1.heap[B]?).map ButtonBase.isPressed = some true ∧
      World.drawOnPress (fuel + 1) env w1 B = some (w1, [], false) := by
  have hval1 : ∀ p ∈ addrs, ∃ b, heap[p]? = some b := by
    intro p hp
    have h := hval p hp
    cases hb : heap[p]? with
    | none => simp [hb] at h
    | some b => exact ⟨b, rfl⟩
  have hB : B ∈ addrs := List.count_pos_iff.mp (by omega)
  obtain ⟨b, hb⟩ := hval1 B hB
  have hflags : b._isEnabled = true ∧ b._isPressed = false := by
    simpa [hb, ButtonBase.isEnabled, ButtonBase.isPressed] using hst
  obtain ⟨w0, w1, pre, post, hadd, hsplit, hnot, -, -, hh0, hpress, -, -, hh1⟩ :=
    World.press_built heap self addrs B hval1 hB
      (by simp [hb, ButtonBase.isEnabled, hflags.1])
  have hnpp : B ∉ pre ++ post := by
    intro hmem
    have hc : addrs.count B = post.count B + 1 := by
      rw [hsplit, List.count_append, List.count_cons_self,
        List.count_eq_zero_of_not_mem hnot]
      omega
    rcases List.mem_append.mp hmem with h | h
    · exact hnot h
    · have := List.count_pos_iff.mpr h
      omega
  have h0B : w0.heap[B]? = some (b.subscribe self) := by rw [hh0 B]; simp [hB, hb]
  have h1B : w1.heap[B]? = some { b.subscribe self with _isPressed := true } := by
    rw [hh1 B, h0B]; simp [hnpp]
  have hdraw := World.draw_back env w1 B _ h1B
    (by simp [ButtonBase.subscribe, hflags.1])
  refine ⟨w0, w1,
    (({ b.subscribe self with _isPressed := true } : ButtonBase).draw env).2 ++
      [Event.render
        ((({ b.subscribe self with _isPressed := true } : ButtonBase).draw env).1.area env)],
    hadd, by simp [h0B, ButtonBase.isPressed, ButtonBase.subscribe, hflags.2],
    ?_, by simp [h1B, ButtonBase.isPressed],
    World.drawOnPress_of_pressed (fuel + 1) env w1 B _ h1B rfl⟩
  have hrel0 : (b.subscribe self).isPressed = false := by
    simp [ButtonBase.isPressed, ButtonBase.subscribe, hflags.2]
  simp only [World.drawOnPress, h0B, hrel0, Bool.not_false, if_true, hpress fuel, h1B]
  rw [hdraw]

/-- A member of a group built with `addButton`, entered any number of times,
enabled and pressed: `drawOnRelease` returns true and leaves it released. -/
theorem World.drawOnRelease_member (fuel : Nat) (env : Env) (heap : List ButtonBase)
    (self : Nat) (addrs : List Nat) (B : Nat)
    (hval : ∀ p ∈ addrs, (heap[p]?).isSome = true) (hB : B ∈ addrs)
    (hst : (heap[B]?).map (fun b => (b.isEnabled, b.isPressed)) = some (true, true)) :
    ∃ w0 w1 ev, World.addButtons addrs (World.init heap self) = some w0 ∧
      (w0.heap[B]?).map ButtonBase.isPressed = some true ∧
      World.drawOnRelease (fuel + 1) env w0 B = some (w1, ev, true) ∧
      (w1.heap[B]?).map ButtonBase.isPressed = some false := by
  have hval1 : ∀ p ∈ addrs, ∃ b, (World.init heap self).heap[p]? = some b := by
    intro p hp
    have h := hval p hp
    cases hb : heap[p]? with
    | none => simp [hb] at h
    | some b => exact ⟨b, by simpa [World.init] using hb⟩
  obtain ⟨b, hb⟩ : ∃ b, heap[B]? = some b := by
    simpa [World.init] using hval1 B hB
  have hflags : b._isEnabled = true ∧ b._isPressed = true := by
    simpa [hb, ButtonBase.isEnabled, ButtonBase.isPressed] using hst
  obtain ⟨w0, hadd, hself, -, -, -, -, hheap0⟩ :=
    World.addButtons_spec addrs (World.init heap self) hval1
  have hself0 : w0.group.self = self := by simpa [World.init] using hself
  have h0B : w0.heap[B]? = some (b.subscribe self) := by
    rw [hheap0 B]; simp [hB, World.init, hb]
  have hrel := World.release_member fuel w0 B (b.subscribe self) h0B
    (by simp [ButtonBase.subscribe, hflags.1]) (by rw [hself0]; rfl)
  have h1B : ({ w0 with
      heap := w0.heap.set B { b.subscribe self with _isPressed := false }
      senderUpdates := w0.senderUpdates + 1 } : World).heap[B]? =
      some { b.subscribe self with _isPressed := false } := by
    simp [getElem?_set_of_some h0B]
  have hdraw := World.draw_back env _ B _ h1B (by simp [ButtonBase.subscribe, hflags.1])
  refine ⟨w0,
    { w0 with
      heap := w0.heap.set B { b.subscribe self with _isPressed := false }
      senderUpdates := w0.senderUpdates + 1 },
    (({ b.subscribe self with _isPressed := false } : ButtonBase).draw env).2 ++
      [Event.render
        ((({ b.subscribe self with _isPressed := false } : ButtonBase).draw env).1.area env)],
    hadd, by simp [h0B, ButtonBase.isPressed, ButtonBase.subscribe, hflags.2], ?_,
    by simp [h1B, ButtonBase.isPressed]⟩
  have hpr0 : (b.subscribe self).isPressed = true := by
    simp [ButtonBase.isPressed, ButtonBase.subscribe, hflags.2]
  simp only [World.drawOnRelease, h0B, hpr0, if_true, hrel, h1B]
  rw [hdraw]

/-- The group as `addButton` builds it: the members are subscribed, nothing
else is changed. -/
theorem World.built (heap : List ButtonBase) (self : Nat) (addrs : List Nat)
    (hval : ∀ p ∈ addrs, (heap[p]?).isSome = true) :
    ∃ w0, World.addButtons addrs (World.init heap self) = some w0 ∧
      ∀ a, w0.heap[a]? =
        if a ∈ addrs then (heap[a]?).map (fun b => b.subscribe self) else heap[a]? := by
  have hval1 : ∀ p ∈ addrs, ∃ b, (World.init heap self).heap[p]? = some b := by
    intro p hp
    have h := hval p hp
    cases hb : heap[p]? with
    | none => simp [hb] at h
    | some b => exact ⟨b, by simpa [World.init] using hb⟩
  obtain ⟨w0, hadd, -, -, -, -, -, hheap0⟩ :=
    World.addButtons_spec addrs (World.init heap self) hval1
  exact ⟨w0, hadd, fun a => by simpa [World.init] using hheap0 a⟩

/-! ### Claims on `drawOnPress` and `drawOnRelease` -/

/-- C4 fails as stated. The buttons A, B, C of `sampleHeap` are added to an
`OptionButtonGroup`, B twice. B is enabled and released. `drawOnPress` on B
returns true, but B is released after it: inside `press()` the handler of the
group has released B through its second entry before `draw` ran. A second
`drawOnPress` right after returns true again, not false. -/
theorem C4_counterexample :
    (World.addButtons [0, 1, 2, 1] (World.init sampleHeap 50)).map
        (fun w0 => (w0.heap[1]?).map (fun b => (b.isEnabled, b.isPressed))) =
      some (some (true, false)) ∧
    ((World.addButtons [0, 1, 2, 1] (World.init sampleHeap 50)).bind
        (fun w0 => World.drawOnPress 1 sampleEnv w0 1)).map
          (fun res => ((res.1.heap[1]?).map ButtonBase.isPressed, res.2.2)) =
      some (some false, true) ∧
    (((World.addButtons [0, 1, 2, 1] (World.init sampleHeap 50)).bind
        (fun w0 => World.drawOnPress 1 sampleEnv w0 1)).bind
          (fun res => World.drawOnPress 1 sampleEnv res.1 1)).map (fun res => res.2.2) =
      some true := by
  decide

/-- C4 as amended: on an enabled, released button that has no receiver, and
on an enabled, released button that has been added once to the
`OptionButtonGroup` it is subscribed to, `drawOnPress` returns true and leaves
the button pressed, and a second `drawOnPress` right after returns false and
changes nothing; on a pressed button, whatever its receiver, `drawOnPress`
returns false, changes nothing in memory and produces no event (no press, no
draw, no notification). -/
theorem C4_drawOnPress_edge (fuel : Nat) (env : Env) :
    (∀ (w : World) (a : Nat) (b : ButtonBase), w.heap[a]? = some b →
      b._receiver = none → b.isEnabled = true → b.isPressed = false →
      ∃ w1 ev, World.drawOnPress fuel env w a = some (w1, ev, true) ∧
        (w1.heap[a]?).map ButtonBase.isPressed = some true ∧
        World.drawOnPress fuel env w1 a = some (w1, [], false)) ∧
    (∀ (heap : List ButtonBase) (self : Nat) (addrs : List Nat) (B : Nat),
      (∀ p ∈ addrs, (heap[p]?).isSome = true) → addrs.count B = 1 →
      (heap[B]?).map (fun b => (b.isEnabled, b.isPressed)) = some (true, false) →
      ∃ w0 w1 ev, World.addButtons addrs (World.init heap self) = some w0 ∧
        World.drawOnPress (fuel + 1) env w0 B = some (w1, ev, true) ∧
        (w1.heap[B]?).map ButtonBase.isPressed = some true ∧
        World.drawOnPress (fuel + 1) env w1 B = some (w1, [], false)) ∧
    (∀ (w : World) (a : Nat) (b : ButtonBase), w.heap[a]? = some b →
      b.isPressed = true → World.drawOnPress fuel env w a = some (w, [], false)) := by
  refine ⟨?_, ?_, ?_⟩
  · intro w a b hb hr he hp
    have hq := b.press_events_of_unsubscribed hr
    have hpure := (ButtonBase.drawOnPress_edge_alone env b).1 he hp
    have h1 : ({ w with heap := w.heap.set a (b.drawOnPress env).1 } : World).heap[a]? =
        some (b.drawOnPress env).1 := by
      simp [getElem?_set_of_some hb]
    refine ⟨_, _, World.drawOnPress_alone fuel env w a b hb hq hp, ?_,
      World.drawOnPress_of_pressed fuel env _ a _ h1 hpure.2.1⟩
    rw [h1]
    simp [hpure.2.1]
  · intro heap self addrs B hval hcount hst
    obtain ⟨w0, w1, ev, hadd, -, h1, h2, h3⟩ :=
      World.drawOnPress_member_once fuel env heap self addrs B hval hcount hst
    exact ⟨w0, w1, ev, hadd, h1, h2, h3⟩
  · intro w a b hb hp
    exact World.drawOnPress_of_pressed fuel env w a b hb hp

/-- C4 as amended, evaluated on the buttons A, B, C of `sampleHeap`: on B
before it is added to any group, on B as a member added once of the group of
A, B, C, and on A, which is pressed. -/
theorem C4_drawOnPress_edge_witness :
    (∃ w1 ev, World.drawOnPress 1 sampleEnv (World.init sampleHeap 50) 1 = some (w1, ev, true) ∧
      (w1.heap[1]?).map ButtonBase.isPressed = some true ∧
      World.drawOnPress 1 sampleEnv w1 1 = some (w1, [], false)) ∧
    (∃ w0 w1 ev, World.addButtons [0, 1, 2] (World.init sampleHeap 50) = some w0 ∧
      World.drawOnPress (0 + 1) sampleEnv w0 1 = some (w1, ev, true) ∧
      (w1.heap[1]?).map ButtonBase.isPressed = some true ∧
      World.drawOnPress (0 + 1) sampleEnv w1 1 = some (w1, [], false)) ∧
    World.drawOnPress 1 sampleEnv (World.init sampleHeap 50) 0 =
      some (World.init sampleHeap 50, [], false) :=
  ⟨(C4_drawOnPress_edge 1 sampleEnv).1 (World.init sampleHeap 50) 1 sampleButton
      (by decide) (by decide) (by decide) (by decide),
    (C4_drawOnPress_edge 0 sampleEnv).2.1 sampleHeap 50 [0, 1, 2] 1
      (by decide) (by decide) (by decide),
    (C4_drawOnPress_edge 1 sampleEnv).2.2 (World.init sampleHeap 50) 0 sampleButton.press.1
      (by decide) (by decide)⟩

/-- C5 as amended. In every state and with every receiver, `drawOnPress` on
a pressed button and `drawOnRelease` on a released button return false,
change nothing in memory and produce no event, and these are the only calls
that return false: `drawOnPress` returns whether the button was released
before the call and `drawOnRelease` whether it was pressed. For an enabled
button the boolean returned by
`drawOnPress` is true exactly when the call changed the pressed flag, if the
button has no receiver or has been added once to the `OptionButtonGroup` it
is subscribed to. For a button that is not both pressed and disabled the
boolean returned by `drawOnRelease` is true exactly when the call changed the
pressed flag, if the button has no receiver or is a member, added any number
of times, of the `OptionButtonGroup` it is subscribed to. On a disabled,
released button `drawOnPress` returns true although the pressed flag stays
false. -/
theorem C5_draw_return_value (fuel : Nat) (env : Env) :
    (∀ (w : World) (a : Nat) (b : ButtonBase), w.heap[a]? = some b →
      (b.isPressed = true → World.drawOnPress fuel env w a = some (w, [], false)) ∧
      (b.isPressed = false → World.drawOnRelease fuel env w a = some (w, [], false)) ∧
      (∀ res, World.drawOnPress fuel env w a = some res →
        res.2.2 = b.isReleased ∧ (res.2.2 = false → res = (w, [], false))) ∧
      (∀ res, World.drawOnRelease fuel env w a = some res →
        res.2.2 = b.isPressed ∧ (res.2.2 = false → res = (w, [], false)))) ∧
    (∀ (w : World) (a : Nat) (b : ButtonBase), w.heap[a]? = some b → b._receiver = none →
      ∃ w1 ev r w2 ev2 r2, World.drawOnPress fuel env w a = some (w1, ev, r) ∧
        World.drawOnRelease fuel env w a = some (w2, ev2, r2) ∧
        (b.isEnabled = true →
          (r = true ↔ (w1.heap[a]?).map ButtonBase.isPressed ≠ some b.isPressed)) ∧
        ((b.isPressed = true → b.isEnabled = true) →
          (r2 = true ↔ (w2.heap[a]?).map ButtonBase.isPressed ≠ some b.isPressed))) ∧
    (∀ (heap : List ButtonBase) (self : Nat) (addrs : List Nat) (B : Nat) (b : ButtonBase),
      (∀ p ∈ addrs, (heap[p]?).isSome = true) → addrs.count B = 1 →
      heap[B]? = some b → b.isEnabled = true →
      ∃ w0 w1 ev r, World.addButtons addrs (World.init heap self) = some w0 ∧
        World.drawOnPress (fuel + 1) env w0 B = some (w1, ev, r) ∧
        (r = true ↔
          (w1.heap[B]?).map ButtonBase.isPressed ≠ (w0.heap[B]?).map ButtonBase.isPressed)) ∧
    (∀ (heap : List ButtonBase) (self : Nat) (addrs : List Nat) (B : Nat) (b : ButtonBase),
      (∀ p ∈ addrs, (heap[p]?).isSome = true) → B ∈ addrs →
      heap[B]? = some b → (b.isPressed = true → b.isEnabled = true) →
      ∃ w0 w1 ev r, World.addButtons addrs (World.init heap self) = some w0 ∧
        World.drawOnRelease (fuel + 1) env w0 B = some (w1, ev, r) ∧
        (r = true ↔
          (w1.heap[B]?).map ButtonBase.isPressed ≠ (w0.heap[B]?).map ButtonBase.isPressed)) ∧
    (∀ (w : World) (a : Nat) (b : ButtonBase), w.heap[a]? = some b →
      b.isDisabled = true → b.isPressed = false →
      ∃ w1 ev, World.drawOnPress fuel env w a = some (w1, ev, true) ∧
        (w1.heap[a]?).map ButtonBase.isPressed = some false) := by
  refine ⟨?_, ?_, ?_, ?_, ?_⟩
  · intro w a b hb
    refine ⟨World.drawOnPress_of_pressed fuel env w a b hb,
      World.drawOnRelease_of_released fuel env w a b hb, ?_, ?_⟩
    · intro res hres
      cases hp : b.isPressed with
      | true =>
        rw [World.drawOnPress_of_pressed fuel env w a b hb hp] at hres
        rw [← Option.some.inj hres]
        simp [ButtonBase.isReleased, ButtonBase.isPressed] at hp ⊢
        exact hp
      | false =>
        have hrl : b.isReleased = true := by
          simpa [ButtonBase.isReleased, ButtonBase.isPressed] using hp
        simp only [World.drawOnPress, hb, hp, Bool.not_false, if_true] at hres
        cases hpr : World.press fuel w a with
        | none => simp [hpr] at hres
        | some w1 =>
          simp only [hpr] at hres
          cases h1 : w1.heap[a]? with
          | none => simp [h1] at hres
          | some b1 =>
            simp only [h1, Option.some.injEq] at hres
            rw [← hres, hrl]
            simp
    · intro res hres
      cases hp : b.isPressed with
      | false =>
        rw [World.drawOnRelease_of_released fuel env w a b hb hp] at hres
        rw [← Option.some.inj hres]
        simp
      | true =>
        simp only [World.drawOnRelease, hb, hp, if_true] at hres
        cases hpr : World.release fuel w a with
        | none => simp [hpr] at hres
        | some w1 =>
          simp only [hpr] at hres
          cases h1 : w1.heap[a]? with
          | none => simp [h1] at hres
          | some b1 =>
            simp only [h1, Option.some.injEq] at hres
            rw [← hres]
            simp
  · intro w a b hb hr
    have hq1 := b.press_events_of_unsubscribed hr
    have hq2 := b.release_events_of_unsubscribed hr
    obtain ⟨p1, p2, -, -, -, -, -⟩ := ButtonBase.draw_return_value_alone env b
    have h1 : ({ w with heap := w.heap.set a (b.drawOnPress env).1 } : World).heap[a]? =
        some (b.drawOnPress env).1 := by
      simp [getElem?_set_of_some hb]
    have h2 : ({ w with heap := w.heap.set a (b.drawOnRelease env).1 } : World).heap[a]? =
        some (b.drawOnRelease env).1 := by
      simp [getElem?_set_of_some hb]
    refine ⟨_, _, _, _, _, _, World.drawOnPress_eq_alone fuel env w a b hb hq1,
      World.drawOnRelease_eq_alone fuel env w a b hb hq2, ?_, ?_⟩
    · intro he
      rw [h1, p1 he]
      simp [ButtonBase.isPressed]
    · intro hinv
      rw [h2, p2 hinv]
      simp [ButtonBase.isPressed]
  · intro heap self addrs B b hval hcount hb he
    have hB : B ∈ addrs := List.count_pos_iff.mp (by omega)
    cases hp : b.isPressed with
    | false =>
      obtain ⟨w0, w1, ev, hadd, h0, h1, h2, -⟩ :=
        World.drawOnPress_member_once fuel env heap self addrs B hval hcount
          (by simp [hb, he, hp])
      exact ⟨w0, w1, ev, true, hadd, h1, by rw [h2, h0]; simp⟩
    | true =>
      obtain ⟨w0, hadd, hh0⟩ := World.built heap self addrs hval
      have h0B : w0.heap[B]? = some (b.subscribe self) := by rw [hh0 B]; simp [hB, hb]
      exact ⟨w0, w0, [], false, hadd,
        World.drawOnPress_of_pressed (fuel + 1) env w0 B _ h0B
          (by simpa [ButtonBase.isPressed, ButtonBase.subscribe] using hp), by simp⟩
  · intro heap self addrs B b hval hB hb hinv
    cases hp : b.isPressed with
    | true =>
      obtain ⟨w0, w1, ev, hadd, h0, h1, h2⟩ :=
        World.drawOnRelease_member fuel env heap self addrs B hval hB
          (by simp [hb, hinv hp, hp])
      exact ⟨w0, w1, ev, true, hadd, h1, by rw [h2, h0]; simp⟩
    | false =>
      obtain ⟨w0, hadd, hh0⟩ := World.built heap self addrs hval
      have h0B : w0.heap[B]? = some (b.subscribe self) := by rw [hh0 B]; simp [hB, hb]
      exact ⟨w0, w0, [], false, hadd,
        World.drawOnRelease_of_released (fuel + 1) env w0 B _ h0B
          (by simpa [ButtonBase.isPressed, ButtonBase.subscribe] using hp), by simp⟩
  · intro w a b hb hd hp
    have he : b._isEnabled = false := by simpa [ButtonBase.isDisabled] using hd
    have hq : b.press.2 = [] := by
      simp [ButtonBase.press, ButtonBase.isEnabled, he]
    obtain ⟨-, -, -, -, p5, -, -⟩ := ButtonBase.draw_return_value_alone env b
    have h1 : ({ w with heap := w.heap.set a (b.drawOnPress env).1 } : World).heap[a]? =
        some (b.drawOnPress env).1 := by
      simp [getElem?_set_of_some hb]
    refine ⟨_, _, World.drawOnPress_alone fuel env w a b hb hq hp, ?_⟩
    rw [h1]
    simp [ButtonBase.isPressed, (p5 hd hp).2]

/-- C5 as amended, evaluated on the buttons of `sampleHeap` and `mixedHeap`:
the released, enabled B without receiver; B as a member added once; the
pressed A as a member added twice under `drawOnRelease`; and the disabled
third button of `mixedHeap`. -/
theorem C5_draw_return_value_witness :
    (∃ w1 ev r w2 ev2 r2,
      World.drawOnPress 1 sampleEnv (World.init sampleHeap 50) 1 = some (w1, ev, r) ∧
      World.drawOnRelease 1 sampleEnv (World.init sampleHeap 50) 1 = some (w2, ev2, r2) ∧
      (sampleButton.isEnabled = true →
        (r = true ↔ (w1.heap[1]?).map ButtonBase.isPressed ≠ some sampleButton.isPressed)) ∧
      ((sampleButton.isPressed = true → sampleButton.isEnabled = true) →
        (r2 = true ↔ (w2.heap[1]?).map ButtonBase.isPressed ≠ some sampleButton.isPressed))) ∧
    (∃ w0 w1 ev r, World.addButtons [0, 1, 2] (World.init sampleHeap 50) = some w0 ∧
      World.drawOnPress (0 + 1) sampleEnv w0 1 = some (w1, ev, r) ∧
      (r = true ↔
        (w1.heap[1]?).map ButtonBase.isPressed ≠ (w0.heap[1]?).map ButtonBase.isPressed)) ∧
    (∃ w0 w1 ev r, World.addButtons [0, 1, 2, 0] (World.init sampleHeap 50) = some w0 ∧
      World.drawOnRelease (0 + 1) sampleEnv w0 0 = some (w1, ev, r) ∧
      (r = true ↔
        (w1.heap[0]?).map ButtonBase.isPressed ≠ (w0.heap[0]?).map ButtonBase.isPressed)) ∧
    (∃ w1 ev, World.drawOnPress 1 sampleEnv (World.init mixedHeap 50) 2 = some (w1, ev, true) ∧
      (w1.heap[2]?).map ButtonBase.isPressed = some false) ∧
    ((World.addButtons [0, 1, 2, 0] (World.init sampleHeap 50)).bind
        (fun w0 => World.drawOnRelease 1 sampleEnv w0 0)).map
          (fun res => ((res.1.heap[0]?).map ButtonBase.isPressed, res.2.2)) =
      some (some false, true) :=
  ⟨(C5_draw_return_value 1 sampleEnv).2.1 (World.init sampleHeap 50) 1 sampleButton
      (by decide) (by decide),
    (C5_draw_return_value 0 sampleEnv).2.2.1 sampleHeap 50 [0, 1, 2] 1 sampleButton
      (by decide) (by decide) (by decide) (by decide),
    (C5_draw_return_value 0 sampleEnv).2.2.2.1 sampleHeap 50 [0, 1, 2, 0] 0
      sampleButton.press.1 (by decide) (by decide) (by decide) (by decide),
    (C5_draw_return_value 1 sampleEnv).2.2.2.2 (World.init mixedHeap 50) 2
      sampleButton.disable.1 (by decide) (by decide) (by decide),
    by decide⟩

end fheroes2
